import Mathlib

/-
  Shallow embedding of the `graph` Go package (src/graph.go, src/nest_tree.go).

  Pointers are modelled as `Option Nat` indices into per-kind heaps (lists) held
  by the `Graph` state; a `nil` pointer is `none`.  Elements are created with
  index = current list length and are never deleted, so indices are stable.
  Cross-graph pointer comparisons (`node.graph != graph`, handle ownership
  checks) are modelled by tagging every graph with an identity `gid : Nat` and
  comparing identities; a pointer into a possibly different graph is a pair
  `(gid, index)`.

  Go calls can finish in four ways, modelled by `GoRes`:
  returning a value (`ok`), returning an error built with `errors.New`
  (`errored`), panicking — including runtime faults such as out-of-range slice
  indexing and nil dereference — (`panicked`), or failing to terminate, which a
  fueled loop reports as `diverged` when the fuel runs out.
  Mutating operations return the heap next to the `GoRes`, so that theorems can
  talk about what an operation changed even when it fails.
-/

namespace GraphPkg

/-- Result of running a Go operation: normal return, returned error, panic,
or fuel exhaustion of a loop (non-termination witness). -/
inductive GoRes (α : Type) where
  | ok : α → GoRes α
  | errored : String → GoRes α
  | panicked : GoRes α
  | diverged : GoRes α
deriving DecidableEq, Repr

/-- String attribute value representation (Go struct `strAttrVal`). -/
structure StrAttrVal where
  isSet : Bool
  data : String
deriving DecidableEq, Repr

/-- Zero value of `strAttrVal` (Go `make` initialisation). -/
def StrAttrVal.zero : StrAttrVal := ⟨false, ""⟩

/-- Attribute pool sizes (Go struct `AttrSpec`). -/
structure AttrSpec where
  GraphStrAttrNum : Nat
  NodeStrAttrNum : Nat
  NestStrAttrNum : Nat
deriving DecidableEq, Repr

/-- Go struct `graphStrAttr` shared by `GraphStrAttr` and `NodeStrAttr`:
slot number (Go `int`, may be the sentinel -1), validity flag, and the
owning graph (`nil` modelled as `none`, otherwise the graph identity). -/
structure GraphStrAttrH where
  attrNum : Int
  isValid : Bool
  graph : Option Nat
deriving DecidableEq, Repr

/-- Go struct `nestTreeStrAttr` (nest string attribute handle): slot number,
validity flag, owning nest tree (identified by its base graph identity). -/
structure NestStrAttrH where
  attr_num : Int
  is_valid : Bool
  nestTree : Option Nat
deriving DecidableEq, Repr

/-- Go global `graph_str_attr_invalid`. -/
def graph_str_attr_invalid : GraphStrAttrH := ⟨-1, false, none⟩

/-- Go global `node_str_attr_invalid`. -/
def node_str_attr_invalid : GraphStrAttrH := ⟨-1, false, none⟩

/-- Go global `nest_str_attr_invalid`. -/
def nest_str_attr_invalid : NestStrAttrH := ⟨-1, false, none⟩

/-- Go struct `Node`. Edge/node/nest pointers are heap indices. -/
structure Node where
  firstIncomingEdge : Option Nat
  firstOutcomingEdge : Option Nat
  id : Nat
  nest : Option Nat
  nextNodeInNest : Option Nat
  prevNodeInNest : Option Nat
  graph : Nat
  strAttrs : List StrAttrVal
deriving DecidableEq, Repr

/-- Go struct `Edge`. -/
structure Edge where
  id : Nat
  graph : Nat
  srcNode : Option Nat
  dstNode : Option Nat
  nextOutcomingEdge : Option Nat
  prevOutcomingEdge : Option Nat
  nextIncomingEdge : Option Nat
  prevIncomingEdge : Option Nat
  nextEdgeInNest : Option Nat
  prevEdgeInNest : Option Nat
  nest : Option Nat
deriving DecidableEq, Repr

/-- Go struct `Nest`.  The `nestTree` back pointer is modelled by the identity
of the tree's base graph (each graph owns exactly one nest tree), `none`
standing for a nil tree pointer. -/
structure Nest where
  id : Nat
  nestTree : Option Nat
  level : Nat
  parentNest : Option Nat
  firstChildNest : Option Nat
  lastChildNest : Option Nat
  nextSiblingNest : Option Nat
  prevSiblingNest : Option Nat
  firstNode : Option Nat
  lastNode : Option Nat
  firstEdge : Option Nat
  strAttrs : List StrAttrVal
deriving DecidableEq, Repr

/-- Go struct `Graph` with its `NestTree` (struct of nest_tree.go) inlined:
`nestCount`, `rootNest`, `baseGraph` and `nestStrAttrAllocMap` are the fields
of the graph's unique nest tree.  `gid` is the graph's identity used to model
pointer comparisons between graphs. -/
structure Graph where
  gid : Nat
  baseGraph : Option Nat
  nestCount : Nat
  rootNest : Option Nat
  nests : List Nest
  nodeCount : Nat
  edgeCount : Nat
  attrSpec : AttrSpec
  graphStrAttrAllocMap : List Bool
  nodeStrAttrAllocMap : List Bool
  nestStrAttrAllocMap : List Bool
  strAttrs : List StrAttrVal
  nodes : List Node
  edges : List Edge
deriving DecidableEq, Repr

/-! ### Heap helpers -/

/-- Modify the element at index `i` (no-op when out of range; every Go access
that could fault is guarded by an explicit lookup before using this). -/
def modAt {α : Type} (l : List α) (i : Nat) (f : α → α) : List α :=
  match l.get? i with
  | some a => l.set i (f a)
  | none => l

def updNode (g : Graph) (i : Nat) (f : Node → Node) : Graph :=
  { g with nodes := modAt g.nodes i f }

def updEdge (g : Graph) (i : Nat) (f : Edge → Edge) : Graph :=
  { g with edges := modAt g.edges i f }

def updNest (g : Graph) (i : Nat) (f : Nest → Nest) : Graph :=
  { g with nests := modAt g.nests i f }

/-- Go slice read `l[i]` with an `int` index: `none` models the runtime
index-out-of-range panic. -/
def idxGet (l : List StrAttrVal) (i : Int) : Option StrAttrVal :=
  if 0 ≤ i then l.get? i.toNat else none

/-- Go slice write `l[i] = v` with an `int` index: `none` models the runtime
index-out-of-range panic. -/
def idxSet (l : List StrAttrVal) (i : Int) (v : StrAttrVal) : Option (List StrAttrVal) :=
  if 0 ≤ i ∧ i.toNat < l.length then some (l.set i.toNat v) else none

/-- Go write `allocMap[i] = b` on a `[]bool` with an `int` index. -/
def idxSetBool (l : List Bool) (i : Int) (b : Bool) : Option (List Bool) :=
  if 0 ≤ i ∧ i.toNat < l.length then some (l.set i.toNat b) else none

/-- The Go `for i := 0; ...` scan of an allocation map: index of the first
`false` entry, `none` when every slot is allocated. -/
def findFree : List Bool → Option Nat
  | [] => none
  | b :: rest => if b = false then some 0 else (findFree rest).map (· + 1)

/-! ### Construction (`NewGraph`, `newNestTree`) -/

/-- `newNestTree` + `NewGraph`: the root nest is built by `newNestTree` with a
struct literal that does not mention `strAttrs`, so the root's attribute array
is the zero value (nil slice), modelled as `[]`. -/
def NewGraph (gid : Nat) (attr_spec : AttrSpec) : Graph :=
  { gid := gid
    baseGraph := some gid
    nestCount := 1
    rootNest := some 0
    nests := [{ id := 0
                nestTree := some gid
                level := 0
                parentNest := none
                firstChildNest := none
                lastChildNest := none
                nextSiblingNest := none
                prevSiblingNest := none
                firstNode := none
                lastNode := none
                firstEdge := none
                strAttrs := [] }]
    nodeCount := 0
    edgeCount := 0
    attrSpec := attr_spec
    graphStrAttrAllocMap := List.replicate attr_spec.GraphStrAttrNum false
    nodeStrAttrAllocMap := List.replicate attr_spec.NodeStrAttrNum false
    nestStrAttrAllocMap := List.replicate attr_spec.NestStrAttrNum false
    strAttrs := List.replicate attr_spec.GraphStrAttrNum StrAttrVal.zero
    nodes := []
    edges := [] }

/-! ### Attribute slot allocation -/

/-- `Graph.NewGraphStrAttr`. -/
def Graph.NewGraphStrAttr (g : Graph) : Graph × GoRes GraphStrAttrH :=
  match findFree g.graphStrAttrAllocMap with
  | some i =>
      ({ g with graphStrAttrAllocMap := g.graphStrAttrAllocMap.set i true },
       .ok ⟨(i : Int), true, some g.gid⟩)
  | none => (g, .errored "No available graph string attributes")

/-- `Graph.NewNodeStrAttr`. -/
def Graph.NewNodeStrAttr (g : Graph) : Graph × GoRes GraphStrAttrH :=
  match findFree g.nodeStrAttrAllocMap with
  | some i =>
      ({ g with nodeStrAttrAllocMap := g.nodeStrAttrAllocMap.set i true },
       .ok ⟨(i : Int), true, some g.gid⟩)
  | none => (g, .errored "No available node string attributes")

/-- `NestTree.NewNestStrAttr` (the tree is inlined in `Graph`). -/
def NestTree.NewNestStrAttr (g : Graph) : Graph × GoRes NestStrAttrH :=
  match findFree g.nestStrAttrAllocMap with
  | some i =>
      ({ g with nestStrAttrAllocMap := g.nestStrAttrAllocMap.set i true },
       .ok ⟨(i : Int), true, some g.gid⟩)
  | none => (g, .errored "No available nest string attributes")

/-! ### Per-element attribute operations -/

/-- `Graph.SetStrAttrVal`. -/
def Graph.SetStrAttrVal (g : Graph) (attr : GraphStrAttrH) (val : String) :
    Graph × GoRes Unit :=
  if attr.isValid = false then (g, .errored "The attribute is invalid")
  else if attr.graph ≠ some g.gid then
    (g, .errored "The attribute doesn't belong to the graph")
  else
    match idxSet g.strAttrs attr.attrNum ⟨true, val⟩ with
    | some arr => ({ g with strAttrs := arr }, .ok ())
    | none => (g, .panicked)

/-- `Graph.GetStrAttrVal`. -/
def Graph.GetStrAttrVal (g : Graph) (attr : GraphStrAttrH) : GoRes String :=
  if ¬ attr.isValid then .errored "The attribute is invalid"
  else if attr.graph ≠ some g.gid then
    .errored "The attribute doesn't belong to the graph"
  else
    match idxGet g.strAttrs attr.attrNum with
    | some v => if ¬ v.isSet then .errored "The attribute is not set for the graph" else .ok v.data
    | none => .panicked

/-- `Graph.IsStrAttrSet`. -/
def Graph.IsStrAttrSet (g : Graph) (attr : GraphStrAttrH) : GoRes Bool :=
  if ¬ attr.isValid then .errored "The attribute is invalid"
  else if attr.graph ≠ some g.gid then
    .errored "The attribute doesn't belong to the graph"
  else
    match idxGet g.strAttrs attr.attrNum with
    | some v => .ok v.isSet
    | none => .panicked

/-- `Graph.RemoveStrAttr`.  The Go source builds `errors.New(...)` for an
invalid or foreign handle but never returns it, so both checks fall through
and the write `graph.strAttrs[attr.attrNum].isSet = false` is always
attempted. -/
def Graph.RemoveStrAttr (g : Graph) (attr : GraphStrAttrH) : Graph × GoRes Unit :=
  match idxGet g.strAttrs attr.attrNum with
  | some old =>
      match idxSet g.strAttrs attr.attrNum { old with isSet := false } with
      | some arr => ({ g with strAttrs := arr }, .ok ())
      | none => (g, .panicked)
  | none => (g, .panicked)

/-- `Node.SetStrAttrVal`. -/
def Node.SetStrAttrVal (g : Graph) (nodeIdx : Nat) (attr : GraphStrAttrH)
    (val : String) : Graph × GoRes Unit :=
  match g.nodes.get? nodeIdx with
  | none => (g, .panicked)
  | some node =>
      if attr.isValid = false then (g, .errored "The attribute is invalid")
      else if attr.graph ≠ some node.graph then
        (g, .errored "The attribute and the node belong to different graphs")
      else
        match idxSet node.strAttrs attr.attrNum ⟨true, val⟩ with
        | some arr => (updNode g nodeIdx (fun m => { m with strAttrs := arr }), .ok ())
        | none => (g, .panicked)

/-- `Node.GetStrAttrVal`. -/
def Node.GetStrAttrVal (g : Graph) (nodeIdx : Nat) (attr : GraphStrAttrH) :
    GoRes String :=
  match g.nodes.get? nodeIdx with
  | none => .panicked
  | some node =>
      if ¬ attr.isValid then .errored "The attribute is invalid"
      else if attr.graph ≠ some node.graph then
        .errored "The attribute and the node belong to different graphs"
      else
        match idxGet node.strAttrs attr.attrNum with
        | some v =>
            if ¬ v.isSet then .errored "The attribute is not set for the node" else .ok v.data
        | none => .panicked

/-- `Node.IsStrAttrSet`. -/
def Node.IsStrAttrSet (g : Graph) (nodeIdx : Nat) (attr : GraphStrAttrH) :
    GoRes Bool :=
  match g.nodes.get? nodeIdx with
  | none => .panicked
  | some node =>
      if ¬ attr.isValid then .errored "The attribute is invalid"
      else if attr.graph ≠ some node.graph then
        .errored "The attribute and the node belong to different graphs"
      else
        match idxGet node.strAttrs attr.attrNum with
        | some v => .ok v.isSet
        | none => .panicked

/-- `Node.RemoveStrAttr`.  As in `Graph.RemoveStrAttr`, the two `errors.New`
results are discarded by the Go source, so the method always reaches the
write `node.strAttrs[attr.attrNum].isSet = false`. -/
def Node.RemoveStrAttr (g : Graph) (nodeIdx : Nat) (attr : GraphStrAttrH) :
    Graph × GoRes Unit :=
  match g.nodes.get? nodeIdx with
  | none => (g, .panicked)
  | some node =>
      match idxGet node.strAttrs attr.attrNum with
      | some old =>
          match idxSet node.strAttrs attr.attrNum { old with isSet := false } with
          | some arr => (updNode g nodeIdx (fun m => { m with strAttrs := arr }), .ok ())
          | none => (g, .panicked)
      | none => (g, .panicked)

/-- `Nest.SetStrAttrVal`. -/
def Nest.SetStrAttrVal (g : Graph) (nestIdx : Nat) (attr : NestStrAttrH)
    (val : String) : Graph × GoRes Unit :=
  match g.nests.get? nestIdx with
  | none => (g, .panicked)
  | some nest =>
      if attr.is_valid = false then (g, .errored "The attribute is invalid")
      else if attr.nestTree ≠ nest.nestTree then
        (g, .errored "The attribute and the nest belong to different nest trees")
      else
        match idxSet nest.strAttrs attr.attr_num ⟨true, val⟩ with
        | some arr => (updNest g nestIdx (fun m => { m with strAttrs := arr }), .ok ())
        | none => (g, .panicked)

/-- `Nest.GetStrAttrVal`. -/
def Nest.GetStrAttrVal (g : Graph) (nestIdx : Nat) (attr : NestStrAttrH) :
    GoRes String :=
  match g.nests.get? nestIdx with
  | none => .panicked
  | some nest =>
      if ¬ attr.is_valid then .errored "The attribute is invalid"
      else if attr.nestTree ≠ nest.nestTree then
        .errored "The attribute and the nest belong to different nest trees"
      else
        match idxGet nest.strAttrs attr.attr_num with
        | some v =>
            if ¬ v.isSet then .errored "The attribute is not set for the nest" else .ok v.data
        | none => .panicked

/-- `Nest.IsStrAttrSet`. -/
def Nest.IsStrAttrSet (g : Graph) (nestIdx : Nat) (attr : NestStrAttrH) :
    GoRes Bool :=
  match g.nests.get? nestIdx with
  | none => .panicked
  | some nest =>
      if ¬ attr.is_valid then .errored "The attribute is invalid"
      else if attr.nestTree ≠ nest.nestTree then
        .errored "The attribute and the nest belong to different nest trees"
      else
        match idxGet nest.strAttrs attr.attr_num with
        | some v => .ok v.isSet
        | none => .panicked

/-- `Nest.RemoveStrAttr`.  As in the other two variants, the Go source
discards both `errors.New` results, so the write is always attempted. -/
def Nest.RemoveStrAttr (g : Graph) (nestIdx : Nat) (attr : NestStrAttrH) :
    Graph × GoRes Unit :=
  match g.nests.get? nestIdx with
  | none => (g, .panicked)
  | some nest =>
      match idxGet nest.strAttrs attr.attr_num with
      | some old =>
          match idxSet nest.strAttrs attr.attr_num { old with isSet := false } with
          | some arr => (updNest g nestIdx (fun m => { m with strAttrs := arr }), .ok ())
          | none => (g, .panicked)
      | none => (g, .panicked)

/-! ### Nest tree traversal (`GetNextNest`, `GetPrevNest`) -/

/-- The ancestor-climbing loop of `Nest.GetNextNest`:
`for nest != nil && nest.nextSiblingNest == nil { nest = nest.parentNest }`
followed by returning `nest.nextSiblingNest` (or nil).  Fueled; the Go loop
is bounded by the height of the tree on consistent states. -/
def climbNextSibling (g : Graph) : Nat → Option Nat → GoRes (Option Nat)
  | _, none => .ok none
  | fuel, some i =>
      match g.nests.get? i with
      | none => .panicked
      | some ns =>
          match ns.nextSiblingNest with
          | some s => .ok (some s)
          | none =>
              match fuel with
              | 0 => .diverged
              | fuel + 1 => climbNextSibling g fuel ns.parentNest

/-- `Nest.GetNextNest`: first child, else next sibling, else the next sibling
of the closest ancestor that has one; `ok none` is the nil result at the end
of the tree. -/
def Nest.GetNextNest (g : Graph) (i : Nat) : GoRes (Option Nat) :=
  match g.nests.get? i with
  | none => .panicked
  | some ns =>
      match ns.firstChildNest with
      | some c => .ok (some c)
      | none =>
          match ns.nextSiblingNest with
          | some s => .ok (some s)
          | none => climbNextSibling g (g.nests.length + 1) ns.parentNest

/-- The descent loop of `Nest.GetPrevNest`:
`for prev_nest.lastChildNest != nil { prev_nest = prev_nest.lastChildNest }`. -/
def descendLastChild (g : Graph) : Nat → Nat → GoRes (Option Nat)
  | fuel, i =>
      match g.nests.get? i with
      | none => .panicked
      | some ns =>
          match ns.lastChildNest with
          | none => .ok (some i)
          | some c =>
              match fuel with
              | 0 => .diverged
              | fuel + 1 => descendLastChild g fuel c

/-- `Nest.GetPrevNest`: the parent when there is no previous sibling, else the
previous sibling's deepest last descendant. -/
def Nest.GetPrevNest (g : Graph) (i : Nat) : GoRes (Option Nat) :=
  match g.nests.get? i with
  | none => .panicked
  | some ns =>
      match ns.prevSiblingNest with
      | none => .ok ns.parentNest
      | some p => descendLastChild g (g.nests.length + 1) p

/-! ### Member-list splicing (`addNode`, `removeNode`, `addEdge`, `removeEdge`) -/

/-- `Nest.addNode`: head-insert `nodeIdx` into the node-membership list of
`nestIdx`.  The two sanity checks panic; the caller's `node.nest` backlink is
not touched here. -/
def Nest.addNode (g : Graph) (nestIdx nodeIdx : Nat) : Graph × GoRes Unit :=
  match g.nests.get? nestIdx, g.nodes.get? nodeIdx with
  | some nest, some node =>
      if nest.nestTree = none then (g, .panicked)
      else if nest.nestTree ≠ some node.graph then (g, .panicked)
      else
        let first := nest.firstNode
        let g1 :=
          match first with
          | some fn => updNode g fn (fun m => { m with prevNodeInNest := some nodeIdx })
          | none => updNest g nestIdx (fun ns => { ns with lastNode := some nodeIdx })
        let g2 := updNode g1 nodeIdx (fun m => { m with nextNodeInNest := first })
        let g3 := updNest g2 nestIdx (fun ns => { ns with firstNode := some nodeIdx })
        (g3, .ok ())
  | _, _ => (g, .panicked)

/-- `Nest.removeNode`: splice `nodeIdx` out of the node-membership list of
`nestIdx` and clear its own list links. -/
def Nest.removeNode (g : Graph) (nestIdx nodeIdx : Nat) : Graph × GoRes Unit :=
  match g.nests.get? nestIdx, g.nodes.get? nodeIdx with
  | some nest, some node =>
      if nest.nestTree = none then (g, .panicked)
      else if nest.nestTree ≠ some node.graph then (g, .panicked)
      else
        let nxt := node.nextNodeInNest
        let prv := node.prevNodeInNest
        let g1 :=
          match nxt with
          | some j => updNode g j (fun m => { m with prevNodeInNest := prv })
          | none => updNest g nestIdx (fun ns => { ns with lastNode := prv })
        let g2 :=
          match prv with
          | some j => updNode g1 j (fun m => { m with nextNodeInNest := nxt })
          | none => updNest g1 nestIdx (fun ns => { ns with firstNode := nxt })
        let g3 := updNode g2 nodeIdx
          (fun m => { m with nextNodeInNest := none, prevNodeInNest := none })
        (g3, .ok ())
  | _, _ => (g, .panicked)

/-- `Nest.addEdge`: head-insert `edgeIdx` into the edge-membership list of
`nestIdx` (singly anchored: no last-edge pointer exists). -/
def Nest.addEdge (g : Graph) (nestIdx edgeIdx : Nat) : Graph × GoRes Unit :=
  match g.nests.get? nestIdx, g.edges.get? edgeIdx with
  | some nest, some edge =>
      if nest.nestTree = none then (g, .panicked)
      else if nest.nestTree ≠ some edge.graph then (g, .panicked)
      else
        let first := nest.firstEdge
        let g1 :=
          match first with
          | some fe => updEdge g fe (fun e => { e with prevEdgeInNest := some edgeIdx })
          | none => g
        let g2 := updEdge g1 edgeIdx (fun e => { e with nextEdgeInNest := first })
        let g3 := updNest g2 nestIdx (fun ns => { ns with firstEdge := some edgeIdx })
        (g3, .ok ())
  | _, _ => (g, .panicked)

/-- `Nest.removeEdge`: splice `edgeIdx` out of the edge-membership list of
`nestIdx` and clear its own list links. -/
def Nest.removeEdge (g : Graph) (nestIdx edgeIdx : Nat) : Graph × GoRes Unit :=
  match g.nests.get? nestIdx, g.edges.get? edgeIdx with
  | some nest, some edge =>
      if nest.nestTree = none then (g, .panicked)
      else if nest.nestTree ≠ some edge.graph then (g, .panicked)
      else
        let nxt := edge.nextEdgeInNest
        let prv := edge.prevEdgeInNest
        let g1 :=
          match nxt with
          | some j => updEdge g j (fun e => { e with prevEdgeInNest := prv })
          | none => g
        let g2 :=
          match prv with
          | some j => updEdge g1 j (fun e => { e with nextEdgeInNest := nxt })
          | none => updNest g1 nestIdx (fun ns => { ns with firstEdge := nxt })
        let g3 := updEdge g2 edgeIdx
          (fun e => { e with nextEdgeInNest := none, prevEdgeInNest := none })
        (g3, .ok ())
  | _, _ => (g, .panicked)

/-! ### `NewNest`, `NewNode` -/

/-- `NestTree.NewNest`: the new nest is created as a child of the root nest,
one level below it, head-inserted into the root's child list. -/
def NestTree.NewNest (g : Graph) : Graph × GoRes Nat :=
  match g.rootNest with
  | none => (g, .panicked)
  | some r =>
      if g.baseGraph = none then (g, .panicked)
      else
        match g.nests.get? r with
        | none => (g, .panicked)
        | some root =>
            let idx := g.nests.length
            let nest : Nest :=
              { id := g.nestCount
                nestTree := some g.gid
                level := root.level + 1
                parentNest := some r
                firstChildNest := none
                lastChildNest := none
                nextSiblingNest := root.firstChildNest
                prevSiblingNest := none
                firstNode := none
                lastNode := none
                firstEdge := none
                strAttrs := List.replicate g.attrSpec.NestStrAttrNum StrAttrVal.zero }
            let g1 := { g with nests := g.nests ++ [nest] }
            let g2 :=
              match root.firstChildNest with
              | some sib => updNest g1 sib (fun ns => { ns with prevSiblingNest := some idx })
              | none => updNest g1 r (fun ns => { ns with lastChildNest := some idx })
            let g3 := updNest g2 r (fun ns => { ns with firstChildNest := some idx })
            ({ g3 with nestCount := g3.nestCount + 1 }, .ok idx)

/-- `Graph.NewNode`: a fresh node assigned to the root nest and head-inserted
into the root's membership list. -/
def Graph.NewNode (g : Graph) : Graph × GoRes Nat :=
  match g.rootNest with
  | none => (g, .panicked)
  | some r =>
      let node : Node :=
        { firstIncomingEdge := none
          firstOutcomingEdge := none
          id := g.nodeCount
          nest := some r
          nextNodeInNest := none
          prevNodeInNest := none
          graph := g.gid
          strAttrs := List.replicate g.attrSpec.NodeStrAttrNum StrAttrVal.zero }
      let idx := g.nodes.length
      let g1 := { g with nodes := g.nodes ++ [node] }
      match Nest.addNode g1 r idx with
      | (g2, .ok _) => ({ g2 with nodeCount := g2.nodeCount + 1 }, .ok idx)
      | (g2, .errored m) => (g2, .errored m)
      | (g2, .panicked) => (g2, .panicked)
      | (g2, .diverged) => (g2, .diverged)

/-! ### The reattribution engine (`Edge.calcNestAndMoveToIt`) -/

/-- First/second climbing loop of `calcNestAndMoveToIt`:
`for cur.level > target { cur = cur.parentNest; panic if nil }`. -/
def climbAboveLevel (g : Graph) : Nat → Nat → Nat → GoRes Nat
  | fuel, i, target =>
      match g.nests.get? i with
      | none => .panicked
      | some ns =>
          if target < ns.level then
            match ns.parentNest with
            | none => .panicked
            | some p =>
                match fuel with
                | 0 => .diverged
                | fuel + 1 => climbAboveLevel g fuel p target
          else .ok i

/-- Joint climbing loop of `calcNestAndMoveToIt`:
`for dst != src { dst = dst.parent; src = src.parent; panic if either nil }`. -/
def climbJoint (g : Graph) : Nat → Nat → Nat → GoRes Nat
  | fuel, s, d =>
      if d = s then .ok s
      else
        match g.nests.get? s, g.nests.get? d with
        | some sns, some dns =>
            match dns.parentNest, sns.parentNest with
            | some dp, some sp =>
                match fuel with
                | 0 => .diverged
                | fuel + 1 => climbJoint g fuel sp dp
            | _, _ => .panicked
        | _, _ => .panicked

/-- Tail of `Edge.calcNestAndMoveToIt`: remove the edge from its previous
nest's edge list when it has one (`oldNest` is the edge's `nest` field as
read at entry; nothing written in between changes it), set the edge's nest to
the found nest `final`, and head-insert it into that nest's edge list. -/
def moveEdgeToNest (g : Graph) (edgeIdx : Nat) (oldNest : Option Nat)
    (final : Nat) : Graph × GoRes Unit :=
  match (match oldNest with
         | some old => Nest.removeEdge g old edgeIdx
         | none => (g, .ok ())) with
  | (g1, .ok _) =>
      Nest.addEdge (updEdge g1 edgeIdx (fun e => { e with nest := some final }))
        final edgeIdx
  | (g1, .errored m) => (g1, .errored m)
  | (g1, .panicked) => (g1, .panicked)
  | (g1, .diverged) => (g1, .diverged)

/-- `Edge.calcNestAndMoveToIt`: sanity checks, then the level-synchronised
nearest-common-ancestor search over the nest tree, then moving the edge into
the found nest's edge-membership list.  The Go loops are unbounded walks over
parent pointers; fuel `nests.length + 1` dominates them on every state whose
parent chains are acyclic. -/
def Edge.calcNestAndMoveToIt (g : Graph) (edgeIdx : Nat) : Graph × GoRes Unit :=
  match g.edges.get? edgeIdx with
  | none => (g, .panicked)
  | some edge =>
      match edge.srcNode, edge.dstNode with
      | some s, some d =>
          match g.nodes.get? s, g.nodes.get? d with
          | some src_node, some dst_node =>
              if src_node.graph ≠ dst_node.graph then (g, .panicked)
              else if edge.graph ≠ src_node.graph then (g, .panicked)
              else
                match src_node.nest, dst_node.nest with
                | some sni, some dni =>
                    match g.nests.get? sni, g.nests.get? dni with
                    | some src_nest, some dst_nest =>
                        if src_nest.nestTree ≠ dst_nest.nestTree then (g, .panicked)
                        else if src_nest.nestTree ≠ some edge.graph then (g, .panicked)
                        else
                          let fuel := g.nests.length + 1
                          match climbAboveLevel g fuel sni dst_nest.level with
                          | .ok sni1 =>
                              match g.nests.get? sni1 with
                              | none => (g, .panicked)
                              | some src_nest1 =>
                                  match climbAboveLevel g fuel dni src_nest1.level with
                                  | .ok dni1 =>
                                      match climbJoint g fuel sni1 dni1 with
                                      | .ok final => moveEdgeToNest g edgeIdx edge.nest final
                                      | .errored m => (g, .errored m)
                                      | .panicked => (g, .panicked)
                                      | .diverged => (g, .diverged)
                                  | .errored m => (g, .errored m)
                                  | .panicked => (g, .panicked)
                                  | .diverged => (g, .diverged)
                          | .errored m => (g, .errored m)
                          | .panicked => (g, .panicked)
                          | .diverged => (g, .diverged)
                    | _, _ => (g, .panicked)
                | _, _ => (g, .panicked)
          | _, _ => (g, .panicked)
      | _, _ => (g, .panicked)

/-! ### `NewEdge` -/

/-- The edge heap after `NewEdge` has passed its checks: the new edge record
(built from the heads of the endpoints' adjacency lists as read at entry) is
appended, the old heads' back links are set, and both endpoints' list heads
are pointed at the new edge. -/
def newEdgeHeapAfterInsert (g : Graph) (si di : Nat) (src_node dst_node : Node) :
    Graph :=
  let src_first_out := src_node.firstOutcomingEdge
  let dst_first_in := dst_node.firstIncomingEdge
  let eIdx := g.edges.length
  let edge : Edge :=
    { id := g.edgeCount
      graph := g.gid
      srcNode := some si
      dstNode := some di
      nextOutcomingEdge := src_first_out
      prevOutcomingEdge := none
      nextIncomingEdge := dst_first_in
      prevIncomingEdge := none
      nextEdgeInNest := none
      prevEdgeInNest := none
      nest := none }
  let g1 := { g with edges := g.edges ++ [edge] }
  let g2 :=
    match src_first_out with
    | some e0 => updEdge g1 e0 (fun e => { e with prevOutcomingEdge := some eIdx })
    | none => g1
  let g3 := updNode g2 si (fun m => { m with firstOutcomingEdge := some eIdx })
  let g4 :=
    match dst_first_in with
    | some e1 => updEdge g3 e1 (fun e => { e with prevIncomingEdge := some eIdx })
    | none => g3
  updNode g4 di (fun m => { m with firstIncomingEdge := some eIdx })

/-- Tail of `NewEdge`: insert the edge into the adjacency lists, attribute it
via `calcNestAndMoveToIt`, and on success bump the edge counter and return
the new edge. -/
def attachNewEdge (g : Graph) (si di : Nat) (src_node dst_node : Node) :
    Graph × GoRes Nat :=
  let eIdx := g.edges.length
  let g5 := newEdgeHeapAfterInsert g si di src_node dst_node
  match Edge.calcNestAndMoveToIt g5 eIdx with
  | (g6, .ok _) => ({ g6 with edgeCount := g6.edgeCount + 1 }, .ok eIdx)
  | (g6, .errored m) => (g6, .errored m)
  | (g6, .panicked) => (g6, .panicked)
  | (g6, .diverged) => (g6, .diverged)

/-- `Graph.NewEdge src dst`: the endpoint arguments are Go pointers, `none`
being nil and `some (gid, idx)` a pointer to node `idx` of the graph with
identity `gid`.  A node of a foreign graph is rejected by the
`src_node.graph != graph` comparison, modelled on identities; a same-graph
pointer is dereferenced.  On success the new edge is head-inserted into the
source's outgoing and the destination's incoming adjacency lists and then
immediately attributed to a nest by `calcNestAndMoveToIt`. -/
def Graph.NewEdge (g : Graph) (src dst : Option (Nat × Nat)) : Graph × GoRes Nat :=
  match src with
  | none => (g, .errored "Pointer to the source node cannot be nil")
  | some (sg, si) =>
  match dst with
  | none => (g, .errored "Pointer to the destination node cannot be nil")
  | some (dg, di) =>
  if sg ≠ g.gid then
    (g, .errored "Source node doesn't belong to the graph for which the method is called")
  else
    match g.nodes.get? si with
    | none => (g, .panicked)
    | some src_node =>
        if src_node.graph ≠ g.gid then
          (g, .errored "Source node doesn't belong to the graph for which the method is called")
        else if dg ≠ g.gid then
          (g, .errored "Destination node doesn't belong to the graph for which the method is called")
        else
          match g.nodes.get? di with
          | none => (g, .panicked)
          | some dst_node =>
              if dst_node.graph ≠ g.gid then
                (g, .errored "Destination node doesn't belong to the graph for which the method is called")
              else attachNewEdge g si di src_node dst_node

/-! ### Whole-graph node traversal (`GetFirstNode`, `GetNextNode`) -/

/-- The skipping loop shared by `Graph.GetFirstNode` and `Node.GetNextNode`:
`for nest != nil && nest.firstNode == nil { nest = nest.GetNextNest() }`. -/
def skipEmptyNests (g : Graph) : Nat → Option Nat → GoRes (Option Nat)
  | _, none => .ok none
  | fuel, some i =>
      match g.nests.get? i with
      | none => .panicked
      | some ns =>
          if ns.firstNode = none then
            match Nest.GetNextNest g i with
            | .ok nxt =>
                match fuel with
                | 0 => .diverged
                | fuel + 1 => skipEmptyNests g fuel nxt
            | .errored m => .errored m
            | .panicked => .panicked
            | .diverged => .diverged
          else .ok (some i)

/-- `Graph.GetFirstNode`: first node of the first nest, in tree preorder from
the root, whose membership list is non-empty. -/
def Graph.GetFirstNode (g : Graph) : GoRes (Option Nat) :=
  match g.rootNest with
  | none => .panicked
  | some r =>
      match skipEmptyNests g (g.nests.length + 1) (some r) with
      | .ok (some i) =>
          match g.nests.get? i with
          | some ns => .ok ns.firstNode
          | none => .panicked
      | .ok none => .ok none
      | .errored m => .errored m
      | .panicked => .panicked
      | .diverged => .diverged

/-- `Node.GetNextNode`: the next node in the same nest when there is one, else
the first node of the next non-empty nest in tree preorder. -/
def Node.GetNextNode (g : Graph) (i : Nat) : GoRes (Option Nat) :=
  match g.nodes.get? i with
  | none => .panicked
  | some node =>
      match node.nextNodeInNest with
      | some nx => .ok (some nx)
      | none =>
          match node.nest with
          | none => .panicked
          | some cur =>
              match Nest.GetNextNest g cur with
              | .ok start =>
                  match skipEmptyNests g (g.nests.length + 1) start with
                  | .ok (some j) =>
                      match g.nests.get? j with
                      | some ns => .ok ns.firstNode
                      | none => .panicked
                  | .ok none => .ok none
                  | .errored m => .errored m
                  | .panicked => .panicked
                  | .diverged => .diverged
              | .errored m => .errored m
              | .panicked => .panicked
              | .diverged => .diverged

/-! ### `Node.MoveToNest` -/

/-- The two edge-fixing loops of `Node.MoveToNest`.  In the Go source both
loops read
`for edge := node.GetFirst...Edge(); edge != nil; edge.GetNext...Edge()`:
the post statement calls the getter but discards its result, so the loop
variable `edge` is never advanced; each iteration re-checks and re-attributes
the same first edge.  The loops only differ in the discarded call, so one
definition serves both. -/
def fixEdgesLoop : Nat → Graph → Option Nat → Graph × GoRes Unit
  | _, g, none => (g, .ok ())
  | fuel, g, some e =>
      match g.edges.get? e with
      | none => (g, .panicked)
      | some ed =>
          if ed.nest = none then (g, .panicked)
          else
            match Edge.calcNestAndMoveToIt g e with
            | (g1, .ok _) =>
                match fuel with
                | 0 => (g1, .diverged)
                | fuel + 1 => fixEdgesLoop fuel g1 (some e)
            | (g1, .errored m) => (g1, .errored m)
            | (g1, .panicked) => (g1, .panicked)
            | (g1, .diverged) => (g1, .diverged)

/-- Continuation of `Node.MoveToNest` after the incoming-edge loop: re-read
the node, run the outgoing-edge loop, and merge the outcome. -/
def afterIncomingLoop (fuel : Nat) (nodeIdx : Nat) :
    Graph × GoRes Unit → Graph × GoRes Unit
  | (g4, .ok _) =>
      match g4.nodes.get? nodeIdx with
      | none => (g4, .panicked)
      | some node4 =>
          match fixEdgesLoop fuel g4 node4.firstOutcomingEdge with
          | (g5, .ok _) => (g5, .ok ())
          | (g5, .errored m) => (g5, .errored m)
          | (g5, .panicked) => (g5, .panicked)
          | (g5, .diverged) => (g5, .diverged)
  | (g4, .errored m) => (g4, .errored m)
  | (g4, .panicked) => (g4, .panicked)
  | (g4, .diverged) => (g4, .diverged)

/-- The two edge-fixing loops of `Node.MoveToNest`, run on the state reached
after the node has been spliced into the target nest. -/
def moveFixLoops (fuel : Nat) (g3 : Graph) (nodeIdx : Nat) : Graph × GoRes Unit :=
  match g3.nodes.get? nodeIdx with
  | none => (g3, .panicked)
  | some node3 =>
      afterIncomingLoop fuel nodeIdx (fixEdgesLoop fuel g3 node3.firstIncomingEdge)

/-- `Node.MoveToNest`: reject a nest of a foreign graph, splice the node from
its current nest's membership list into the target's, then run the two
edge-fixing loops.  The target nest pointer is `(tgid, tIdx)`; for a foreign
nest (`tgid ≠ g.gid`) the comparison `nest.nestTree.baseGraph != node.graph`
is decided on graph identities without dereferencing into this graph's heap. -/
def Node.MoveToNest (fuel : Nat) (g : Graph) (nodeIdx : Nat) (tgid tIdx : Nat) :
    Graph × GoRes Unit :=
  match g.nodes.get? nodeIdx with
  | none => (g, .panicked)
  | some node =>
      let baseOfTarget : GoRes Nat :=
        if tgid = g.gid then
          match g.nests.get? tIdx with
          | none => .panicked
          | some tn =>
              match tn.nestTree with
              | none => .panicked
              | some bg => .ok bg
        else .ok tgid
      match baseOfTarget with
      | .ok bg =>
          if bg ≠ node.graph then
            (g, .errored "Attempt to move a graph node to a nest that belongs to a different graph")
          else
            match node.nest with
            | none => (g, .panicked)
            | some cur =>
                match Nest.removeNode g cur nodeIdx with
                | (g1, .ok _) =>
                    let g2 := updNode g1 nodeIdx (fun m => { m with nest := some tIdx })
                    match Nest.addNode g2 tIdx nodeIdx with
                    | (g3, .ok _) => moveFixLoops fuel g3 nodeIdx
                    | (g3, .errored m) => (g3, .errored m)
                    | (g3, .panicked) => (g3, .panicked)
                    | (g3, .diverged) => (g3, .diverged)
                | (g1, .errored m) => (g1, .errored m)
                | (g1, .panicked) => (g1, .panicked)
                | (g1, .diverged) => (g1, .diverged)
      | .errored m => (g, .errored m)
      | .panicked => (g, .panicked)
      | .diverged => (g, .diverged)

/-! ### Attribute slot release (`Release...StrAttr`) -/

/-- `Graph.ReleaseGraphStrAttr`: validity checks, clear the value (the inner
`RemoveStrAttr` error result is ignored by the Go source), free the slot in
the allocation map, and write the invalid handle through the caller's
pointer; the written-back handle value is returned in `ok`. -/
def Graph.ReleaseGraphStrAttr (g : Graph) (attr : GraphStrAttrH) :
    Graph × GoRes GraphStrAttrH :=
  if ¬ attr.isValid then (g, .errored "The attribute cannot be released. It's invalid")
  else if attr.graph ≠ some g.gid then
    (g, .errored "The attribute doesn't belong to the graph")
  else
    match Graph.RemoveStrAttr g attr with
    | (g1, .panicked) => (g1, .panicked)
    | (g1, .diverged) => (g1, .diverged)
    | (g1, _) =>
        match idxSetBool g1.graphStrAttrAllocMap attr.attrNum false with
        | some mp => ({ g1 with graphStrAttrAllocMap := mp }, .ok graph_str_attr_invalid)
        | none => (g1, .panicked)

/-- The sweep loop of `Graph.ReleaseNodeStrAttr`:
`for node := graph.GetFirstNode(); node != nil; node = node.GetNextNode()`
running `node.RemoveStrAttr(attr)` with its error result explicitly
ignored. -/
def sweepNodesLoop : Nat → Graph → GraphStrAttrH → Option Nat → Graph × GoRes Unit
  | _, g, _, none => (g, .ok ())
  | fuel, g, attr, some n =>
      match Node.RemoveStrAttr g n attr with
      | (g1, .panicked) => (g1, .panicked)
      | (g1, .diverged) => (g1, .diverged)
      | (g1, _) =>
          match Node.GetNextNode g1 n with
          | .ok nxt =>
              match fuel with
              | 0 => (g1, .diverged)
              | fuel + 1 => sweepNodesLoop fuel g1 attr nxt
          | .errored m => (g1, .errored m)
          | .panicked => (g1, .panicked)
          | .diverged => (g1, .diverged)

/-- `Graph.ReleaseNodeStrAttr`: validity checks, sweep the slot's value off
every node reached by the whole-graph traversal, free the slot, and write the
invalid handle through the caller's pointer. -/
def Graph.ReleaseNodeStrAttr (g : Graph) (attr : GraphStrAttrH) :
    Graph × GoRes GraphStrAttrH :=
  if ¬ attr.isValid then (g, .errored "The attribute cannot be released. It's invalid")
  else if attr.graph ≠ some g.gid then
    (g, .errored "The attribute doesn't belong to the graph")
  else
    match Graph.GetFirstNode g with
    | .ok first =>
        match sweepNodesLoop (g.nodes.length + 1) g attr first with
        | (g1, .ok _) =>
            match idxSetBool g1.nodeStrAttrAllocMap attr.attrNum false with
            | some mp => ({ g1 with nodeStrAttrAllocMap := mp }, .ok node_str_attr_invalid)
            | none => (g1, .panicked)
        | (g1, .errored m) => (g1, .errored m)
        | (g1, .panicked) => (g1, .panicked)
        | (g1, .diverged) => (g1, .diverged)
    | .errored m => (g, .errored m)
    | .panicked => (g, .panicked)
    | .diverged => (g, .diverged)

/-- The sweep loop of `NestTree.ReleaseNestStrAttr`:
`for nest := nt.GetRootNest(); nest != nil; nest = nest.GetNextNest()`
running `nest.RemoveStrAttr(attr)` with its error result explicitly
ignored. -/
def sweepNestsLoop : Nat → Graph → NestStrAttrH → Option Nat → Graph × GoRes Unit
  | _, g, _, none => (g, .ok ())
  | fuel, g, attr, some i =>
      match Nest.RemoveStrAttr g i attr with
      | (g1, .panicked) => (g1, .panicked)
      | (g1, .diverged) => (g1, .diverged)
      | (g1, _) =>
          match Nest.GetNextNest g1 i with
          | .ok nxt =>
              match fuel with
              | 0 => (g1, .diverged)
              | fuel + 1 => sweepNestsLoop fuel g1 attr nxt
          | .errored m => (g1, .errored m)
          | .panicked => (g1, .panicked)
          | .diverged => (g1, .diverged)

/-- `NestTree.ReleaseNestStrAttr`. -/
def NestTree.ReleaseNestStrAttr (g : Graph) (attr : NestStrAttrH) :
    Graph × GoRes NestStrAttrH :=
  if ¬ attr.is_valid then (g, .errored "The attribute cannot be released. It's invalid")
  else if attr.nestTree ≠ some g.gid then
    (g, .errored "The attribute doesn't belong to the nest tree")
  else
    match sweepNestsLoop (g.nests.length + 1) g attr g.rootNest with
    | (g1, .ok _) =>
        match idxSetBool g1.nestStrAttrAllocMap attr.attr_num false with
        | some mp => ({ g1 with nestStrAttrAllocMap := mp }, .ok nest_str_attr_invalid)
        | none => (g1, .panicked)
    | (g1, .errored m) => (g1, .errored m)
    | (g1, .panicked) => (g1, .panicked)
    | (g1, .diverged) => (g1, .diverged)

/-! ### Reachable states -/

/-- States reachable through completed (`ok`) public mutating operations,
starting from `NewGraph`.  An operation that returns an error leaves the state
unchanged (proved separately), a panicking run aborts the program, and a
diverging run never returns, so only `ok` outcomes produce new states. -/
inductive Reach : Graph → Prop where
  | init : ∀ gid spec, Reach (NewGraph gid spec)
  | newNode : ∀ g g' i, Reach g → Graph.NewNode g = (g', .ok i) → Reach g'
  | newNest : ∀ g g' i, Reach g → NestTree.NewNest g = (g', .ok i) → Reach g'
  | newEdge : ∀ g g' s d i, Reach g → Graph.NewEdge g s d = (g', .ok i) → Reach g'
  | moveToNest : ∀ g g' fuel n tg ti, Reach g →
      Node.MoveToNest fuel g n tg ti = (g', .ok ()) → Reach g'
  | allocGraphAttr : ∀ g g' a, Reach g → Graph.NewGraphStrAttr g = (g', .ok a) → Reach g'
  | allocNodeAttr : ∀ g g' a, Reach g → Graph.NewNodeStrAttr g = (g', .ok a) → Reach g'
  | allocNestAttr : ∀ g g' a, Reach g → NestTree.NewNestStrAttr g = (g', .ok a) → Reach g'
  | setGraphAttr : ∀ g g' a v, Reach g → Graph.SetStrAttrVal g a v = (g', .ok ()) → Reach g'
  | setNodeAttr : ∀ g g' n a v, Reach g →
      Node.SetStrAttrVal g n a v = (g', .ok ()) → Reach g'
  | setNestAttr : ∀ g g' n a v, Reach g →
      Nest.SetStrAttrVal g n a v = (g', .ok ()) → Reach g'
  | removeGraphAttr : ∀ g g' a, Reach g → Graph.RemoveStrAttr g a = (g', .ok ()) → Reach g'
  | removeNodeAttr : ∀ g g' n a, Reach g →
      Node.RemoveStrAttr g n a = (g', .ok ()) → Reach g'
  | removeNestAttr : ∀ g g' n a, Reach g →
      Nest.RemoveStrAttr g n a = (g', .ok ()) → Reach g'
  | releaseGraphAttr : ∀ g g' a a', Reach g →
      Graph.ReleaseGraphStrAttr g a = (g', .ok a') → Reach g'
  | releaseNodeAttr : ∀ g g' a a', Reach g →
      Graph.ReleaseNodeStrAttr g a = (g', .ok a') → Reach g'
  | releaseNestAttr : ∀ g g' a a', Reach g →
      NestTree.ReleaseNestStrAttr g a = (g', .ok a') → Reach g'

/-! ### Nearest common ancestor, defined from the tree structure alone -/

/-- Ancestor chain of a nest: the nest followed by its parents, cut off by the
fuel (the number of nests bounds the length of any acyclic parent chain). -/
def ancChain (g : Graph) : Nat → Nat → List Nat
  | 0, i => [i]
  | fuel + 1, i =>
      i :: (match (g.nests.get? i).bind Nest.parentNest with
            | none => []
            | some p => ancChain g fuel p)

/-- All ancestors of nest `i` (including `i` itself). -/
def ancestorsOf (g : Graph) (i : Nat) : List Nat := ancChain g g.nests.length i

/-- Depth level of a nest, read off the heap. -/
def levelOf (g : Graph) (i : Nat) : Nat := ((g.nests.get? i).map Nest.level).getD 0

/-- `c` is the nearest common ancestor of nests `a` and `b`: a common ancestor
that is at least as deep as every common ancestor. -/
def IsNCA (g : Graph) (a b c : Nat) : Prop :=
  c ∈ ancestorsOf g a ∧ c ∈ ancestorsOf g b ∧
    ∀ d ∈ ancestorsOf g a, d ∈ ancestorsOf g b → levelOf g d ≤ levelOf g c

/-! ### Structural projections and the reachable-state invariant -/

/-- The node fields the invariant depends on (everything but the membership
list links and the attribute values). -/
def nodeCore (n : Node) : Nat × Option Nat × Option Nat × Option Nat :=
  (n.graph, n.nest, n.firstIncomingEdge, n.firstOutcomingEdge)

/-- The nest fields the invariant depends on (tree identity, level, parent). -/
def nestCore (ns : Nest) : Option Nat × Nat × Option Nat :=
  (ns.nestTree, ns.level, ns.parentNest)

/-- The edge fields the invariant depends on. -/
def edgeCore (e : Edge) : Nat × Option Nat × Option Nat × Option Nat :=
  (e.graph, e.srcNode, e.dstNode, e.nest)

/-- A node record with its attribute array erased (attribute operations may
change only this part of a node). -/
def nodeNoAttrs (n : Node) : Node := { n with strAttrs := [] }

/-- A nest record with its attribute array erased. -/
def nestNoAttrs (ns : Nest) : Nest := { ns with strAttrs := [] }

/-- Attribute operations leave the whole element structure intact: identities,
the nest tree, every link of every element — only attribute arrays and
allocation maps may differ. -/
def structSim (g g' : Graph) : Prop :=
  g'.gid = g.gid ∧ g'.rootNest = g.rootNest ∧ g'.baseGraph = g.baseGraph ∧
  g'.edges = g.edges ∧
  (∀ i, (g'.nodes.get? i).map nodeNoAttrs = (g.nodes.get? i).map nodeNoAttrs) ∧
  (∀ i, (g'.nests.get? i).map nestNoAttrs = (g.nests.get? i).map nestNoAttrs) ∧
  g'.nodes.length = g.nodes.length ∧ g'.nests.length = g.nests.length

/-- The structural invariant of reachable states: the nest tree is the root
with a flat list of level-1 children, every node sits in a valid nest of its
own graph, and every edge records its endpoints, carries the nearest common
ancestor of their nests as its own nest, and is reachable from both
endpoints' adjacency lists (their heads are set and in bounds). -/
structure Inv (g : Graph) : Prop where
  root_eq : g.rootNest = some 0
  base_eq : g.baseGraph = some g.gid
  root_some : ∃ ns, g.nests.get? 0 = some ns
  nest_tree : ∀ i ns, g.nests.get? i = some ns → ns.nestTree = some g.gid
  nest_root : ∀ ns, g.nests.get? 0 = some ns → ns.parentNest = none ∧ ns.level = 0
  nest_child : ∀ i ns, g.nests.get? i = some ns → 0 < i →
      ns.parentNest = some 0 ∧ ns.level = 1
  node_graph : ∀ i n, g.nodes.get? i = some n → n.graph = g.gid
  node_nest : ∀ i n, g.nodes.get? i = some n → ∃ j ns, n.nest = some j ∧
      g.nests.get? j = some ns
  node_out_bound : ∀ i n, g.nodes.get? i = some n → ∀ k,
      n.firstOutcomingEdge = some k → k < g.edges.length
  node_in_bound : ∀ i n, g.nodes.get? i = some n → ∀ k,
      n.firstIncomingEdge = some k → k < g.edges.length
  edge_spec : ∀ i e, g.edges.get? i = some e → e.graph = g.gid ∧
      ∃ s d sn dn a b, e.srcNode = some s ∧ g.nodes.get? s = some sn ∧
        e.dstNode = some d ∧ g.nodes.get? d = some dn ∧
        sn.nest = some a ∧ dn.nest = some b ∧
        e.nest = some (if a = b then a else 0) ∧
        sn.firstOutcomingEdge ≠ none ∧ dn.firstIncomingEdge ≠ none

/-! ### Executable well-formedness used as theorem hypotheses -/

/-- Decidable well-formedness of the nest tree's pointer structure as built by
this package: root at index 0 with no siblings, every other nest a childless
direct child of the root, and sibling links mutually inverse. -/
def nestWFb (g : Graph) : Bool :=
  (g.rootNest == some 0) && (decide (0 < g.nests.length)) &&
  (List.range g.nests.length).all (fun i =>
    match g.nests.get? i with
    | none => false
    | some ns =>
        (if i = 0 then
          ns.parentNest == none && ns.nextSiblingNest == none && ns.prevSiblingNest == none
         else
          ns.parentNest == some 0 && ns.firstChildNest == none && ns.lastChildNest == none) &&
        (match ns.nextSiblingNest with
         | none => true
         | some s =>
             match g.nests.get? s with
             | none => false
             | some ss => (decide (0 < s)) && (ss.prevSiblingNest == some i)))

/-- The whole-graph node traversal as a list: start at `GetFirstNode`, follow
`GetNextNode`; `none` when the traversal faults or does not finish within
`nodes.length + 1` steps. -/
def travFrom (g : Graph) : Nat → Option Nat → Option (List Nat)
  | _, none => some []
  | 0, some _ => none
  | fuel + 1, some n =>
      match Node.GetNextNode g n with
      | .ok nxt => (travFrom g fuel nxt).map (n :: ·)
      | _ => none

/-- The traversal list of a graph, when it is well defined. -/
def travList (g : Graph) : Option (List Nat) :=
  match Graph.GetFirstNode g with
  | .ok c => travFrom g (g.nodes.length + 1) c
  | _ => none

/-- Decidable hypothesis: the whole-graph traversal is well defined and visits
every node of the heap (this is how the release sweep reaches "every existing
element of that kind"). -/
def travCompleteB (g : Graph) : Bool :=
  match travList g with
  | none => false
  | some L => (List.range g.nodes.length).all (· ∈ L)

/-- Slot `a` carries no set value on node `n` of `g` (the slot is swept). -/
def clearedAt (g : Graph) (n : Nat) (a : Int) : Prop :=
  ∀ node v, g.nodes.get? n = some node → idxGet node.strAttrs a = some v →
    v.isSet = false

/-! ### Concrete states used by witnesses and counterexamples -/

/-- Pool sizes 1/1/1. -/
def exSpec : AttrSpec := ⟨1, 1, 1⟩

/-- A fresh graph. -/
def exG0 : Graph := NewGraph 0 exSpec

/-- After one `NewNode` (node 0). -/
def exG1 : Graph := (Graph.NewNode exG0).1

/-- After a second `NewNode` (node 1). -/
def exG2 : Graph := (Graph.NewNode exG1).1

/-- After `NewEdge` node 0 → node 1 (edge 0). -/
def exG3 : Graph := (Graph.NewEdge exG2 (some (0, 0)) (some (0, 1))).1

/-- After `NewNest` (nest 1). -/
def exG4 : Graph := (NestTree.NewNest exG3).1

/-- After a third `NewNode` (node 2, no incident edges). -/
def exG5 : Graph := (Graph.NewNode exG4).1

/-- The state `Node.MoveToNest` on `exG4` for node 1 and nest 1 reaches just
before its edge-fixing loops: node 1 spliced out of the root's membership
list and into nest 1's, written exactly as the operation computes it. -/
def exC2mid : Graph :=
  (Nest.addNode
    (updNode (Nest.removeNode exG4 0 1).1 1 (fun m => { m with nest := some 1 }))
    1 1).1

/-! ### Basic heap lemmas -/

theorem modAt_get? {α : Type} (l : List α) (j : Nat) (f : α → α) (i : Nat) :
    (modAt l j f).get? i = if i = j then (l.get? i).map f else l.get? i := by
  unfold modAt
  cases h : l.get? j with
  | none =>
      by_cases hij : i = j
      · subst hij
        rw [List.get?_eq_getElem?] at h
        simp [h]
      · simp [hij]
  | some a =>
      by_cases hij : i = j
      · subst hij; rw [List.get?_set_eq, h]; simp [h]
      · rw [List.get?_set_ne _ _ (fun hji => hij hji.symm)]; simp [hij]

theorem modAt_length {α : Type} (l : List α) (j : Nat) (f : α → α) :
    (modAt l j f).length = l.length := by
  unfold modAt
  cases h : l.get? j with
  | none => rfl
  | some a => exact List.length_set l j (f a) ▸ rfl

@[simp] theorem updNode_get? (g : Graph) (j : Nat) (f : Node → Node) (i : Nat) :
    (updNode g j f).nodes.get? i = if i = j then (g.nodes.get? i).map f else g.nodes.get? i :=
  modAt_get? g.nodes j f i

@[simp] theorem updEdge_get? (g : Graph) (j : Nat) (f : Edge → Edge) (i : Nat) :
    (updEdge g j f).edges.get? i = if i = j then (g.edges.get? i).map f else g.edges.get? i :=
  modAt_get? g.edges j f i

@[simp] theorem updNest_get? (g : Graph) (j : Nat) (f : Nest → Nest) (i : Nat) :
    (updNest g j f).nests.get? i = if i = j then (g.nests.get? i).map f else g.nests.get? i :=
  modAt_get? g.nests j f i

@[simp] theorem updNode_nodes_length (g : Graph) (j : Nat) (f : Node → Node) :
    (updNode g j f).nodes.length = g.nodes.length := modAt_length ..

@[simp] theorem updEdge_edges_length (g : Graph) (j : Nat) (f : Edge → Edge) :
    (updEdge g j f).edges.length = g.edges.length := modAt_length ..

@[simp] theorem updNest_nests_length (g : Graph) (j : Nat) (f : Nest → Nest) :
    (updNest g j f).nests.length = g.nests.length := modAt_length ..

@[simp] theorem updNode_edges (g : Graph) (j : Nat) (f : Node → Node) :
    (updNode g j f).edges = g.edges := rfl

@[simp] theorem updNode_nests (g : Graph) (j : Nat) (f : Node → Node) :
    (updNode g j f).nests = g.nests := rfl

@[simp] theorem updEdge_nodes (g : Graph) (j : Nat) (f : Edge → Edge) :
    (updEdge g j f).nodes = g.nodes := rfl

@[simp] theorem updEdge_nests (g : Graph) (j : Nat) (f : Edge → Edge) :
    (updEdge g j f).nests = g.nests := rfl

@[simp] theorem updNest_nodes (g : Graph) (j : Nat) (f : Nest → Nest) :
    (updNest g j f).nodes = g.nodes := rfl

@[simp] theorem updNest_edges (g : Graph) (j : Nat) (f : Nest → Nest) :
    (updNest g j f).edges = g.edges := rfl

@[simp] theorem updNode_gid (g : Graph) (j : Nat) (f : Node → Node) :
    (updNode g j f).gid = g.gid := rfl

@[simp] theorem updEdge_gid (g : Graph) (j : Nat) (f : Edge → Edge) :
    (updEdge g j f).gid = g.gid := rfl

@[simp] theorem updNest_gid (g : Graph) (j : Nat) (f : Nest → Nest) :
    (updNest g j f).gid = g.gid := rfl

@[simp] theorem updNode_rootNest (g : Graph) (j : Nat) (f : Node → Node) :
    (updNode g j f).rootNest = g.rootNest := rfl

@[simp] theorem updEdge_rootNest (g : Graph) (j : Nat) (f : Edge → Edge) :
    (updEdge g j f).rootNest = g.rootNest := rfl

@[simp] theorem updNest_rootNest (g : Graph) (j : Nat) (f : Nest → Nest) :
    (updNest g j f).rootNest = g.rootNest := rfl

@[simp] theorem updNode_baseGraph (g : Graph) (j : Nat) (f : Node → Node) :
    (updNode g j f).baseGraph = g.baseGraph := rfl

@[simp] theorem updEdge_baseGraph (g : Graph) (j : Nat) (f : Edge → Edge) :
    (updEdge g j f).baseGraph = g.baseGraph := rfl

@[simp] theorem updNest_baseGraph (g : Graph) (j : Nat) (f : Nest → Nest) :
    (updNest g j f).baseGraph = g.baseGraph := rfl

/-! ### Allocation-map lemmas -/

theorem findFree_eq_none_iff (l : List Bool) : findFree l = none ↔ ∀ b ∈ l, b = true := by
  induction l with
  | nil => simp [findFree]
  | cons b rest ih => cases b <;> simp [findFree, ih]

theorem findFree_spec (l : List Bool) :
    ∀ i, findFree l = some i → l.get? i = some false ∧ ∀ j, j < i → l.get? j = some true := by
  induction l with
  | nil => intro i h; simp [findFree] at h
  | cons b rest ih =>
      intro i h
      cases b with
      | false =>
          simp [findFree] at h
          subst h
          exact ⟨rfl, fun j hj => absurd hj (Nat.not_lt_zero j)⟩
      | true =>
          simp [findFree] at h
          obtain ⟨k, hk, rfl⟩ := h
          obtain ⟨h1, h2⟩ := ih k hk
          refine ⟨h1, fun j hj => ?_⟩
          cases j with
          | zero => rfl
          | succ m => exact h2 m (Nat.lt_of_succ_lt_succ hj)

/-- C8: each of the three slot-allocation operations hands out the
lowest-numbered free slot of its fixed pool — the returned handle is valid,
owned by this container, and indexes the first unallocated entry, which is
then marked allocated — and it reports exhaustion exactly when every slot of
the pool is already allocated. -/
theorem alloc_returns_lowest_free_slot (g : Graph) :
    (((∃ m, (Graph.NewGraphStrAttr g).2 = .errored m) ↔
        ∀ b ∈ g.graphStrAttrAllocMap, b = true) ∧
      ∀ a, (Graph.NewGraphStrAttr g).2 = .ok a →
        ∃ i : Nat, (a : GraphStrAttrH) = ⟨(i : Int), true, some g.gid⟩ ∧
          g.graphStrAttrAllocMap.get? i = some false ∧
          (∀ j, j < i → g.graphStrAttrAllocMap.get? j = some true) ∧
          (Graph.NewGraphStrAttr g).1 =
            { g with graphStrAttrAllocMap := g.graphStrAttrAllocMap.set i true }) ∧
    (((∃ m, (Graph.NewNodeStrAttr g).2 = .errored m) ↔
        ∀ b ∈ g.nodeStrAttrAllocMap, b = true) ∧
      ∀ a, (Graph.NewNodeStrAttr g).2 = .ok a →
        ∃ i : Nat, (a : GraphStrAttrH) = ⟨(i : Int), true, some g.gid⟩ ∧
          g.nodeStrAttrAllocMap.get? i = some false ∧
          (∀ j, j < i → g.nodeStrAttrAllocMap.get? j = some true) ∧
          (Graph.NewNodeStrAttr g).1 =
            { g with nodeStrAttrAllocMap := g.nodeStrAttrAllocMap.set i true }) ∧
    (((∃ m, (NestTree.NewNestStrAttr g).2 = .errored m) ↔
        ∀ b ∈ g.nestStrAttrAllocMap, b = true) ∧
      ∀ a, (NestTree.NewNestStrAttr g).2 = .ok a →
        ∃ i : Nat, (a : NestStrAttrH) = ⟨(i : Int), true, some g.gid⟩ ∧
          g.nestStrAttrAllocMap.get? i = some false ∧
          (∀ j, j < i → g.nestStrAttrAllocMap.get? j = some true) ∧
          (NestTree.NewNestStrAttr g).1 =
            { g with nestStrAttrAllocMap := g.nestStrAttrAllocMap.set i true }) := by
  refine ⟨⟨?_, ?_⟩, ⟨?_, ?_⟩, ⟨?_, ?_⟩⟩
  · constructor
    · rintro ⟨m, hm⟩
      rw [← findFree_eq_none_iff]
      cases h : findFree g.graphStrAttrAllocMap with
      | none => rfl
      | some i => unfold Graph.NewGraphStrAttr at hm; rw [h] at hm; simp at hm
    · intro hall
      have h : findFree g.graphStrAttrAllocMap = none := (findFree_eq_none_iff _).mpr hall
      exact ⟨_, by unfold Graph.NewGraphStrAttr; rw [h]⟩
  · intro a ha
    unfold Graph.NewGraphStrAttr at ha ⊢
    cases h : findFree g.graphStrAttrAllocMap with
    | none => rw [h] at ha; simp at ha
    | some i =>
        rw [h] at ha
        dsimp only at ha ⊢
        obtain ⟨h1, h2⟩ := findFree_spec _ i h
        injection ha with ha'
        subst ha'
        exact ⟨i, rfl, h1, h2, rfl⟩
  · constructor
    · rintro ⟨m, hm⟩
      rw [← findFree_eq_none_iff]
      cases h : findFree g.nodeStrAttrAllocMap with
      | none => rfl
      | some i => unfold Graph.NewNodeStrAttr at hm; rw [h] at hm; simp at hm
    · intro hall
      have h : findFree g.nodeStrAttrAllocMap = none := (findFree_eq_none_iff _).mpr hall
      exact ⟨_, by unfold Graph.NewNodeStrAttr; rw [h]⟩
  · intro a ha
    unfold Graph.NewNodeStrAttr at ha ⊢
    cases h : findFree g.nodeStrAttrAllocMap with
    | none => rw [h] at ha; simp at ha
    | some i =>
        rw [h] at ha
        dsimp only at ha ⊢
        obtain ⟨h1, h2⟩ := findFree_spec _ i h
        injection ha with ha'
        subst ha'
        exact ⟨i, rfl, h1, h2, rfl⟩
  · constructor
    · rintro ⟨m, hm⟩
      rw [← findFree_eq_none_iff]
      cases h : findFree g.nestStrAttrAllocMap with
      | none => rfl
      | some i => unfold NestTree.NewNestStrAttr at hm; rw [h] at hm; simp at hm
    · intro hall
      have h : findFree g.nestStrAttrAllocMap = none := (findFree_eq_none_iff _).mpr hall
      exact ⟨_, by unfold NestTree.NewNestStrAttr; rw [h]⟩
  · intro a ha
    unfold NestTree.NewNestStrAttr at ha ⊢
    cases h : findFree g.nestStrAttrAllocMap with
    | none => rw [h] at ha; simp at ha
    | some i =>
        rw [h] at ha
        dsimp only at ha ⊢
        obtain ⟨h1, h2⟩ := findFree_spec _ i h
        injection ha with ha'
        subst ha'
        exact ⟨i, rfl, h1, h2, rfl⟩

/-- Witness for C8 at a concrete graph: on a fresh graph with pool size 1 the
node-slot allocator returns slot 0 and marks it allocated. -/
theorem alloc_returns_lowest_free_slot_witness :
    ∃ i : Nat, (⟨(0 : Int), true, some 0⟩ : GraphStrAttrH) = ⟨(i : Int), true, some exG0.gid⟩ ∧
      exG0.nodeStrAttrAllocMap.get? i = some false ∧
      (∀ j, j < i → exG0.nodeStrAttrAllocMap.get? j = some true) ∧
      (Graph.NewNodeStrAttr exG0).1 =
        { exG0 with nodeStrAttrAllocMap := exG0.nodeStrAttrAllocMap.set i true } :=
  (alloc_returns_lowest_free_slot exG0).2.1.2 ⟨(0 : Int), true, some 0⟩ (by decide)

/-! ### C5: RemoveStrAttr drops its error results -/

/-- A graph (gid 0) with one node whose single attribute slot is set. -/
def c5base : Graph :=
  (Node.SetStrAttrVal (Graph.NewNodeStrAttr exG1).1 0 ⟨0, true, some 0⟩ "v").1

/-- The handle the attribute operations of graph 0 accept as their own. -/
def c5own : GraphStrAttrH := ⟨0, true, some 0⟩

/-- A valid node-attribute handle owned by a different graph (gid 1). -/
def c5foreign : GraphStrAttrH := ⟨0, true, some 1⟩

/-- A graph (gid 0) with a nest attribute allocated, one non-root nest, and
that nest's single attribute slot set. -/
def c5nest : Graph :=
  (Nest.SetStrAttrVal (NestTree.NewNest (NestTree.NewNestStrAttr exG0).1).1 1
    ⟨0, true, some 0⟩ "w").1

/-- The nest-attribute handle owned by graph 0's nest tree. -/
def c5nestOwn : NestStrAttrH := ⟨0, true, some 0⟩

/-- A valid nest-attribute handle owned by a different nest tree (gid 1). -/
def c5nestForeign : NestStrAttrH := ⟨0, true, some 1⟩

/-- C5: the claim fails on the code.  `RemoveStrAttr` builds its
invalid-attribute and foreign-attribute errors with `errors.New` but never
returns them, so a remove through a foreign handle reports success (`nil`
error) and still clears the element's slot, and a remove through the standard
invalid handle reaches `strAttrs[-1]` and panics instead of returning an
error.  Shown here on a node and on a nest. -/
theorem removeStrAttr_ignores_invalid_and_foreign_handles :
    (Node.RemoveStrAttr c5base 0 c5foreign).2 = .ok () ∧
    Node.IsStrAttrSet c5base 0 c5own = .ok true ∧
    Node.IsStrAttrSet (Node.RemoveStrAttr c5base 0 c5foreign).1 0 c5own = .ok false ∧
    (Node.RemoveStrAttr c5base 0 node_str_attr_invalid).2 = .panicked ∧
    (Nest.RemoveStrAttr c5nest 1 c5nestForeign).2 = .ok () ∧
    Nest.IsStrAttrSet c5nest 1 c5nestOwn = .ok true ∧
    Nest.IsStrAttrSet (Nest.RemoveStrAttr c5nest 1 c5nestForeign).1 1 c5nestOwn = .ok false ∧
    (Nest.RemoveStrAttr c5nest 1 nest_str_attr_invalid).2 = .panicked := by
  decide

/-! ### C6: the root nest has no attribute-value array -/

/-- A fresh graph whose nest attribute pool has size 1. -/
def c6g0 : Graph := NewGraph 0 ⟨0, 0, 1⟩

/-- The nest-attribute handle allocated from `c6g0`. -/
def c6h : NestStrAttrH := ⟨0, true, some 0⟩

/-- The graph after allocating the nest attribute. -/
def c6g1 : Graph := (NestTree.NewNestStrAttr c6g0).1

/-- The graph after also creating one non-root nest. -/
def c6g2 : Graph := (NestTree.NewNest c6g1).1

/-- C6: the claim fails on the code as far as the root nest is concerned.
`newNestTree` builds the root nest without initialising `strAttrs`, so the
root's group-level value array is the nil slice (length 0) although the pool
size is 1, and `SetStrAttrVal` on the root panics with an index-out-of-range
fault on a perfectly valid handle; on a nest created by `NewNest` — which
does allocate the array — the same set/get pair works as claimed. -/
theorem root_nest_missing_attr_array :
    (NestTree.NewNestStrAttr c6g0).2 = .ok c6h ∧
    c6g1.attrSpec.NestStrAttrNum = 1 ∧
    (c6g1.nests.get? 0).map (fun ns => ns.strAttrs.length) = some 0 ∧
    (Nest.SetStrAttrVal c6g1 0 c6h "x").2 = .panicked ∧
    (Nest.SetStrAttrVal c6g1 0 c6h "x").1 = c6g1 ∧
    ((NestTree.NewNest c6g1).2 = .ok 1 ∧
      (c6g2.nests.get? 1).map (fun ns => ns.strAttrs.length) = some 1) ∧
    (Nest.SetStrAttrVal c6g2 1 c6h "x").2 = .ok () ∧
    Nest.GetStrAttrVal (Nest.SetStrAttrVal c6g2 1 c6h "x").1 1 c6h = .ok "x" := by
  decide

/-! ### C9: the traversal inverse law -/

/-- A nest tree with the root and exactly one child (nest 1): nest 1 is
non-root, is not the first nest in preorder (the root is), and is the last
nest in preorder. -/
def c9T : Graph := (NestTree.NewNest exG0).1

/-- C9 counterexample: for nest 1 of `c9T` — non-root and not first in
preorder — the whole-tree successor is nil, so no nest `j` satisfies
`GetNextNest 1 = j` and `GetPrevNest j = 1`; in the Go code
`GetPrevNest` on the nil successor dereferences a nil pointer.  The claim as
stated is therefore false for the last nest in preorder. -/
theorem prev_next_inverse_counterexample :
    c9T.rootNest = some 0 ∧
    Nest.GetNextNest c9T 0 = .ok (some 1) ∧
    Nest.GetNextNest c9T 1 = .ok none ∧
    ¬ ∃ j, Nest.GetNextNest c9T 1 = .ok (some j) ∧
      Nest.GetPrevNest c9T j = .ok (some 1) := by
  have h1 : Nest.GetNextNest c9T 1 = .ok none := by decide
  refine ⟨by decide, by decide, h1, ?_⟩
  rintro ⟨j, hj, -⟩
  rw [h1] at hj
  simp at hj

/-- Unpacked form of the decidable nest-tree well-formedness `nestWFb`. -/
theorem nestWFb_spec (g : Graph) (h : nestWFb g = true) :
    g.rootNest = some 0 ∧ 0 < g.nests.length ∧
    ∀ i ns, g.nests.get? i = some ns →
      ((i = 0 → ns.parentNest = none ∧ ns.nextSiblingNest = none ∧
          ns.prevSiblingNest = none) ∧
       (0 < i → ns.parentNest = some 0 ∧ ns.firstChildNest = none ∧
          ns.lastChildNest = none) ∧
       (∀ s, ns.nextSiblingNest = some s → ∃ ss, g.nests.get? s = some ss ∧
          0 < s ∧ ss.prevSiblingNest = some i)) := by
  unfold nestWFb at h
  simp only [Bool.and_eq_true, beq_iff_eq, decide_eq_true_eq, List.all_eq_true,
    List.mem_range] at h
  obtain ⟨⟨h1, h2⟩, h3⟩ := h
  refine ⟨h1, h2, fun i ns hins => ?_⟩
  have hilen : i < g.nests.length := by
    by_contra hge
    rw [List.get?_eq_none.mpr (Nat.le_of_not_lt hge)] at hins
    exact Option.noConfusion hins
  have hi := h3 i hilen
  rw [hins] at hi
  dsimp only at hi
  rw [Bool.and_eq_true] at hi
  obtain ⟨hiA, hiB⟩ := hi
  have hsibs : ∀ s, ns.nextSiblingNest = some s → ∃ ss, g.nests.get? s = some ss ∧
      0 < s ∧ ss.prevSiblingNest = some i := by
    intro s hs
    rw [hs] at hiB
    dsimp only at hiB
    cases hss : g.nests.get? s with
    | none => rw [hss] at hiB; exact absurd hiB (by simp)
    | some ss =>
        rw [hss] at hiB
        dsimp only at hiB
        simp only [Bool.and_eq_true, beq_iff_eq, decide_eq_true_eq] at hiB
        exact ⟨ss, rfl, hiB.1, hiB.2⟩
  by_cases hz : i = 0
  · subst hz
    rw [if_pos rfl] at hiA
    simp only [Bool.and_eq_true, beq_iff_eq] at hiA
    exact ⟨fun _ => ⟨hiA.1.1, hiA.1.2, hiA.2⟩,
      fun hlt => absurd rfl (Nat.ne_of_gt hlt), hsibs⟩
  · rw [if_neg hz] at hiA
    simp only [Bool.and_eq_true, beq_iff_eq] at hiA
    exact ⟨fun h0 => absurd h0 hz, fun _ => ⟨hiA.1.1, hiA.1.2, hiA.2⟩, hsibs⟩

/-- C9 amended: on a well-formed nest tree as this package builds it, for
every non-root nest whose whole-tree successor is non-nil (equivalently,
every non-root nest that is not the last in preorder), the predecessor of the
successor is the nest itself. -/
theorem prev_next_inverse_amended (g : Graph) (hwf : nestWFb g = true)
    (i j : Nat) (hi : 0 < i) (hnext : Nest.GetNextNest g i = .ok (some j)) :
    Nest.GetPrevNest g j = .ok (some i) := by
  obtain ⟨hroot, hlen, hall⟩ := nestWFb_spec g hwf
  unfold Nest.GetNextNest at hnext
  cases hins : g.nests.get? i with
  | none => rw [hins] at hnext; exact absurd hnext (by simp)
  | some ns =>
      rw [hins] at hnext
      dsimp only at hnext
      obtain ⟨-, hchild, hsib⟩ := hall i ns hins
      obtain ⟨hpar, hfc, hlc⟩ := hchild hi
      rw [hfc] at hnext
      dsimp only at hnext
      cases hns : ns.nextSiblingNest with
      | some s =>
          rw [hns] at hnext
          dsimp only at hnext
          injection hnext with hnext'
          injection hnext' with hjs
          subst hjs
          obtain ⟨ss, hss, hs0, hsp⟩ := hsib _ hns
          unfold Nest.GetPrevNest
          rw [hss]
          dsimp only
          rw [hsp]
          dsimp only
          unfold descendLastChild
          rw [hins]
          dsimp only
          rw [hlc]
      | none =>
          rw [hns] at hnext
          dsimp only at hnext
          rw [hpar] at hnext
          unfold climbNextSibling at hnext
          cases hr0 : g.nests.get? 0 with
          | none =>
              rw [List.get?_eq_none] at hr0
              exact absurd hr0 (Nat.not_le_of_lt hlen)
          | some rns =>
              rw [hr0] at hnext
              dsimp only at hnext
              obtain ⟨hrz, -, -⟩ := hall 0 rns hr0
              obtain ⟨hrp, hrs, -⟩ := hrz rfl
              rw [hrs] at hnext
              dsimp only at hnext
              rw [hrp] at hnext
              unfold climbNextSibling at hnext
              exact absurd hnext (by simp)

/-- Witness for C9's amended theorem: in a tree with the root and two
children (preorder 0, 2, 1), nest 2 is non-root with successor 1, and the
predecessor of 1 is indeed 2. -/
theorem prev_next_inverse_amended_witness :
    Nest.GetPrevNest (NestTree.NewNest (NestTree.NewNest exG0).1).1 1 = .ok (some 2) :=
  prev_next_inverse_amended (NestTree.NewNest (NestTree.NewNest exG0).1).1
    (by decide) 2 1 (by decide) (by decide)

/-! ### C2: the edge-fixing loops of MoveToNest never advance -/

/-- One pass of `calcNestAndMoveToIt` over the first incoming edge of node 1
in the mid-move state leaves the state fixed: the edge is removed from and
re-inserted at the head of the same (root) nest. -/
theorem c2_calc_fixed : Edge.calcNestAndMoveToIt exC2mid 0 = (exC2mid, .ok ()) := by
  decide

/-- The incoming-edge loop of `MoveToNest`, run on the mid-move state with
node 1's first incoming edge, exhausts any amount of fuel without ever
finishing: its Go post statement discards the cursor step. -/
theorem c2_loop_diverges :
    ∀ fuel, fixEdgesLoop fuel exC2mid (some 0) = (exC2mid, .diverged) := by
  intro fuel
  induction fuel with
  | zero => decide
  | succ n ih => exact ih

/-- C2: the claim fails on the code.  Moving a node that has an incident edge
never terminates: on the two-node graph with edge 0 from node 0 to node 1,
`MoveToNest` for node 1 and nest 1 reaches its incoming-edge loop and then
runs forever, because the loop's post statement calls
`edge.GetNextIncomingEdge()` without assigning the result, so the loop
variable never advances.  In the fueled model the call exhausts every fuel
bound. -/
theorem moveToNest_with_incident_edge_diverges :
    ∀ fuel, Node.MoveToNest fuel exG4 1 0 1 = (exC2mid, .diverged) := by
  intro fuel
  have h0 : Node.MoveToNest fuel exG4 1 0 1 =
      afterIncomingLoop fuel 1 (fixEdgesLoop fuel exC2mid (some 0)) := rfl
  rw [h0, c2_loop_diverges fuel]
  rfl

/-! ### C3: inversion and frame lemmas for MoveToNest -/

/-- The edge-fixing loop can only finish successfully when it was entered
with a nil cursor: with the Go post statement discarding the cursor step, a
non-nil cursor loops until the fuel is gone (or faults). -/
theorem fixEdgesLoop_some_not_ok :
    ∀ fuel g e, (fixEdgesLoop fuel g (some e)).2 ≠ .ok () := by
  intro fuel
  induction fuel with
  | zero =>
      intro g e h
      unfold fixEdgesLoop at h
      cases hg : g.edges.get? e with
      | none => rw [hg] at h; simp at h
      | some ed =>
          rw [hg] at h
          dsimp only at h
          by_cases hn : ed.nest = none
          · rw [if_pos hn] at h; simp at h
          · rw [if_neg hn] at h
            rcases hc : Edge.calcNestAndMoveToIt g e with ⟨g1, r⟩
            rw [hc] at h
            cases r <;> simp at h
  | succ n ih =>
      intro g e h
      unfold fixEdgesLoop at h
      cases hg : g.edges.get? e with
      | none => rw [hg] at h; simp at h
      | some ed =>
          rw [hg] at h
          dsimp only at h
          by_cases hn : ed.nest = none
          · rw [if_pos hn] at h; simp at h
          · rw [if_neg hn] at h
            rcases hc : Edge.calcNestAndMoveToIt g e with ⟨g1, r⟩
            rw [hc] at h
            cases r with
            | ok a => exact ih g1 e h
            | errored m => simp at h
            | panicked => simp at h
            | diverged => simp at h

/-- Successful completion of the edge-fixing loop means there was nothing to
do: the cursor was nil and the state is untouched. -/
theorem fixEdgesLoop_ok (fuel : Nat) (g g' : Graph) (c : Option Nat)
    (h : fixEdgesLoop fuel g c = (g', .ok ())) : c = none ∧ g' = g := by
  cases c with
  | none =>
      refine ⟨rfl, ?_⟩
      unfold fixEdgesLoop at h
      have h1 := congrArg Prod.fst h
      simpa using h1.symm
  | some e =>
      exact absurd (congrArg Prod.snd h) (fixEdgesLoop_some_not_ok fuel g e)

/-- Splicing a node out of a membership list never touches the edge heap. -/
theorem removeNode_edges (g : Graph) (a b : Nat) :
    (Nest.removeNode g a b).1.edges = g.edges := by
  unfold Nest.removeNode
  split
  · split
    · rfl
    · split
      · rfl
      · dsimp only
        split <;> split <;> rfl
  · rfl

/-- Splicing a node into a membership list never touches the edge heap. -/
theorem addNode_edges (g : Graph) (a b : Nat) :
    (Nest.addNode g a b).1.edges = g.edges := by
  unfold Nest.addNode
  split
  · split
    · rfl
    · split
      · rfl
      · dsimp only
        split <;> rfl
  · rfl

/-- C3: when a move of a node to the nest it already belongs to runs to
completion, the nest attribution of every edge of the graph is exactly what
it was before the move. -/
theorem move_to_current_nest_preserves_edge_attribution
    (fuel : Nat) (g : Graph) (n t : Nat)
    (hn : (g.nodes.get? n).map Node.nest = some (some t))
    (hok : (Node.MoveToNest fuel g n g.gid t).2 = .ok ()) :
    (Node.MoveToNest fuel g n g.gid t).1.edges.map Edge.nest =
      g.edges.map Edge.nest := by
  cases hnode : g.nodes.get? n with
  | none => rw [hnode] at hn; exact absurd hn (by simp)
  | some node =>
      rw [hnode] at hn
      have ht : node.nest = some t := by simpa using hn
      unfold Node.MoveToNest at hok ⊢
      rw [hnode] at hok ⊢
      dsimp only at hok ⊢
      rw [if_pos rfl] at hok ⊢
      cases htn : g.nests.get? t with
      | none => rfl
      | some tn =>
          rw [htn] at hok
          dsimp only at hok ⊢
          cases htt : tn.nestTree with
          | none => rfl
          | some bg =>
              rw [htt] at hok
              dsimp only at hok ⊢
              by_cases hbg : bg ≠ node.graph
              · rw [if_pos hbg] at hok; simp at hok
              · rw [if_neg hbg] at hok ⊢
                rw [ht] at hok ⊢
                dsimp only at hok ⊢
                rcases h1 : Nest.removeNode g t n with ⟨g1, r1⟩
                rw [h1] at hok
                cases r1 with
                | errored m => simp at hok
                | panicked => simp at hok
                | diverged => simp at hok
                | ok u =>
                    dsimp only at hok ⊢
                    rcases h2 : Nest.addNode
                        (updNode g1 n (fun m => { m with nest := some t })) t n with ⟨g3, r3⟩
                    rw [h2] at hok
                    cases r3 with
                    | errored m => simp at hok
                    | panicked => simp at hok
                    | diverged => simp at hok
                    | ok u3 =>
                        dsimp only at hok ⊢
                        unfold moveFixLoops at hok ⊢
                        cases h3 : g3.nodes.get? n with
                        | none => rw [h3] at hok; simp at hok
                        | some node3 =>
                            rw [h3] at hok
                            dsimp only at hok ⊢
                            rcases hL1 : fixEdgesLoop fuel g3 node3.firstIncomingEdge
                              with ⟨g4, r4⟩
                            rw [hL1] at hok
                            cases r4 with
                            | errored m => simp [afterIncomingLoop] at hok
                            | panicked => simp [afterIncomingLoop] at hok
                            | diverged => simp [afterIncomingLoop] at hok
                            | ok u4 =>
                                obtain ⟨-, rfl⟩ := fixEdgesLoop_ok fuel g3 g4 _ hL1
                                unfold afterIncomingLoop at hok ⊢
                                dsimp only at hok ⊢
                                cases h4 : g4.nodes.get? n with
                                | none => rw [h4] at hok; simp at hok
                                | some node4 =>
                                    rw [h4] at hok
                                    dsimp only at hok ⊢
                                    rcases hL2 : fixEdgesLoop fuel g4 node4.firstOutcomingEdge
                                      with ⟨g5, r5⟩
                                    rw [hL2] at hok
                                    cases r5 with
                                    | errored m => simp at hok
                                    | panicked => simp at hok
                                    | diverged => simp at hok
                                    | ok u5 =>
                                        obtain ⟨-, rfl⟩ := fixEdgesLoop_ok fuel g4 g5 _ hL2
                                        dsimp only
                                        have he3 : g5.edges = g.edges := by
                                          have ha := addNode_edges
                                            (updNode g1 n (fun m => { m with nest := some t })) t n
                                          rw [h2] at ha
                                          dsimp only at ha
                                          simp only [updNode_edges] at ha
                                          have hr := removeNode_edges g t n
                                          rw [h1] at hr
                                          dsimp only at hr
                                          exact ha.trans hr
                                        rw [he3]

/-- Witness for C3: moving node 2 of `exG5` (a node with no incident edges)
to its current nest, the root, completes and leaves every edge's nest
attribution unchanged. -/
theorem move_to_current_nest_witness :
    (Node.MoveToNest 5 exG5 2 0 0).2 = .ok () ∧
    (Node.MoveToNest 5 exG5 2 0 0).1.edges.map Edge.nest =
      exG5.edges.map Edge.nest :=
  ⟨by decide,
    move_to_current_nest_preserves_edge_attribution 5 exG5 2 0 (by decide) (by decide)⟩

/-! ### Frame lemmas for the reattribution engine -/

/-- Every edge field except the nest-membership links (`nextEdgeInNest`,
`prevEdgeInNest`): splicing an edge in or out of a nest's edge list moves
only those two links. -/
def edgeStable (e : Edge) :
    Nat × Nat × Option Nat × Option Nat × Option Nat × Option Nat × Option Nat ×
      Option Nat × Option Nat :=
  (e.id, e.graph, e.srcNode, e.dstNode, e.nextOutcomingEdge, e.prevOutcomingEdge,
    e.nextIncomingEdge, e.prevIncomingEdge, e.nest)

/-- Every edge field except the nest attribution and membership links. -/
def edgeAdj (e : Edge) :
    Nat × Nat × Option Nat × Option Nat × Option Nat × Option Nat × Option Nat ×
      Option Nat :=
  (e.id, e.graph, e.srcNode, e.dstNode, e.nextOutcomingEdge, e.prevOutcomingEdge,
    e.nextIncomingEdge, e.prevIncomingEdge)

theorem updEdge_map_proj {β : Type} (g : Graph) (i : Nat) (f : Edge → Edge)
    (p : Edge → β) (hp : ∀ e, p (f e) = p e) :
    ∀ j, ((updEdge g i f).edges.get? j).map p = (g.edges.get? j).map p := by
  intro j
  rw [updEdge_get?]
  by_cases hij : j = i
  · rw [if_pos hij]
    cases g.edges.get? j <;> simp [hp]
  · rw [if_neg hij]

theorem removeEdge_nodes (g : Graph) (a b : Nat) :
    (Nest.removeEdge g a b).1.nodes = g.nodes := by
  unfold Nest.removeEdge
  split
  · split
    · rfl
    · split
      · rfl
      · dsimp only
        split <;> split <;> rfl
  · rfl

theorem addEdge_nodes (g : Graph) (a b : Nat) :
    (Nest.addEdge g a b).1.nodes = g.nodes := by
  unfold Nest.addEdge
  split
  · split
    · rfl
    · split
      · rfl
      · dsimp only
        split <;> rfl
  · rfl

theorem removeEdge_stable (g : Graph) (a b : Nat) :
    ∀ j, ((Nest.removeEdge g a b).1.edges.get? j).map edgeStable =
      (g.edges.get? j).map edgeStable := by
  unfold Nest.removeEdge
  split
  · split
    · intro j; rfl
    · split
      · intro j; rfl
      · dsimp only
        intro j
        split <;> split <;>
          simp only [updEdge_get?, updNest_edges] <;>
          split_ifs <;> (cases g.edges.get? j <;> rfl)
  · intro j; rfl

theorem addEdge_stable (g : Graph) (a b : Nat) :
    ∀ j, ((Nest.addEdge g a b).1.edges.get? j).map edgeStable =
      (g.edges.get? j).map edgeStable := by
  unfold Nest.addEdge
  split
  · split
    · intro j; rfl
    · split
      · intro j; rfl
      · dsimp only
        intro j
        split <;>
          simp only [updEdge_get?, updNest_edges] <;>
          split_ifs <;> (cases g.edges.get? j <;> rfl)
  · intro j; rfl

theorem removeEdge_not_errored (g : Graph) (a b : Nat) (m : String) :
    (Nest.removeEdge g a b).2 ≠ .errored m := by
  unfold Nest.removeEdge
  split
  · split
    · simp
    · split
      · simp
      · simp
  · simp

theorem addEdge_not_errored (g : Graph) (a b : Nat) (m : String) :
    (Nest.addEdge g a b).2 ≠ .errored m := by
  unfold Nest.addEdge
  split
  · split
    · simp
    · split
      · simp
      · simp
  · simp

theorem moveEdgeToNest_nodes (g : Graph) (e : Nat) (o : Option Nat) (f : Nat) :
    (moveEdgeToNest g e o f).1.nodes = g.nodes := by
  unfold moveEdgeToNest
  rcases h1 : (match o with
               | some old => Nest.removeEdge g old e
               | none => (g, GoRes.ok ())) with ⟨g1, r1⟩
  rw [h1]
  have hg1 : g1.nodes = g.nodes := by
    cases o with
    | none =>
        have h1' : (g, GoRes.ok ()) = (g1, r1) := h1
        rw [Prod.mk.injEq] at h1'
        rw [← h1'.1]
    | some old =>
        have h1' : Nest.removeEdge g old e = (g1, r1) := h1
        have := removeEdge_nodes g old e
        rw [h1'] at this
        exact this
  cases r1 with
  | ok u => dsimp only; rw [addEdge_nodes]; exact hg1
  | errored m => exact hg1
  | panicked => exact hg1
  | diverged => exact hg1

theorem moveEdgeToNest_not_errored (g : Graph) (e : Nat) (o : Option Nat)
    (f : Nat) (m : String) : (moveEdgeToNest g e o f).2 ≠ .errored m := by
  unfold moveEdgeToNest
  rcases h1 : (match o with
               | some old => Nest.removeEdge g old e
               | none => (g, GoRes.ok ())) with ⟨g1, r1⟩
  rw [h1]
  cases r1 with
  | ok u => dsimp only; exact addEdge_not_errored _ f e m
  | errored m1 =>
      dsimp only
      intro hc
      cases o with
      | none =>
          have h1' : (g, GoRes.ok ()) = (g1, GoRes.errored m1) := h1
          rw [Prod.mk.injEq] at h1'
          exact absurd h1'.2 (by simp)
      | some old =>
          have h1' : Nest.removeEdge g old e = (g1, GoRes.errored m1) := h1
          have := removeEdge_not_errored g old e m1
          rw [h1'] at this
          exact this rfl
  | panicked => simp
  | diverged => simp

theorem moveEdgeToNest_ok_nest (g g' : Graph) (e : Nat) (o : Option Nat)
    (f : Nat) (u : Unit) (ed : Edge) (he : g.edges.get? e = some ed)
    (hok : moveEdgeToNest g e o f = (g', .ok u)) :
    ∃ ed', g'.edges.get? e = some ed' ∧ edgeAdj ed' = edgeAdj ed ∧
      ed'.nest = some f := by
  unfold moveEdgeToNest at hok
  rcases h1 : (match o with
               | some old => Nest.removeEdge g old e
               | none => (g, GoRes.ok ())) with ⟨g1, r1⟩
  rw [h1] at hok
  have hg1 : (g1.edges.get? e).map edgeStable = some (edgeStable ed) := by
    cases o with
    | none =>
        have h1' : (g, GoRes.ok ()) = (g1, r1) := h1
        rw [Prod.mk.injEq] at h1'
        rw [← h1'.1, he]
        rfl
    | some old =>
        have h1' : Nest.removeEdge g old e = (g1, r1) := h1
        have := removeEdge_stable g old e e
        rw [h1'] at this
        rw [this, he]
        rfl
  cases r1 with
  | errored m => simp at hok
  | panicked => simp at hok
  | diverged => simp at hok
  | ok u1 =>
      dsimp only at hok
      cases hg1e : g1.edges.get? e with
      | none => rw [hg1e] at hg1; exact absurd hg1 (by simp)
      | some ed1 =>
          rw [hg1e] at hg1
          have hstable : edgeStable ed1 = edgeStable ed := by simpa using hg1
          have hadd := addEdge_stable
            (updEdge g1 e (fun x => { x with nest := some f })) f e e
          rw [hok] at hadd
          rw [updEdge_get?, if_pos rfl, hg1e] at hadd
          cases hg'e : g'.edges.get? e with
          | none => rw [hg'e] at hadd; exact absurd hadd (by simp)
          | some ed' =>
              rw [hg'e] at hadd
              have h2 : edgeStable ed' =
                  edgeStable { ed1 with nest := some f } := by simpa using hadd
              refine ⟨ed', rfl, ?_, ?_⟩
              · have hadj : edgeAdj ed' = edgeAdj { ed1 with nest := some f } := by
                  unfold edgeStable at h2
                  unfold edgeAdj
                  simp only [Prod.mk.injEq] at h2 ⊢
                  exact ⟨h2.1, h2.2.1, h2.2.2.1, h2.2.2.2.1, h2.2.2.2.2.1,
                    h2.2.2.2.2.2.1, h2.2.2.2.2.2.2.1, h2.2.2.2.2.2.2.2.1⟩
                rw [hadj]
                have : edgeAdj ed1 = edgeAdj ed := by
                  unfold edgeStable at hstable
                  unfold edgeAdj
                  simp only [Prod.mk.injEq] at hstable ⊢
                  exact ⟨hstable.1, hstable.2.1, hstable.2.2.1, hstable.2.2.2.1,
                    hstable.2.2.2.2.1, hstable.2.2.2.2.2.1, hstable.2.2.2.2.2.2.1,
                    hstable.2.2.2.2.2.2.2.1⟩
                exact this
              · unfold edgeStable at h2
                simp only [Prod.mk.injEq] at h2
                exact h2.2.2.2.2.2.2.2.2

theorem climbAbove_not_errored (g : Graph) :
    ∀ fuel i t m, climbAboveLevel g fuel i t ≠ .errored m := by
  intro fuel
  induction fuel with
  | zero =>
      intro i t m h
      unfold climbAboveLevel at h
      cases hgi : g.nests.get? i with
      | none => rw [hgi] at h; simp at h
      | some ns =>
          rw [hgi] at h
          dsimp only at h
          split at h
          · cases hp : ns.parentNest with
            | none => rw [hp] at h; simp at h
            | some p => rw [hp] at h; simp at h
          · simp at h
  | succ n ih =>
      intro i t m h
      unfold climbAboveLevel at h
      cases hgi : g.nests.get? i with
      | none => rw [hgi] at h; simp at h
      | some ns =>
          rw [hgi] at h
          dsimp only at h
          split at h
          · cases hp : ns.parentNest with
            | none => rw [hp] at h; simp at h
            | some p =>
              rw [hp] at h
              dsimp only at h
              exact ih p t m h
          · simp at h

theorem climbJoint_not_errored (g : Graph) :
    ∀ fuel a b m, climbJoint g fuel a b ≠ .errored m := by
  intro fuel
  induction fuel with
  | zero =>
      intro a b m h
      unfold climbJoint at h
      split at h
      · simp at h
      · split at h
        · split at h
          · simp at h
          · simp at h
        · simp at h
  | succ n ih =>
      intro a b m h
      unfold climbJoint at h
      split at h
      · simp at h
      · split at h
        · split at h
          · exact ih _ _ m h
          · simp at h
        · simp at h

/-- Full case analysis of `calcNestAndMoveToIt`: either one of its sanity
checks or climbs bails out, leaving the state untouched with a result that is
neither success nor a returned error, or all reads and both climbing phases
succeed and the call is exactly `moveEdgeToNest` at the found nest. -/
theorem calcNest_cases (g : Graph) (e : Nat) :
    (∃ r, Edge.calcNestAndMoveToIt g e = (g, r) ∧ (∀ u, r ≠ .ok u) ∧
      (∀ m, r ≠ .errored m)) ∨
    (∃ ed s d sn dn sni dni snest dnest sni1 snest1 dni1 final,
      g.edges.get? e = some ed ∧ ed.srcNode = some s ∧ ed.dstNode = some d ∧
      g.nodes.get? s = some sn ∧ g.nodes.get? d = some dn ∧
      sn.graph = dn.graph ∧ ed.graph = sn.graph ∧
      sn.nest = some sni ∧ dn.nest = some dni ∧
      g.nests.get? sni = some snest ∧ g.nests.get? dni = some dnest ∧
      snest.nestTree = dnest.nestTree ∧ snest.nestTree = some ed.graph ∧
      climbAboveLevel g (g.nests.length + 1) sni dnest.level = .ok sni1 ∧
      g.nests.get? sni1 = some snest1 ∧
      climbAboveLevel g (g.nests.length + 1) dni snest1.level = .ok dni1 ∧
      climbJoint g (g.nests.length + 1) sni1 dni1 = .ok final ∧
      Edge.calcNestAndMoveToIt g e = moveEdgeToNest g e ed.nest final) := by
  unfold Edge.calcNestAndMoveToIt
  cases he : g.edges.get? e with
  | none => exact Or.inl ⟨.panicked, rfl, by simp, by simp⟩
  | some ed =>
  dsimp only
  cases hs : ed.srcNode with
  | none =>
      cases hd : ed.dstNode with
      | none => exact Or.inl ⟨.panicked, rfl, by simp, by simp⟩
      | some d => exact Or.inl ⟨.panicked, rfl, by simp, by simp⟩
  | some s =>
  cases hd : ed.dstNode with
  | none => exact Or.inl ⟨.panicked, rfl, by simp, by simp⟩
  | some d =>
  dsimp only
  cases hsn : g.nodes.get? s with
  | none =>
      cases hdn : g.nodes.get? d with
      | none => exact Or.inl ⟨.panicked, rfl, by simp, by simp⟩
      | some dn => exact Or.inl ⟨.panicked, rfl, by simp, by simp⟩
  | some sn =>
  cases hdn : g.nodes.get? d with
  | none => exact Or.inl ⟨.panicked, rfl, by simp, by simp⟩
  | some dn =>
  dsimp only
  by_cases hg1 : sn.graph ≠ dn.graph
  · rw [if_pos hg1]
    exact Or.inl ⟨.panicked, rfl, by simp, by simp⟩
  · rw [if_neg hg1]
    push_neg at hg1
    by_cases hg2 : ed.graph ≠ sn.graph
    · rw [if_pos hg2]
      exact Or.inl ⟨.panicked, rfl, by simp, by simp⟩
    · rw [if_neg hg2]
      push_neg at hg2
      cases hsnest : sn.nest with
      | none =>
          cases hdnest : dn.nest with
          | none => exact Or.inl ⟨.panicked, rfl, by simp, by simp⟩
          | some dni => exact Or.inl ⟨.panicked, rfl, by simp, by simp⟩
      | some sni =>
      cases hdnest : dn.nest with
      | none => exact Or.inl ⟨.panicked, rfl, by simp, by simp⟩
      | some dni =>
      dsimp only
      cases hsne : g.nests.get? sni with
      | none =>
          cases hdne : g.nests.get? dni with
          | none => exact Or.inl ⟨.panicked, rfl, by simp, by simp⟩
          | some dnest => exact Or.inl ⟨.panicked, rfl, by simp, by simp⟩
      | some snest =>
      cases hdne : g.nests.get? dni with
      | none => exact Or.inl ⟨.panicked, rfl, by simp, by simp⟩
      | some dnest =>
      dsimp only
      by_cases ht1 : snest.nestTree ≠ dnest.nestTree
      · rw [if_pos ht1]
        exact Or.inl ⟨.panicked, rfl, by simp, by simp⟩
      · rw [if_neg ht1]
        push_neg at ht1
        by_cases ht2 : snest.nestTree ≠ some ed.graph
        · rw [if_pos ht2]
          exact Or.inl ⟨.panicked, rfl, by simp, by simp⟩
        · rw [if_neg ht2]
          push_neg at ht2
          cases hc1 : climbAboveLevel g (g.nests.length + 1) sni dnest.level with
          | errored m => exact absurd hc1 (climbAbove_not_errored g _ _ _ m)
          | panicked => exact Or.inl ⟨.panicked, rfl, by simp, by simp⟩
          | diverged => exact Or.inl ⟨.diverged, rfl, by simp, by simp⟩
          | ok sni1 =>
          dsimp only
          cases hg1e : g.nests.get? sni1 with
          | none => exact Or.inl ⟨.panicked, rfl, by simp, by simp⟩
          | some snest1 =>
          dsimp only
          cases hc2 : climbAboveLevel g (g.nests.length + 1) dni snest1.level with
          | errored m => exact absurd hc2 (climbAbove_not_errored g _ _ _ m)
          | panicked => exact Or.inl ⟨.panicked, rfl, by simp, by simp⟩
          | diverged => exact Or.inl ⟨.diverged, rfl, by simp, by simp⟩
          | ok dni1 =>
          dsimp only
          cases hc3 : climbJoint g (g.nests.length + 1) sni1 dni1 with
          | errored m => exact absurd hc3 (climbJoint_not_errored g _ _ _ m)
          | panicked => exact Or.inl ⟨.panicked, rfl, by simp, by simp⟩
          | diverged => exact Or.inl ⟨.diverged, rfl, by simp, by simp⟩
          | ok final =>
              exact Or.inr ⟨ed, s, d, sn, dn, sni, dni, snest, dnest, sni1, snest1,
                dni1, final, rfl, hs, hd, hsn, hdn, hg1, hg2, hsnest, hdnest,
                hsne, hdne, ht1, ht2, hc1, hg1e, hc2, hc3, rfl⟩
theorem calcNest_nodes (g : Graph) (e : Nat) :
    (Edge.calcNestAndMoveToIt g e).1.nodes = g.nodes := by
  rcases calcNest_cases g e with ⟨r, heq, -, -⟩ |
    ⟨ed, s, d, sn, dn, sni, dni, snest, dnest, sni1, snest1, dni1, final,
      he, -, -, -, -, -, -, -, -, -, -, -, -, -, -, -, -, heq⟩
  · rw [heq]
  · rw [heq]; exact moveEdgeToNest_nodes g e ed.nest final

theorem calcNest_not_errored (g : Graph) (e : Nat) (m : String) :
    (Edge.calcNestAndMoveToIt g e).2 ≠ .errored m := by
  rcases calcNest_cases g e with ⟨r, heq, -, hne⟩ |
    ⟨ed, s, d, sn, dn, sni, dni, snest, dnest, sni1, snest1, dni1, final,
      he, -, -, -, -, -, -, -, -, -, -, -, -, -, -, -, -, heq⟩
  · rw [heq]; exact hne m
  · rw [heq]; exact moveEdgeToNest_not_errored g e ed.nest final m

theorem calcNest_ok_assigns_nest (g g' : Graph) (e : Nat) (u : Unit)
    (h : Edge.calcNestAndMoveToIt g e = (g', .ok u)) :
    ∃ ed ed' c, g.edges.get? e = some ed ∧ g'.edges.get? e = some ed' ∧
      edgeAdj ed' = edgeAdj ed ∧ ed'.nest = some c := by
  rcases calcNest_cases g e with ⟨r, heq, hok, -⟩ |
    ⟨ed, s, d, sn, dn, sni, dni, snest, dnest, sni1, snest1, dni1, final,
      he, -, -, -, -, -, -, -, -, -, -, -, -, -, -, -, -, heq⟩
  · rw [heq] at h
    rw [Prod.mk.injEq] at h
    exact absurd h.2 (hok u)
  · rw [heq] at h
    obtain ⟨ed', hed', hadj, hnest⟩ :=
      moveEdgeToNest_ok_nest g g' e ed.nest final u ed he h
    exact ⟨ed, ed', final, he, hed', hadj, hnest⟩

/-- Full case analysis of `NewEdge` on a world where every node of the graph
records the graph as its owner and same-graph endpoint pointers are into the
heap: either one of the four argument checks fails with an error and the
state is untouched, or all checks pass and the call is exactly
`attachNewEdge` on the two dereferenced endpoints. -/
theorem newEdge_cases (g : Graph) (src dst : Option (Nat × Nat))
    (hg : ∀ i n, g.nodes.get? i = some n → n.graph = g.gid)
    (hvs : ∀ p, src = some p → p.1 = g.gid → p.2 < g.nodes.length)
    (hvd : ∀ q, dst = some q → q.1 = g.gid → q.2 < g.nodes.length) :
    (∃ m, Graph.NewEdge g src dst = (g, .errored m) ∧
      (src = none ∨ dst = none ∨ (∃ p, src = some p ∧ p.1 ≠ g.gid) ∨
        (∃ q, dst = some q ∧ q.1 ≠ g.gid))) ∨
    (∃ si di sn dn, src = some (g.gid, si) ∧ dst = some (g.gid, di) ∧
      g.nodes.get? si = some sn ∧ g.nodes.get? di = some dn ∧
      Graph.NewEdge g src dst = attachNewEdge g si di sn dn) := by
  unfold Graph.NewEdge
  cases src with
  | none => exact Or.inl ⟨_, rfl, Or.inl rfl⟩
  | some p =>
      obtain ⟨sg, si⟩ := p
      dsimp only
      cases dst with
      | none => exact Or.inl ⟨_, rfl, Or.inr (Or.inl rfl)⟩
      | some q =>
          obtain ⟨dg, di⟩ := q
          dsimp only
          by_cases hsg : sg ≠ g.gid
          · rw [if_pos hsg]
            exact Or.inl ⟨_, rfl, Or.inr (Or.inr (Or.inl ⟨(sg, si), rfl, hsg⟩))⟩
          · rw [if_neg hsg]
            push_neg at hsg
            have hsi : si < g.nodes.length := hvs (sg, si) rfl hsg
            cases hsn : g.nodes.get? si with
            | none =>
                rw [List.get?_eq_none] at hsn
                exact absurd hsn (Nat.not_le_of_lt hsi)
            | some sn =>
                dsimp only
                rw [if_neg (fun hc => hc (hg si sn hsn))]
                by_cases hdg : dg ≠ g.gid
                · rw [if_pos hdg]
                  exact Or.inl ⟨_, rfl, Or.inr (Or.inr (Or.inr ⟨(dg, di), rfl, hdg⟩))⟩
                · rw [if_neg hdg]
                  push_neg at hdg
                  have hdi : di < g.nodes.length := hvd (dg, di) rfl hdg
                  cases hdn : g.nodes.get? di with
                  | none =>
                      rw [List.get?_eq_none] at hdn
                      exact absurd hdn (Nat.not_le_of_lt hdi)
                  | some dn =>
                      dsimp only
                      rw [if_neg (fun hc => hc (hg di dn hdn))]
                      subst hsg
                      subst hdg
                      exact Or.inr ⟨si, di, sn, dn, rfl, rfl, hsn, hdn, rfl⟩

theorem insert_nodes_get? (g : Graph) (si di : Nat) (sn dn : Node) (j : Nat) :
    (newEdgeHeapAfterInsert g si di sn dn).nodes.get? j =
      (fun o => if j = di then
          Option.map (fun m => { m with firstIncomingEdge := some g.edges.length }) o
        else o)
      ((fun o => if j = si then
          Option.map (fun m => { m with firstOutcomingEdge := some g.edges.length }) o
        else o)
       (g.nodes.get? j)) := by
  unfold newEdgeHeapAfterInsert
  dsimp only
  cases hso : sn.firstOutcomingEdge <;> cases hdi : dn.firstIncomingEdge <;>
    simp only [updNode_get?, updEdge_nodes]

theorem insert_heads (g : Graph) (si di : Nat) (sn dn : Node)
    (hsn : g.nodes.get? si = some sn) (hdn : g.nodes.get? di = some dn) :
    (∃ sn', (newEdgeHeapAfterInsert g si di sn dn).nodes.get? si = some sn' ∧
      sn'.firstOutcomingEdge = some g.edges.length) ∧
    (∃ dn', (newEdgeHeapAfterInsert g si di sn dn).nodes.get? di = some dn' ∧
      dn'.firstIncomingEdge = some g.edges.length) := by
  constructor
  · rw [insert_nodes_get? g si di sn dn si]
    dsimp only
    rw [if_pos rfl, hsn]
    by_cases hsd : si = di
    · rw [if_pos hsd]
      exact ⟨_, rfl, rfl⟩
    · rw [if_neg hsd]
      exact ⟨_, rfl, rfl⟩
  · rw [insert_nodes_get? g si di sn dn di]
    dsimp only
    rw [if_pos rfl]
    by_cases hds : di = si
    · rw [if_pos hds, hdn]
      exact ⟨_, rfl, rfl⟩
    · rw [if_neg hds, hdn]
      exact ⟨_, rfl, rfl⟩

theorem insert_edge_record (g : Graph) (si di : Nat) (sn dn : Node) :
    ∃ ed0, (newEdgeHeapAfterInsert g si di sn dn).edges.get? g.edges.length =
        some ed0 ∧
      ed0.srcNode = some si ∧ ed0.dstNode = some di ∧
      ed0.nextOutcomingEdge = sn.firstOutcomingEdge ∧
      ed0.nextIncomingEdge = dn.firstIncomingEdge ∧ ed0.graph = g.gid ∧
      ed0.nest = none := by
  unfold newEdgeHeapAfterInsert
  dsimp only
  cases hso : sn.firstOutcomingEdge <;> cases hdi : dn.firstIncomingEdge <;>
    simp only [updNode_edges, updEdge_get?] <;>
    (try split_ifs) <;>
    rw [List.get?_concat_length] <;>
    exact ⟨_, rfl, rfl, rfl, rfl, rfl, rfl, rfl⟩
theorem attachNewEdge_not_errored (g : Graph) (si di : Nat) (sn dn : Node)
    (m : String) : (attachNewEdge g si di sn dn).2 ≠ .errored m := by
  unfold attachNewEdge
  dsimp only
  rcases hc : Edge.calcNestAndMoveToIt (newEdgeHeapAfterInsert g si di sn dn)
      g.edges.length with ⟨g6, rc⟩
  cases rc with
  | ok u => simp
  | errored m1 =>
      dsimp only
      intro hcon
      have := calcNest_not_errored (newEdgeHeapAfterInsert g si di sn dn)
        g.edges.length m1
      rw [hc] at this
      exact this rfl
  | panicked => simp
  | diverged => simp

theorem edgeAdj_fields {e1 e2 : Edge} (h : edgeAdj e1 = edgeAdj e2) :
    e1.srcNode = e2.srcNode ∧ e1.dstNode = e2.dstNode ∧
    e1.nextOutcomingEdge = e2.nextOutcomingEdge ∧
    e1.nextIncomingEdge = e2.nextIncomingEdge := by
  unfold edgeAdj at h
  simp only [Prod.mk.injEq] at h
  exact ⟨h.2.2.1, h.2.2.2.1, h.2.2.2.2.1, h.2.2.2.2.2.2.1⟩

/-- C4: `NewEdge` returns an error exactly when an endpoint pointer is nil or
names a node of a different graph, an error leaves the graph untouched, and a
successful call head-inserts the new edge (index `edges.length`) into the
source's outgoing and the destination's incoming adjacency lists — the new
edge's forward links take over the old heads — and immediately attributes the
edge to a nest (its nest field is never left nil).  Parallel edges are
permitted: on `exG3`, which already has edge 0 from node 0 to node 1, a
second `NewEdge(0, 1)` succeeds and both edges coexist with the same
endpoints. -/
theorem newEdge_error_iff_and_success (g : Graph) (src dst : Option (Nat × Nat))
    (hg : ∀ i n, g.nodes.get? i = some n → n.graph = g.gid)
    (hvs : ∀ p, src = some p → p.1 = g.gid → p.2 < g.nodes.length)
    (hvd : ∀ q, dst = some q → q.1 = g.gid → q.2 < g.nodes.length) :
    ((∃ m, (Graph.NewEdge g src dst).2 = .errored m) ↔
      (src = none ∨ dst = none ∨ (∃ p, src = some p ∧ p.1 ≠ g.gid) ∨
        (∃ q, dst = some q ∧ q.1 ≠ g.gid))) ∧
    (∀ m, (Graph.NewEdge g src dst).2 = .errored m →
      (Graph.NewEdge g src dst).1 = g) ∧
    (∀ g' eIdx, Graph.NewEdge g src dst = (g', .ok eIdx) →
      eIdx = g.edges.length ∧
      ∃ si di sn dn, src = some (g.gid, si) ∧ dst = some (g.gid, di) ∧
        g.nodes.get? si = some sn ∧ g.nodes.get? di = some dn ∧
        (∃ sn', g'.nodes.get? si = some sn' ∧ sn'.firstOutcomingEdge = some eIdx) ∧
        (∃ dn', g'.nodes.get? di = some dn' ∧ dn'.firstIncomingEdge = some eIdx) ∧
        (∃ ed' c, g'.edges.get? eIdx = some ed' ∧ ed'.srcNode = some si ∧
          ed'.dstNode = some di ∧ ed'.nextOutcomingEdge = sn.firstOutcomingEdge ∧
          ed'.nextIncomingEdge = dn.firstIncomingEdge ∧ ed'.nest = some c)) ∧
    ((Graph.NewEdge exG3 (some (0, 0)) (some (0, 1))).2 = .ok 1 ∧
      (Graph.NewEdge exG3 (some (0, 0)) (some (0, 1))).1.edges.map
        (fun e => (e.srcNode, e.dstNode)) =
        [(some 0, some 1), (some 0, some 1)]) := by
  refine ⟨⟨?_, ?_⟩, ?_, ?_, by decide, by decide⟩
  · rintro ⟨m, hm⟩
    rcases newEdge_cases g src dst hg hvs hvd with ⟨m1, heq, hcond⟩ |
      ⟨si, di, sn, dn, hsrc, hdst, hsn, hdn, heq⟩
    · exact hcond
    · rw [heq] at hm
      exact absurd hm (attachNewEdge_not_errored g si di sn dn m)
  · intro hcond
    rcases newEdge_cases g src dst hg hvs hvd with ⟨m1, heq, -⟩ |
      ⟨si, di, sn, dn, hsrc, hdst, -, -, -⟩
    · exact ⟨m1, by rw [heq]⟩
    · exfalso
      rcases hcond with h | h | ⟨p, hp, hne⟩ | ⟨q, hq, hne⟩
      · rw [h] at hsrc; exact Option.noConfusion hsrc
      · rw [h] at hdst; exact Option.noConfusion hdst
      · rw [hp] at hsrc
        injection hsrc with h'
        subst h'
        exact hne rfl
      · rw [hq] at hdst
        injection hdst with h'
        subst h'
        exact hne rfl
  · intro m hm
    rcases newEdge_cases g src dst hg hvs hvd with ⟨m1, heq, -⟩ |
      ⟨si, di, sn, dn, hsrc, hdst, hsn, hdn, heq⟩
    · rw [heq]
    · rw [heq] at hm
      exact absurd hm (attachNewEdge_not_errored g si di sn dn m)
  · intro g' eIdx hok
    rcases newEdge_cases g src dst hg hvs hvd with ⟨m1, heq, -⟩ |
      ⟨si, di, sn, dn, hsrc, hdst, hsn, hdn, heq⟩
    · rw [heq] at hok
      rw [Prod.mk.injEq] at hok
      exact absurd hok.2 (by simp)
    · rw [heq] at hok
      unfold attachNewEdge at hok
      dsimp only at hok
      rcases hc : Edge.calcNestAndMoveToIt (newEdgeHeapAfterInsert g si di sn dn)
          g.edges.length with ⟨g6, rc⟩
      rw [hc] at hok
      cases rc with
      | errored m1 => rw [Prod.mk.injEq] at hok; exact absurd hok.2 (by simp)
      | panicked => rw [Prod.mk.injEq] at hok; exact absurd hok.2 (by simp)
      | diverged => rw [Prod.mk.injEq] at hok; exact absurd hok.2 (by simp)
      | ok u =>
          rw [Prod.mk.injEq] at hok
          obtain ⟨hg', hres⟩ := hok
          injection hres with hei
          subst hei
          subst hg'
          have hnodes : g6.nodes = (newEdgeHeapAfterInsert g si di sn dn).nodes := by
            have h5 := calcNest_nodes (newEdgeHeapAfterInsert g si di sn dn)
              g.edges.length
            rw [hc] at h5
            exact h5
          obtain ⟨⟨sn', hsn', hsno⟩, ⟨dn', hdn', hdni⟩⟩ :=
            insert_heads g si di sn dn hsn hdn
          obtain ⟨ed0, hed0, hp1, hp2, hp3, hp4, hp5, hp6⟩ :=
            insert_edge_record g si di sn dn
          obtain ⟨ed, ed', c, hed, hed', hadj, hnest⟩ :=
            calcNest_ok_assigns_nest (newEdgeHeapAfterInsert g si di sn dn) g6
              g.edges.length u hc
          rw [hed0] at hed
          injection hed with hedid
          subst hedid
          obtain ⟨hf1, hf2, hf3, hf4⟩ := edgeAdj_fields hadj
          refine ⟨rfl, si, di, sn, dn, hsrc, hdst, hsn, hdn, ?_, ?_, ?_⟩
          · refine ⟨sn', ?_, hsno⟩
            dsimp only
            rw [hnodes]
            exact hsn'
          · refine ⟨dn', ?_, hdni⟩
            dsimp only
            rw [hnodes]
            exact hdn'
          · refine ⟨ed', c, ?_, ?_, ?_, ?_, ?_, hnest⟩
            · dsimp only
              exact hed'
            · rw [hf1, hp1]
            · rw [hf2, hp2]
            · rw [hf3, hp3]
            · rw [hf4, hp4]

/-- Witness for C4: on the two-node graph `exG2`, `NewEdge (0,0) (0,1)`
returns edge 0 head-inserted into both adjacency lists with a nest
assigned. -/
theorem newEdge_error_iff_and_success_witness :
    (0 : Nat) = exG2.edges.length ∧
    ∃ si di sn dn,
      (some (0, 0) : Option (Nat × Nat)) = some (exG2.gid, si) ∧
      (some (0, 1) : Option (Nat × Nat)) = some (exG2.gid, di) ∧
      exG2.nodes.get? si = some sn ∧ exG2.nodes.get? di = some dn ∧
      (∃ sn', exG3.nodes.get? si = some sn' ∧ sn'.firstOutcomingEdge = some 0) ∧
      (∃ dn', exG3.nodes.get? di = some dn' ∧ dn'.firstIncomingEdge = some 0) ∧
      (∃ ed' c, exG3.edges.get? 0 = some ed' ∧ ed'.srcNode = some si ∧
        ed'.dstNode = some di ∧ ed'.nextOutcomingEdge = sn.firstOutcomingEdge ∧
        ed'.nextIncomingEdge = dn.firstIncomingEdge ∧ ed'.nest = some c) :=
  (newEdge_error_iff_and_success exG2 (some (0, 0)) (some (0, 1))
    (by
      intro i n hin
      have hm : n ∈ exG2.nodes := List.get?_mem hin
      have hall : ∀ x ∈ exG2.nodes, x.graph = exG2.gid := by decide
      exact hall n hm)
    (by
      intro p hp h1
      injection hp with h2
      subst h2
      decide)
    (by
      intro q hq h1
      injection hq with h2
      subst h2
      decide)).2.2.1 exG3 0 (by decide)

/-! ### Effects of the per-node attribute removal, for the release sweep -/

theorem removeStrAttr_result (g : Graph) (n : Nat) (attr : GraphStrAttrH) :
    (Node.RemoveStrAttr g n attr).2 = .ok () ∨
      (Node.RemoveStrAttr g n attr).2 = .panicked := by
  unfold Node.RemoveStrAttr
  split
  · right; rfl
  · split
    · split
      · left; rfl
      · right; rfl
    · right; rfl

theorem removeStrAttr_nests (g : Graph) (n : Nat) (attr : GraphStrAttrH) :
    (Node.RemoveStrAttr g n attr).1.nests = g.nests := by
  unfold Node.RemoveStrAttr
  split
  · rfl
  · split
    · split
      · rfl
      · rfl
    · rfl

theorem removeStrAttr_gid (g : Graph) (n : Nat) (attr : GraphStrAttrH) :
    (Node.RemoveStrAttr g n attr).1.gid = g.gid := by
  unfold Node.RemoveStrAttr
  split
  · rfl
  · split
    · split
      · rfl
      · rfl
    · rfl

theorem removeStrAttr_noAttrs (g : Graph) (n : Nat) (attr : GraphStrAttrH) :
    ∀ i, ((Node.RemoveStrAttr g n attr).1.nodes.get? i).map nodeNoAttrs =
      (g.nodes.get? i).map nodeNoAttrs := by
  intro i
  unfold Node.RemoveStrAttr
  split
  · rfl
  · split
    · split
      · dsimp only
        rw [updNode_get?]
        by_cases hin : i = n
        · rw [if_pos hin]
          cases g.nodes.get? i <;> rfl
        · rw [if_neg hin]
      · rfl
    · rfl

theorem removeStrAttr_attrLen (g : Graph) (n : Nat) (attr : GraphStrAttrH) :
    ∀ i, ((Node.RemoveStrAttr g n attr).1.nodes.get? i).map
        (fun m => m.strAttrs.length) =
      (g.nodes.get? i).map (fun m => m.strAttrs.length) := by
  intro i
  unfold Node.RemoveStrAttr
  split
  · rfl
  · rename_i node hnode
    cases hg : idxGet node.strAttrs attr.attrNum with
    | none => rfl
    | some old =>
        dsimp only
        cases hs : idxSet node.strAttrs attr.attrNum { old with isSet := false } with
        | none => rfl
        | some arr =>
            dsimp only
            rw [updNode_get?]
            by_cases hin : i = n
            · rw [if_pos hin]
              have harr : arr.length = node.strAttrs.length := by
                unfold idxSet at hs
                split at hs
                · injection hs with hs'
                  rw [← hs']
                  exact List.length_set ..
                · exact Option.noConfusion hs
              subst hin
              rw [hnode]
              show some arr.length = some node.strAttrs.length
              rw [harr]
            · rw [if_neg hin]

theorem idxSet_get (l : List StrAttrVal) (a : Int) (v : StrAttrVal)
    (arr : List StrAttrVal) (h : idxSet l a v = some arr) :
    idxGet arr a = some v := by
  unfold idxSet at h
  split at h
  · rename_i hb
    injection h with h'
    subst h'
    unfold idxGet
    rw [if_pos hb.1]
    exact List.get?_set_eq_of_lt v hb.2
  · exact Option.noConfusion h

theorem removeStrAttr_clears (g g1 : Graph) (n : Nat) (attr : GraphStrAttrH)
    (h : Node.RemoveStrAttr g n attr = (g1, .ok ())) :
    clearedAt g1 n attr.attrNum := by
  unfold Node.RemoveStrAttr at h
  split at h
  · rw [Prod.mk.injEq] at h
    exact absurd h.2 (by simp)
  · rename_i node hnode
    split at h
    · rename_i old hold
      split at h
      · rename_i arr harr
        rw [Prod.mk.injEq] at h
        intro node1 v hnode1 hv
        rw [← h.1] at hnode1
        rw [updNode_get?, if_pos rfl, hnode] at hnode1
        injection hnode1 with hnode1'
        subst hnode1'
        have hv2 : idxGet arr attr.attrNum = some v := hv
        rw [idxSet_get node.strAttrs attr.attrNum _ arr harr] at hv2
        injection hv2 with hv'
        subst hv'
        rfl
      · rw [Prod.mk.injEq] at h
        exact absurd h.2 (by simp)
    · rw [Prod.mk.injEq] at h
      exact absurd h.2 (by simp)

theorem removeStrAttr_preserves_cleared (g : Graph) (n j : Nat)
    (attr : GraphStrAttrH) (hc : clearedAt g j attr.attrNum) :
    clearedAt (Node.RemoveStrAttr g n attr).1 j attr.attrNum := by
  unfold Node.RemoveStrAttr
  split
  · exact hc
  · rename_i node hnode
    split
    · rename_i old hold
      split
      · rename_i arr harr
        dsimp only
        intro node1 v hnode1 hv
        rw [updNode_get?] at hnode1
        by_cases hjn : j = n
        · rw [if_pos hjn, hjn, hnode] at hnode1
          injection hnode1 with hnode1'
          subst hnode1'
          have hv2 : idxGet arr attr.attrNum = some v := hv
          rw [idxSet_get node.strAttrs attr.attrNum _ arr harr] at hv2
          injection hv2 with hv'
          subst hv'
          rfl
        · rw [if_neg hjn] at hnode1
          exact hc node1 v hnode1 hv
      · exact hc
    · exact hc

/-! ### Traversal congruence: the whole-graph walk only reads links -/

theorem climbNextSibling_congr (g g1 : Graph) (h : g1.nests = g.nests) :
    ∀ fuel cur, climbNextSibling g1 fuel cur = climbNextSibling g fuel cur := by
  intro fuel
  induction fuel with
  | zero =>
      intro cur
      cases cur with
      | none => rfl
      | some i =>
          unfold climbNextSibling
          rw [h]
  | succ n ih =>
      intro cur
      cases cur with
      | none => rfl
      | some i =>
          unfold climbNextSibling
          rw [h]
          cases hgi : g.nests.get? i with
          | none => rfl
          | some ns =>
              dsimp only
              cases hs2 : ns.nextSiblingNest with
              | some s => rfl
              | none => exact ih ns.parentNest

theorem getNextNest_congr (g g1 : Graph) (h : g1.nests = g.nests) (i : Nat) :
    Nest.GetNextNest g1 i = Nest.GetNextNest g i := by
  unfold Nest.GetNextNest
  rw [h]
  cases hgi : g.nests.get? i with
  | none => rfl
  | some ns =>
      dsimp only
      cases ns.firstChildNest with
      | some c => rfl
      | none =>
          cases ns.nextSiblingNest with
          | some s => rfl
          | none => exact climbNextSibling_congr g g1 h _ ns.parentNest

theorem skipEmptyNests_congr (g g1 : Graph) (h : g1.nests = g.nests) :
    ∀ fuel cur, skipEmptyNests g1 fuel cur = skipEmptyNests g fuel cur := by
  intro fuel
  induction fuel with
  | zero =>
      intro cur
      cases cur with
      | none => rfl
      | some i =>
          unfold skipEmptyNests
          rw [h, getNextNest_congr g g1 h i]
  | succ n ih =>
      intro cur
      cases cur with
      | none => rfl
      | some i =>
          unfold skipEmptyNests
          rw [h, getNextNest_congr g g1 h i]
          cases hgi : g.nests.get? i with
          | none => rfl
          | some ns =>
              dsimp only
              by_cases hf : ns.firstNode = none
              · rw [if_pos hf, if_pos hf]
                cases Nest.GetNextNest g i with
                | ok nxt => exact ih nxt
                | errored m => rfl
                | panicked => rfl
                | diverged => rfl
              · rw [if_neg hf, if_neg hf]

theorem getNextNode_congr (g g1 : Graph) (h1 : g1.nests = g.nests)
    (h2 : ∀ i, (g1.nodes.get? i).map nodeNoAttrs = (g.nodes.get? i).map nodeNoAttrs)
    (i : Nat) : Node.GetNextNode g1 i = Node.GetNextNode g i := by
  unfold Node.GetNextNode
  have h2i := h2 i
  cases ha : g1.nodes.get? i with
  | none =>
      rw [ha] at h2i
      cases hb : g.nodes.get? i with
      | none => rfl
      | some m => rw [hb] at h2i; exact absurd h2i (by simp)
  | some m1 =>
      rw [ha] at h2i
      cases hb : g.nodes.get? i with
      | none => rw [hb] at h2i; exact absurd h2i (by simp)
      | some m =>
          rw [hb] at h2i
          injection h2i with h2i'
          have hnx0 := congrArg Node.nextNodeInNest h2i'
          have hnst0 := congrArg Node.nest h2i'
          have hnx : m1.nextNodeInNest = m.nextNodeInNest := hnx0
          have hnst : m1.nest = m.nest := hnst0
          dsimp only
          rw [hnx, hnst]
          cases m.nextNodeInNest with
          | some nx => rfl
          | none =>
              cases m.nest with
              | none => rfl
              | some cur =>
                  dsimp only
                  rw [getNextNest_congr g g1 h1 cur]
                  cases Nest.GetNextNest g cur with
                  | ok start =>
                      dsimp only
                      rw [skipEmptyNests_congr g g1 h1 (g1.nests.length + 1) start,
                        show g1.nests.length = g.nests.length from h1 ▸ rfl]
                      cases skipEmptyNests g (g.nests.length + 1) start with
                      | ok o =>
                          cases o with
                          | none => rfl
                          | some j => rw [h1]
                      | errored m => rfl
                      | panicked => rfl
                      | diverged => rfl
                  | errored m => rfl
                  | panicked => rfl
                  | diverged => rfl

theorem travFrom_congr (g g1 : Graph) (h1 : g1.nests = g.nests)
    (h2 : ∀ i, (g1.nodes.get? i).map nodeNoAttrs = (g.nodes.get? i).map nodeNoAttrs) :
    ∀ fuel cur, travFrom g1 fuel cur = travFrom g fuel cur := by
  intro fuel
  induction fuel with
  | zero =>
      intro cur
      cases cur with
      | none => rfl
      | some n => rfl
  | succ f ih =>
      intro cur
      cases cur with
      | none => rfl
      | some n =>
          unfold travFrom
          rw [getNextNode_congr g g1 h1 h2 n]
          cases Node.GetNextNode g n with
          | ok nxt => dsimp only; rw [ih nxt]
          | errored m => rfl
          | panicked => rfl
          | diverged => rfl

/-! ### The release sweep clears the slot on every traversed node -/

theorem sweepNodesLoop_ok_spec (attr : GraphStrAttrH) :
    ∀ fuel g cur g1 L,
      sweepNodesLoop fuel g attr cur = (g1, .ok ()) →
      travFrom g fuel cur = some L →
      g1.nests = g.nests ∧ g1.gid = g.gid ∧
      (∀ i, (g1.nodes.get? i).map nodeNoAttrs = (g.nodes.get? i).map nodeNoAttrs) ∧
      (∀ j ∈ L, clearedAt g1 j attr.attrNum) ∧
      (∀ j, clearedAt g j attr.attrNum → clearedAt g1 j attr.attrNum) := by
  intro fuel
  induction fuel with
  | zero =>
      intro g cur g1 L hsw htr
      cases cur with
      | none =>
          have hg : (g, GoRes.ok ()) = (g1, GoRes.ok ()) := hsw
          rw [Prod.mk.injEq] at hg
          have hL : some ([] : List Nat) = some L := htr
          injection hL with hL2
          subst hL2
          rw [← hg.1]
          exact ⟨rfl, rfl, fun i => rfl, fun j hj => absurd hj (by simp),
            fun j hc => hc⟩
      | some n =>
          have hno : (none : Option (List Nat)) = some L := htr
          exact absurd hno (by simp)
  | succ f ih =>
      intro g cur g1 L hsw htr
      cases cur with
      | none =>
          have hg : (g, GoRes.ok ()) = (g1, GoRes.ok ()) := hsw
          rw [Prod.mk.injEq] at hg
          have hL : some ([] : List Nat) = some L := htr
          injection hL with hL2
          subst hL2
          rw [← hg.1]
          exact ⟨rfl, rfl, fun i => rfl, fun j hj => absurd hj (by simp),
            fun j hc => hc⟩
      | some n =>
          unfold sweepNodesLoop at hsw
          rcases hrm : Node.RemoveStrAttr g n attr with ⟨gm, rr⟩
          rw [hrm] at hsw
          have hres := removeStrAttr_result g n attr
          rw [hrm] at hres
          dsimp only at hres
          have hnests : gm.nests = g.nests := by
            have h2 := removeStrAttr_nests g n attr
            rw [hrm] at h2
            exact h2
          have hgid : gm.gid = g.gid := by
            have h2 := removeStrAttr_gid g n attr
            rw [hrm] at h2
            exact h2
          have hnoA : ∀ i, (gm.nodes.get? i).map nodeNoAttrs
              = (g.nodes.get? i).map nodeNoAttrs := by
            intro i
            have h2 := removeStrAttr_noAttrs g n attr i
            rw [hrm] at h2
            exact h2
          rcases hres with hok | hpan
          · subst hok
            dsimp only at hsw
            cases hnx : Node.GetNextNode gm n with
            | ok nxt =>
                rw [hnx] at hsw
                dsimp only at hsw
                have hnxg : Node.GetNextNode g n = GoRes.ok nxt := by
                  rw [← getNextNode_congr g gm hnests hnoA n]
                  exact hnx
                unfold travFrom at htr
                rw [hnxg] at htr
                dsimp only at htr
                cases htf : travFrom g f nxt with
                | none => rw [htf] at htr; exact absurd htr (by simp)
                | some L2 =>
                    rw [htf] at htr
                    have htr2 : some (n :: L2) = some L := htr
                    injection htr2 with htr3
                    subst htr3
                    have htfm : travFrom gm f nxt = some L2 := by
                      rw [travFrom_congr g gm hnests hnoA f nxt]
                      exact htf
                    obtain ⟨i1, i2, i3, i4, i5⟩ := ih gm nxt g1 L2 hsw htfm
                    refine ⟨by rw [i1, hnests], by rw [i2, hgid],
                      fun i => by rw [i3 i, hnoA i], ?_, ?_⟩
                    · intro j hj
                      rcases List.mem_cons.1 hj with hj1 | hj2
                      · subst hj1
                        exact i5 j (removeStrAttr_clears g gm j attr hrm)
                      · exact i4 j hj2
                    · intro j hc
                      have hcm : clearedAt gm j attr.attrNum := by
                        have h2 := removeStrAttr_preserves_cleared g n j attr hc
                        rw [hrm] at h2
                        exact h2
                      exact i5 j hcm
            | errored m =>
                rw [hnx] at hsw
                exact absurd (congrArg Prod.snd hsw) (by simp)
            | panicked =>
                rw [hnx] at hsw
                exact absurd (congrArg Prod.snd hsw) (by simp)
            | diverged =>
                rw [hnx] at hsw
                exact absurd (congrArg Prod.snd hsw) (by simp)
          · subst hpan
            dsimp only at hsw
            exact absurd (congrArg Prod.snd hsw) (by simp)

/-- Setting a node attribute and reading it back through the same handle
returns the stored value. -/
theorem node_set_then_get (g : Graph) (n : Nat) (attr : GraphStrAttrH)
    (v : String) (g1 : Graph)
    (h : Node.SetStrAttrVal g n attr v = (g1, .ok ())) :
    Node.GetStrAttrVal g1 n attr = .ok v := by
  unfold Node.SetStrAttrVal at h
  cases hn : g.nodes.get? n with
  | none =>
      rw [hn] at h
      rw [Prod.mk.injEq] at h
      exact absurd h.2 (by simp)
  | some node =>
      rw [hn] at h
      dsimp only at h
      by_cases hv : attr.isValid = false
      · rw [if_pos hv] at h
        rw [Prod.mk.injEq] at h
        exact absurd h.2 (by simp)
      · rw [if_neg hv] at h
        by_cases hgr : attr.graph ≠ some node.graph
        · rw [if_pos hgr] at h
          rw [Prod.mk.injEq] at h
          exact absurd h.2 (by simp)
        · rw [if_neg hgr] at h
          cases hs : idxSet node.strAttrs attr.attrNum ⟨true, v⟩ with
          | none =>
              rw [hs] at h
              rw [Prod.mk.injEq] at h
              exact absurd h.2 (by simp)
          | some arr =>
              rw [hs] at h
              rw [Prod.mk.injEq] at h
              rw [← h.1]
              unfold Node.GetStrAttrVal
              rw [updNode_get?, if_pos rfl, hn, Option.map_some']
              dsimp only
              rw [if_neg (by simp [hv]), if_neg (by simpa using hgr)]
              have hg2 : idxGet arr attr.attrNum = some ⟨true, v⟩ :=
                idxSet_get node.strAttrs attr.attrNum _ arr hs
              rw [hg2]
              rfl

/-- The list of set flags a release must clear is exactly the traversal list,
and a successful release hands back the permanently invalid handle and leaves
the released slot cleared on every node of the heap. -/
theorem releaseNodeStrAttr_spec (g : Graph) (attr : GraphStrAttrH)
    (g1 : Graph) (a2 : GraphStrAttrH)
    (htc : travCompleteB g = true)
    (hrel : Graph.ReleaseNodeStrAttr g attr = (g1, .ok a2)) :
    a2 = node_str_attr_invalid ∧
    (∀ j, clearedAt g1 j attr.attrNum) := by
  unfold Graph.ReleaseNodeStrAttr at hrel
  by_cases hv : ¬ attr.isValid
  · rw [if_pos hv] at hrel
    rw [Prod.mk.injEq] at hrel
    exact absurd hrel.2 (by simp)
  · rw [if_neg hv] at hrel
    by_cases hgr : attr.graph ≠ some g.gid
    · rw [if_pos hgr] at hrel
      rw [Prod.mk.injEq] at hrel
      exact absurd hrel.2 (by simp)
    · rw [if_neg hgr] at hrel
      unfold travCompleteB travList at htc
      cases hf : Graph.GetFirstNode g with
      | ok first =>
          rw [hf] at hrel htc
          dsimp only at htc
          try dsimp only at hrel
          rcases hsw : sweepNodesLoop (g.nodes.length + 1) g attr first with ⟨gs, rs⟩
          rw [hsw] at hrel
          cases rs with
          | ok u =>
              dsimp only at hrel
              cases htl : travFrom g (g.nodes.length + 1) first with
              | none =>
                  rw [htl] at htc
                  exact absurd htc (by simp)
              | some L =>
                  rw [htl] at htc
                  dsimp only at htc
                  obtain ⟨s1, s2, s3, s4, s5⟩ :=
                    sweepNodesLoop_ok_spec attr (g.nodes.length + 1) g first gs L
                      hsw htl
                  cases hmp : idxSetBool gs.nodeStrAttrAllocMap attr.attrNum false with
                  | none =>
                      rw [hmp] at hrel
                      rw [Prod.mk.injEq] at hrel
                      exact absurd hrel.2 (by simp)
                  | some mp =>
                      rw [hmp] at hrel
                      rw [Prod.mk.injEq] at hrel
                      have ha2 : GoRes.ok node_str_attr_invalid = GoRes.ok a2 := hrel.2
                      injection ha2 with ha3
                      refine ⟨ha3.symm, ?_⟩
                      intro j
                      have hcl : clearedAt gs j attr.attrNum := by
                        by_cases hjl : j < g.nodes.length
                        · have hjL : j ∈ L := by
                            have := (List.all_eq_true.1 htc) j
                              (List.mem_range.2 hjl)
                            simpa using this
                          exact s4 j hjL
                        · intro node v hnode hv2
                          have hgn : g.nodes.get? j = none :=
                            List.get?_eq_none.2 (Nat.le_of_not_lt hjl)
                          have h3 := s3 j
                          rw [hgn, hnode] at h3
                          exact absurd h3 (by simp)
                      rw [← hrel.1]
                      exact hcl
          | errored m =>
              rw [Prod.mk.injEq] at hrel
              exact absurd hrel.2 (by simp)
          | panicked =>
              rw [Prod.mk.injEq] at hrel
              exact absurd hrel.2 (by simp)
          | diverged =>
              rw [Prod.mk.injEq] at hrel
              exact absurd hrel.2 (by simp)
      | errored m =>
          rw [hf] at hrel
          rw [Prod.mk.injEq] at hrel
          exact absurd hrel.2 (by simp)
      | panicked =>
          rw [hf] at hrel
          rw [Prod.mk.injEq] at hrel
          exact absurd hrel.2 (by simp)
      | diverged =>
          rw [hf] at hrel
          rw [Prod.mk.injEq] at hrel
          exact absurd hrel.2 (by simp)

/-- A graph with a node attribute pool of one slot. -/
def c7g0 : Graph := NewGraph 0 ⟨0, 1, 0⟩

/-- The handle returned by the first node-attribute allocation on `c7g0`. -/
def c7h : GraphStrAttrH := ⟨0, true, some 0⟩

/-- Two nodes and the allocated slot. -/
def c7g3 : Graph :=
  (Graph.NewNodeStrAttr (Graph.NewNode (Graph.NewNode c7g0).1).1).1

/-- Value "v0" stored on node 0. -/
def c7g4 : Graph := (Node.SetStrAttrVal c7g3 0 c7h "v0").1

/-- Value "v1" stored on node 1 as well. -/
def c7g5 : Graph := (Node.SetStrAttrVal c7g4 1 c7h "v1").1

/-- The state after releasing the slot (both nodes swept). -/
def c7g6 : Graph := (Graph.ReleaseNodeStrAttr c7g5 c7h).1

/-- The state after re-allocating a slot from the freed pool. -/
def c7g7 : Graph := (Graph.NewNodeStrAttr c7g6).1

/-- The handle returned by the re-allocation. -/
def c7b : GraphStrAttrH := ⟨0, true, some 0⟩

/-- C7: for node attributes, setting a value through a handle and reading it
back returns the same value; a successful release with a complete whole-graph
traversal returns the permanently invalid handle and sweeps the slot's set
flag off every node of the heap; and a handle allocated after the release onto
the freed slot never reads back a set flag on any node (every `IsStrAttrSet`
through it is `false`). -/
theorem attr_roundtrip_and_release_sweep :
    (∀ g n attr v g1, Node.SetStrAttrVal g n attr v = (g1, .ok ()) →
        Node.GetStrAttrVal g1 n attr = .ok v) ∧
    (∀ g attr g1 a2, travCompleteB g = true →
        Graph.ReleaseNodeStrAttr g attr = (g1, .ok a2) →
        a2 = node_str_attr_invalid ∧ ∀ j, clearedAt g1 j attr.attrNum) ∧
    (∀ g attr g1 a2 g2 b, travCompleteB g = true →
        Graph.ReleaseNodeStrAttr g attr = (g1, .ok a2) →
        Graph.NewNodeStrAttr g1 = (g2, .ok b) →
        b.attrNum = attr.attrNum →
        ∀ j s, Node.IsStrAttrSet g2 j b = .ok s → s = false) := by
  refine ⟨node_set_then_get,
    fun g attr g1 a2 htc hrel => releaseNodeStrAttr_spec g attr g1 a2 htc hrel,
    ?_⟩
  intro g attr g1 a2 g2 b htc hrel hna heq j s hIs
  have hcl := (releaseNodeStrAttr_spec g attr g1 a2 htc hrel).2 j
  unfold Graph.NewNodeStrAttr at hna
  cases hff : findFree g1.nodeStrAttrAllocMap with
  | none =>
      rw [hff] at hna
      rw [Prod.mk.injEq] at hna
      exact absurd hna.2 (by simp)
  | some i =>
      rw [hff] at hna
      rw [Prod.mk.injEq] at hna
      have hg2 : ({ g1 with
          nodeStrAttrAllocMap := g1.nodeStrAttrAllocMap.set i true } : Graph)
          = g2 := hna.1
      rw [← hg2] at hIs
      unfold Node.IsStrAttrSet at hIs
      cases hnj : g1.nodes.get? j with
      | none =>
          dsimp only at hIs
          rw [hnj] at hIs
          exact absurd hIs (by simp)
      | some node =>
          dsimp only at hIs
          rw [hnj] at hIs
          dsimp only at hIs
          split at hIs
          · exact absurd hIs (by simp)
          · split at hIs
            · exact absurd hIs (by simp)
            · cases hvv : idxGet node.strAttrs b.attrNum with
              | none =>
                  rw [hvv] at hIs
                  exact absurd hIs (by simp)
              | some v0 =>
                  rw [hvv] at hIs
                  dsimp only at hIs
                  injection hIs with hIs2
                  rw [heq] at hvv
                  have hfalse := hcl node v0 hnj hvv
                  rw [← hIs2]
                  exact hfalse

/-- Concrete run of C7: store-then-load on node 0, release sweeps both nodes,
and the re-allocated handle reads no stale flag. -/
theorem attr_roundtrip_and_release_sweep_witness :
    Node.GetStrAttrVal c7g4 0 c7h = .ok "v0" ∧
    (node_str_attr_invalid = node_str_attr_invalid ∧
      ∀ j, clearedAt c7g6 j c7h.attrNum) ∧
    (∀ j s, Node.IsStrAttrSet c7g7 j c7b = .ok s → s = false) :=
  ⟨attr_roundtrip_and_release_sweep.1 c7g3 0 c7h "v0" c7g4 (by decide),
   attr_roundtrip_and_release_sweep.2.1 c7g5 c7h c7g6 node_str_attr_invalid
     (by decide) (by decide),
   attr_roundtrip_and_release_sweep.2.2 c7g5 c7h c7g6 node_str_attr_invalid
     c7g7 c7b (by decide) (by decide) (by decide) (by decide)⟩

/-! ### Structural similarity: the frame of every attribute operation -/

theorem map_frame_some {α β : Type} {f : α → β} {o1 o2 : Option α}
    (h : o1.map f = o2.map f) {a : α} (h2 : o2 = some a) :
    ∃ b, o1 = some b ∧ f b = f a := by
  subst h2
  cases o1 with
  | none => exact absurd h (by simp)
  | some b =>
      refine ⟨b, rfl, ?_⟩
      have h3 : some (f b) = some (f a) := h
      injection h3

theorem map_frame_none {α β : Type} {f : α → β} {o1 o2 : Option α}
    (h : o1.map f = o2.map f) (h2 : o2 = none) : o1 = none := by
  subst h2
  cases o1 with
  | none => rfl
  | some b => exact absurd h (by simp)

theorem nodeNoAttrs_fields {m1 m2 : Node} (h : nodeNoAttrs m1 = nodeNoAttrs m2) :
    m1.graph = m2.graph ∧ m1.nest = m2.nest ∧
    m1.firstIncomingEdge = m2.firstIncomingEdge ∧
    m1.firstOutcomingEdge = m2.firstOutcomingEdge := by
  refine ⟨?_, ?_, ?_, ?_⟩
  · exact congrArg (fun x => x.graph) h
  · exact congrArg (fun x => x.nest) h
  · exact congrArg (fun x => x.firstIncomingEdge) h
  · exact congrArg (fun x => x.firstOutcomingEdge) h

theorem nestNoAttrs_fields {n1 n2 : Nest} (h : nestNoAttrs n1 = nestNoAttrs n2) :
    n1.nestTree = n2.nestTree ∧ n1.level = n2.level ∧
    n1.parentNest = n2.parentNest := by
  refine ⟨?_, ?_, ?_⟩
  · exact congrArg (fun x => x.nestTree) h
  · exact congrArg (fun x => x.level) h
  · exact congrArg (fun x => x.parentNest) h

theorem structSim_refl (g : Graph) : structSim g g :=
  ⟨rfl, rfl, rfl, rfl, fun i => rfl, fun i => rfl, rfl, rfl⟩

theorem structSim_trans {g1 g2 g3 : Graph}
    (h1 : structSim g1 g2) (h2 : structSim g2 g3) : structSim g1 g3 := by
  obtain ⟨a1, a2, a3, a4, a5, a6, a7, a8⟩ := h1
  obtain ⟨b1, b2, b3, b4, b5, b6, b7, b8⟩ := h2
  exact ⟨b1.trans a1, b2.trans a2, b3.trans a3, b4.trans a4,
    fun i => (b5 i).trans (a5 i), fun i => (b6 i).trans (a6 i),
    b7.trans a7, b8.trans a8⟩

theorem structSim_preserves_Inv {g g1 : Graph}
    (hs : structSim g g1) (hInv : Inv g) : Inv g1 := by
  obtain ⟨hgid, hroot, hbase, hedges, hnodes, hnests, hnlen, hslen⟩ := hs
  refine ⟨?_, ?_, ?_, ?_, ?_, ?_, ?_, ?_, ?_, ?_, ?_⟩
  · rw [hroot]
    exact hInv.root_eq
  · rw [hbase, hgid]
    exact hInv.base_eq
  · obtain ⟨rns, hr⟩ := hInv.root_some
    obtain ⟨rns1, h1, h2⟩ := map_frame_some (hnests 0) hr
    exact ⟨rns1, h1⟩
  · intro i ns1 h1
    obtain ⟨ns, hg⟩ : ∃ ns, g.nests.get? i = some ns := by
      cases hgg : g.nests.get? i with
      | none =>
          have := map_frame_none (hnests i) hgg
          rw [this] at h1
          exact absurd h1 (by simp)
      | some ns => exact ⟨ns, rfl⟩
    obtain ⟨ns2, h2, h3⟩ := map_frame_some (hnests i) hg
    rw [h1] at h2
    injection h2 with h4
    subst h4
    rw [(nestNoAttrs_fields h3).1, hgid]
    exact hInv.nest_tree i ns hg
  · intro ns1 h1
    obtain ⟨rns, hr⟩ := hInv.root_some
    obtain ⟨ns2, h2, h3⟩ := map_frame_some (hnests 0) hr
    rw [h1] at h2
    injection h2 with h4
    subst h4
    obtain ⟨_, hl, hp⟩ := nestNoAttrs_fields h3
    rw [hl, hp]
    exact ⟨(hInv.nest_root rns hr).1, (hInv.nest_root rns hr).2⟩
  · intro i ns1 h1 hi
    obtain ⟨ns, hg⟩ : ∃ ns, g.nests.get? i = some ns := by
      cases hgg : g.nests.get? i with
      | none =>
          have := map_frame_none (hnests i) hgg
          rw [this] at h1
          exact absurd h1 (by simp)
      | some ns => exact ⟨ns, rfl⟩
    obtain ⟨ns2, h2, h3⟩ := map_frame_some (hnests i) hg
    rw [h1] at h2
    injection h2 with h4
    subst h4
    obtain ⟨_, hl, hp⟩ := nestNoAttrs_fields h3
    rw [hl, hp]
    exact hInv.nest_child i ns hg hi
  · intro i n1 h1
    obtain ⟨n, hg⟩ : ∃ n, g.nodes.get? i = some n := by
      cases hgg : g.nodes.get? i with
      | none =>
          have := map_frame_none (hnodes i) hgg
          rw [this] at h1
          exact absurd h1 (by simp)
      | some n => exact ⟨n, rfl⟩
    obtain ⟨n2, h2, h3⟩ := map_frame_some (hnodes i) hg
    rw [h1] at h2
    injection h2 with h4
    subst h4
    rw [(nodeNoAttrs_fields h3).1, hgid]
    exact hInv.node_graph i n hg
  · intro i n1 h1
    obtain ⟨n, hg⟩ : ∃ n, g.nodes.get? i = some n := by
      cases hgg : g.nodes.get? i with
      | none =>
          have := map_frame_none (hnodes i) hgg
          rw [this] at h1
          exact absurd h1 (by simp)
      | some n => exact ⟨n, rfl⟩
    obtain ⟨n2, h2, h3⟩ := map_frame_some (hnodes i) hg
    rw [h1] at h2
    injection h2 with h4
    subst h4
    obtain ⟨j, ns, hj, hns⟩ := hInv.node_nest i n hg
    obtain ⟨ns1, h5, _⟩ := map_frame_some (hnests j) hns
    exact ⟨j, ns1, by rw [(nodeNoAttrs_fields h3).2.1, hj], h5⟩
  · intro i n1 h1 k hk
    obtain ⟨n, hg⟩ : ∃ n, g.nodes.get? i = some n := by
      cases hgg : g.nodes.get? i with
      | none =>
          have := map_frame_none (hnodes i) hgg
          rw [this] at h1
          exact absurd h1 (by simp)
      | some n => exact ⟨n, rfl⟩
    obtain ⟨n2, h2, h3⟩ := map_frame_some (hnodes i) hg
    rw [h1] at h2
    injection h2 with h4
    subst h4
    rw [hedges]
    exact hInv.node_out_bound i n hg k
      (by rw [← (nodeNoAttrs_fields h3).2.2.2]; exact hk)
  · intro i n1 h1 k hk
    obtain ⟨n, hg⟩ : ∃ n, g.nodes.get? i = some n := by
      cases hgg : g.nodes.get? i with
      | none =>
          have := map_frame_none (hnodes i) hgg
          rw [this] at h1
          exact absurd h1 (by simp)
      | some n => exact ⟨n, rfl⟩
    obtain ⟨n2, h2, h3⟩ := map_frame_some (hnodes i) hg
    rw [h1] at h2
    injection h2 with h4
    subst h4
    rw [hedges]
    exact hInv.node_in_bound i n hg k
      (by rw [← (nodeNoAttrs_fields h3).2.2.1]; exact hk)
  · intro i e he
    rw [hedges] at he
    obtain ⟨heg, s, d, sn, dn, a, b, hs1, hs2, hd1, hd2, hsa, hdb, hen, hso, hdi⟩ :=
      hInv.edge_spec i e he
    obtain ⟨sn1, hsx, hsy⟩ := map_frame_some (hnodes s) hs2
    obtain ⟨dn1, hdx, hdy⟩ := map_frame_some (hnodes d) hd2
    obtain ⟨hsg, hsnst, hsin, hsout⟩ := nodeNoAttrs_fields hsy
    obtain ⟨hdg, hdnst, hdin, hdout⟩ := nodeNoAttrs_fields hdy
    refine ⟨by rw [hgid]; exact heg, s, d, sn1, dn1, a, b, hs1, hsx, hd1, hdx,
      by rw [hsnst]; exact hsa, by rw [hdnst]; exact hdb, hen,
      by rw [hsout]; exact hso, by rw [hdin]; exact hdi⟩

theorem structSim_updNode_attrs (g : Graph) (j : Nat) (arr : List StrAttrVal) :
    structSim g (updNode g j (fun m => { m with strAttrs := arr })) := by
  refine ⟨rfl, rfl, rfl, rfl, ?_, fun i => rfl, by simp, rfl⟩
  intro i
  rw [updNode_get?]
  split
  · cases g.nodes.get? i <;> rfl
  · rfl

theorem structSim_updNest_attrs (g : Graph) (j : Nat) (arr : List StrAttrVal) :
    structSim g (updNest g j (fun m => { m with strAttrs := arr })) := by
  refine ⟨rfl, rfl, rfl, rfl, fun i => rfl, ?_, rfl, by simp⟩
  intro i
  rw [updNest_get?]
  split
  · cases g.nests.get? i <;> rfl
  · rfl

theorem setGraphAttr_structSim (g : Graph) (a : GraphStrAttrH) (v : String) :
    structSim g (Graph.SetStrAttrVal g a v).1 := by
  unfold Graph.SetStrAttrVal
  split
  · exact structSim_refl g
  · split
    · exact structSim_refl g
    · split
      · exact ⟨rfl, rfl, rfl, rfl, fun i => rfl, fun i => rfl, rfl, rfl⟩
      · exact structSim_refl g

theorem removeGraphAttr_structSim (g : Graph) (a : GraphStrAttrH) :
    structSim g (Graph.RemoveStrAttr g a).1 := by
  unfold Graph.RemoveStrAttr
  split
  · split
    · exact ⟨rfl, rfl, rfl, rfl, fun i => rfl, fun i => rfl, rfl, rfl⟩
    · exact structSim_refl g
  · exact structSim_refl g

theorem setNodeAttr_structSim (g : Graph) (n : Nat) (a : GraphStrAttrH)
    (v : String) : structSim g (Node.SetStrAttrVal g n a v).1 := by
  unfold Node.SetStrAttrVal
  split
  · exact structSim_refl g
  · split
    · exact structSim_refl g
    · split
      · exact structSim_refl g
      · split
        · exact structSim_updNode_attrs g n _
        · exact structSim_refl g

theorem removeNodeAttr_structSim (g : Graph) (n : Nat) (a : GraphStrAttrH) :
    structSim g (Node.RemoveStrAttr g n a).1 := by
  unfold Node.RemoveStrAttr
  split
  · exact structSim_refl g
  · split
    · split
      · exact structSim_updNode_attrs g n _
      · exact structSim_refl g
    · exact structSim_refl g

theorem setNestAttr_structSim (g : Graph) (n : Nat) (a : NestStrAttrH)
    (v : String) : structSim g (Nest.SetStrAttrVal g n a v).1 := by
  unfold Nest.SetStrAttrVal
  split
  · exact structSim_refl g
  · split
    · exact structSim_refl g
    · split
      · exact structSim_refl g
      · split
        · exact structSim_updNest_attrs g n _
        · exact structSim_refl g

theorem removeNestAttr_structSim (g : Graph) (n : Nat) (a : NestStrAttrH) :
    structSim g (Nest.RemoveStrAttr g n a).1 := by
  unfold Nest.RemoveStrAttr
  split
  · exact structSim_refl g
  · split
    · split
      · exact structSim_updNest_attrs g n _
      · exact structSim_refl g
    · exact structSim_refl g

theorem allocGraphAttr_structSim (g : Graph) :
    structSim g (Graph.NewGraphStrAttr g).1 := by
  unfold Graph.NewGraphStrAttr
  split
  · exact ⟨rfl, rfl, rfl, rfl, fun i => rfl, fun i => rfl, rfl, rfl⟩
  · exact structSim_refl g

theorem allocNodeAttr_structSim (g : Graph) :
    structSim g (Graph.NewNodeStrAttr g).1 := by
  unfold Graph.NewNodeStrAttr
  split
  · exact ⟨rfl, rfl, rfl, rfl, fun i => rfl, fun i => rfl, rfl, rfl⟩
  · exact structSim_refl g

theorem allocNestAttr_structSim (g : Graph) :
    structSim g (NestTree.NewNestStrAttr g).1 := by
  unfold NestTree.NewNestStrAttr
  split
  · exact ⟨rfl, rfl, rfl, rfl, fun i => rfl, fun i => rfl, rfl, rfl⟩
  · exact structSim_refl g

theorem releaseGraphAttr_structSim (g : Graph) (a : GraphStrAttrH) :
    structSim g (Graph.ReleaseGraphStrAttr g a).1 := by
  unfold Graph.ReleaseGraphStrAttr
  split
  · exact structSim_refl g
  · split
    · exact structSim_refl g
    · have h1 := removeGraphAttr_structSim g a
      rcases hrm : Graph.RemoveStrAttr g a with ⟨g1, r⟩
      rw [hrm] at h1
      cases r with
      | ok u =>
          dsimp only
          split
          · exact structSim_trans h1
              ⟨rfl, rfl, rfl, rfl, fun i => rfl, fun i => rfl, rfl, rfl⟩
          · exact h1
      | errored m =>
          dsimp only
          split
          · exact structSim_trans h1
              ⟨rfl, rfl, rfl, rfl, fun i => rfl, fun i => rfl, rfl, rfl⟩
          · exact h1
      | panicked => exact h1
      | diverged => exact h1

theorem sweepNodesLoop_structSim (a : GraphStrAttrH) :
    ∀ fuel g cur, structSim g (sweepNodesLoop fuel g a cur).1 := by
  intro fuel
  induction fuel with
  | zero =>
      intro g cur
      cases cur with
      | none => exact structSim_refl g
      | some n =>
          unfold sweepNodesLoop
          have h1 := removeNodeAttr_structSim g n a
          rcases hrm : Node.RemoveStrAttr g n a with ⟨g1, r⟩
          rw [hrm] at h1
          cases r with
          | ok u =>
              dsimp only
              cases Node.GetNextNode g1 n <;> exact h1
          | errored m =>
              dsimp only
              cases Node.GetNextNode g1 n <;> exact h1
          | panicked => exact h1
          | diverged => exact h1
  | succ f ih =>
      intro g cur
      cases cur with
      | none => exact structSim_refl g
      | some n =>
          unfold sweepNodesLoop
          have h1 := removeNodeAttr_structSim g n a
          rcases hrm : Node.RemoveStrAttr g n a with ⟨g1, r⟩
          rw [hrm] at h1
          cases r with
          | ok u =>
              dsimp only
              cases Node.GetNextNode g1 n with
              | ok nxt => exact structSim_trans h1 (ih g1 nxt)
              | errored m => exact h1
              | panicked => exact h1
              | diverged => exact h1
          | errored m =>
              dsimp only
              cases Node.GetNextNode g1 n with
              | ok nxt => exact structSim_trans h1 (ih g1 nxt)
              | errored m => exact h1
              | panicked => exact h1
              | diverged => exact h1
          | panicked => exact h1
          | diverged => exact h1

theorem releaseNodeAttr_structSim (g : Graph) (a : GraphStrAttrH) :
    structSim g (Graph.ReleaseNodeStrAttr g a).1 := by
  unfold Graph.ReleaseNodeStrAttr
  split
  · exact structSim_refl g
  · split
    · exact structSim_refl g
    · cases Graph.GetFirstNode g with
      | ok first =>
          dsimp only
          have h1 := sweepNodesLoop_structSim a (g.nodes.length + 1) g first
          rcases hsw : sweepNodesLoop (g.nodes.length + 1) g a first with ⟨g1, r⟩
          rw [hsw] at h1
          cases r with
          | ok u =>
              dsimp only
              split
              · exact structSim_trans h1
                  ⟨rfl, rfl, rfl, rfl, fun i => rfl, fun i => rfl, rfl, rfl⟩
              · exact h1
          | errored m => exact h1
          | panicked => exact h1
          | diverged => exact h1
      | errored m => exact structSim_refl g
      | panicked => exact structSim_refl g
      | diverged => exact structSim_refl g

theorem sweepNestsLoop_structSim (a : NestStrAttrH) :
    ∀ fuel g cur, structSim g (sweepNestsLoop fuel g a cur).1 := by
  intro fuel
  induction fuel with
  | zero =>
      intro g cur
      cases cur with
      | none => exact structSim_refl g
      | some n =>
          unfold sweepNestsLoop
          have h1 := removeNestAttr_structSim g n a
          rcases hrm : Nest.RemoveStrAttr g n a with ⟨g1, r⟩
          rw [hrm] at h1
          cases r with
          | ok u =>
              dsimp only
              cases Nest.GetNextNest g1 n <;> exact h1
          | errored m =>
              dsimp only
              cases Nest.GetNextNest g1 n <;> exact h1
          | panicked => exact h1
          | diverged => exact h1
  | succ f ih =>
      intro g cur
      cases cur with
      | none => exact structSim_refl g
      | some n =>
          unfold sweepNestsLoop
          have h1 := removeNestAttr_structSim g n a
          rcases hrm : Nest.RemoveStrAttr g n a with ⟨g1, r⟩
          rw [hrm] at h1
          cases r with
          | ok u =>
              dsimp only
              cases Nest.GetNextNest g1 n with
              | ok nxt => exact structSim_trans h1 (ih g1 nxt)
              | errored m => exact h1
              | panicked => exact h1
              | diverged => exact h1
          | errored m =>
              dsimp only
              cases Nest.GetNextNest g1 n with
              | ok nxt => exact structSim_trans h1 (ih g1 nxt)
              | errored m => exact h1
              | panicked => exact h1
              | diverged => exact h1
          | panicked => exact h1
          | diverged => exact h1

theorem releaseNestAttr_structSim (g : Graph) (a : NestStrAttrH) :
    structSim g (NestTree.ReleaseNestStrAttr g a).1 := by
  unfold NestTree.ReleaseNestStrAttr
  split
  · exact structSim_refl g
  · split
    · exact structSim_refl g
    · have h1 := sweepNestsLoop_structSim a (g.nests.length + 1) g g.rootNest
      rcases hsw : sweepNestsLoop (g.nests.length + 1) g a g.rootNest with ⟨g1, r⟩
      rw [hsw] at h1
      cases r with
      | ok u =>
          dsimp only
          split
          · exact structSim_trans h1
              ⟨rfl, rfl, rfl, rfl, fun i => rfl, fun i => rfl, rfl, rfl⟩
          · exact h1
      | errored m => exact h1
      | panicked => exact h1
      | diverged => exact h1

/-! ### The invariant holds initially -/

theorem inv_newGraph (gid : Nat) (spec : AttrSpec) : Inv (NewGraph gid spec) := by
  refine ⟨rfl, rfl, ⟨_, rfl⟩, ?_, ?_, ?_, ?_, ?_, ?_, ?_, ?_⟩
  · intro i ns h
    cases i with
    | zero =>
        injection h with h2
        rw [← h2]
        rfl
    | succ k => exact absurd h (by simp [NewGraph])
  · intro ns h
    injection h with h2
    rw [← h2]
    exact ⟨rfl, rfl⟩
  · intro i ns h hi
    cases i with
    | zero => exact absurd hi (by simp)
    | succ k => exact absurd h (by simp [NewGraph])
  · intro i n h
    exact absurd h (by simp [NewGraph])
  · intro i n h
    exact absurd h (by simp [NewGraph])
  · intro i n h
    exact absurd h (by simp [NewGraph])
  · intro i n h
    exact absurd h (by simp [NewGraph])
  · intro i e h
    exact absurd h (by simp [NewGraph])

/-! ### Core-projection frame lemmas for the membership splices -/

theorem get?_append_singleton_ne {α : Type} (l : List α) (x : α) (j : Nat)
    (h : j ≠ l.length) : (l ++ [x]).get? j = l.get? j := by
  rcases Nat.lt_or_ge j l.length with h1 | h1
  · exact List.get?_append h1
  · have h2 : l.length < j := Nat.lt_of_le_of_ne h1 (Ne.symm h)
    rw [List.get?_eq_none.2 h1, List.get?_eq_none.2 (by simpa using h2)]

theorem nodeCore_fields {m1 m2 : Node} (h : nodeCore m1 = nodeCore m2) :
    m1.graph = m2.graph ∧ m1.nest = m2.nest ∧
    m1.firstIncomingEdge = m2.firstIncomingEdge ∧
    m1.firstOutcomingEdge = m2.firstOutcomingEdge := by
  unfold nodeCore at h
  simp only [Prod.mk.injEq] at h
  exact ⟨h.1, h.2.1, h.2.2.1, h.2.2.2⟩

theorem nestCore_fields {n1 n2 : Nest} (h : nestCore n1 = nestCore n2) :
    n1.nestTree = n2.nestTree ∧ n1.level = n2.level ∧
    n1.parentNest = n2.parentNest := by
  unfold nestCore at h
  simp only [Prod.mk.injEq] at h
  exact ⟨h.1, h.2.1, h.2.2⟩

theorem edgeCore_fields {e1 e2 : Edge} (h : edgeCore e1 = edgeCore e2) :
    e1.graph = e2.graph ∧ e1.srcNode = e2.srcNode ∧
    e1.dstNode = e2.dstNode ∧ e1.nest = e2.nest := by
  unfold edgeCore at h
  simp only [Prod.mk.injEq] at h
  exact ⟨h.1, h.2.1, h.2.2.1, h.2.2.2⟩

theorem addNode_frame (g : Graph) (a b : Nat) :
    (Nest.addNode g a b).1.gid = g.gid ∧
    (Nest.addNode g a b).1.rootNest = g.rootNest ∧
    (Nest.addNode g a b).1.baseGraph = g.baseGraph ∧
    (Nest.addNode g a b).1.nodes.length = g.nodes.length ∧
    (Nest.addNode g a b).1.nests.length = g.nests.length ∧
    (∀ i, ((Nest.addNode g a b).1.nodes.get? i).map nodeCore
        = (g.nodes.get? i).map nodeCore) ∧
    (∀ i, ((Nest.addNode g a b).1.nests.get? i).map nestCore
        = (g.nests.get? i).map nestCore) := by
  unfold Nest.addNode
  split
  · split
    · exact ⟨rfl, rfl, rfl, rfl, rfl, fun i => rfl, fun i => rfl⟩
    · split
      · exact ⟨rfl, rfl, rfl, rfl, rfl, fun i => rfl, fun i => rfl⟩
      · dsimp only
        split
        · refine ⟨rfl, rfl, rfl, by simp, by simp, ?_, ?_⟩
          · intro i
            simp only [updNest_nodes, updNode_get?]
            split_ifs <;> (cases g.nodes.get? i <;> rfl)
          · intro i
            simp only [updNode_nests, updNest_get?]
            split_ifs <;> (cases g.nests.get? i <;> rfl)
        · refine ⟨rfl, rfl, rfl, by simp, by simp, ?_, ?_⟩
          · intro i
            simp only [updNest_nodes, updNode_get?]
            split_ifs <;> (cases g.nodes.get? i <;> rfl)
          · intro i
            simp only [updNode_nests, updNest_get?]
            split_ifs <;> (cases g.nests.get? i <;> rfl)
  all_goals exact ⟨rfl, rfl, rfl, rfl, rfl, fun i => rfl, fun i => rfl⟩

theorem removeNode_frame (g : Graph) (a b : Nat) :
    (Nest.removeNode g a b).1.gid = g.gid ∧
    (Nest.removeNode g a b).1.rootNest = g.rootNest ∧
    (Nest.removeNode g a b).1.baseGraph = g.baseGraph ∧
    (Nest.removeNode g a b).1.nodes.length = g.nodes.length ∧
    (Nest.removeNode g a b).1.nests.length = g.nests.length ∧
    (∀ i, ((Nest.removeNode g a b).1.nodes.get? i).map nodeCore
        = (g.nodes.get? i).map nodeCore) ∧
    (∀ i, ((Nest.removeNode g a b).1.nests.get? i).map nestCore
        = (g.nests.get? i).map nestCore) := by
  unfold Nest.removeNode
  split
  · split
    · exact ⟨rfl, rfl, rfl, rfl, rfl, fun i => rfl, fun i => rfl⟩
    · split
      · exact ⟨rfl, rfl, rfl, rfl, rfl, fun i => rfl, fun i => rfl⟩
      · dsimp only
        split <;> split <;>
          (refine ⟨rfl, rfl, rfl, by simp, by simp, ?_, ?_⟩
           · intro i
             simp only [updNest_nodes, updNode_get?, updNest_get?,
               updNode_nests]
             try split_ifs <;> (cases g.nodes.get? i <;> rfl)
           · intro i
             simp only [updNode_nests, updNest_get?, updNest_nodes,
               updNode_get?]
             try split_ifs <;> (cases g.nests.get? i <;> rfl))
  all_goals exact ⟨rfl, rfl, rfl, rfl, rfl, fun i => rfl, fun i => rfl⟩

theorem addEdge_frame (g : Graph) (a b : Nat) :
    (Nest.addEdge g a b).1.gid = g.gid ∧
    (Nest.addEdge g a b).1.rootNest = g.rootNest ∧
    (Nest.addEdge g a b).1.baseGraph = g.baseGraph ∧
    (Nest.addEdge g a b).1.nests.length = g.nests.length ∧
    (Nest.addEdge g a b).1.edges.length = g.edges.length ∧
    (∀ i, ((Nest.addEdge g a b).1.nests.get? i).map nestCore
        = (g.nests.get? i).map nestCore) ∧
    (∀ j, ((Nest.addEdge g a b).1.edges.get? j).map edgeCore
        = (g.edges.get? j).map edgeCore) := by
  unfold Nest.addEdge
  split
  · split
    · exact ⟨rfl, rfl, rfl, rfl, rfl, fun i => rfl, fun j => rfl⟩
    · split
      · exact ⟨rfl, rfl, rfl, rfl, rfl, fun i => rfl, fun j => rfl⟩
      · dsimp only
        split <;>
          (refine ⟨rfl, rfl, rfl, by simp, by simp, ?_, ?_⟩
           · intro i
             simp only [updEdge_nests, updNest_get?]
             try split_ifs <;> (cases g.nests.get? i <;> rfl)
           · intro j
             simp only [updNest_edges, updEdge_get?]
             try split_ifs <;> (cases g.edges.get? j <;> rfl))
  all_goals exact ⟨rfl, rfl, rfl, rfl, rfl, fun i => rfl, fun j => rfl⟩

theorem removeEdge_frame (g : Graph) (a b : Nat) :
    (Nest.removeEdge g a b).1.gid = g.gid ∧
    (Nest.removeEdge g a b).1.rootNest = g.rootNest ∧
    (Nest.removeEdge g a b).1.baseGraph = g.baseGraph ∧
    (Nest.removeEdge g a b).1.nests.length = g.nests.length ∧
    (Nest.removeEdge g a b).1.edges.length = g.edges.length ∧
    (∀ i, ((Nest.removeEdge g a b).1.nests.get? i).map nestCore
        = (g.nests.get? i).map nestCore) ∧
    (∀ j, ((Nest.removeEdge g a b).1.edges.get? j).map edgeCore
        = (g.edges.get? j).map edgeCore) := by
  unfold Nest.removeEdge
  split
  · split
    · exact ⟨rfl, rfl, rfl, rfl, rfl, fun i => rfl, fun j => rfl⟩
    · split
      · exact ⟨rfl, rfl, rfl, rfl, rfl, fun i => rfl, fun j => rfl⟩
      · dsimp only
        split <;> split <;>
          (refine ⟨rfl, rfl, rfl, by simp, by simp, ?_, ?_⟩
           · intro i
             simp only [updEdge_nests, updNest_get?, updNest_edges,
               updEdge_get?]
             try split_ifs <;> (cases g.nests.get? i <;> rfl)
           · intro j
             simp only [updNest_edges, updEdge_get?, updEdge_nests,
               updNest_get?]
             try split_ifs <;> (cases g.edges.get? j <;> rfl))
  all_goals exact ⟨rfl, rfl, rfl, rfl, rfl, fun i => rfl, fun j => rfl⟩

theorem moveEdgeToNest_frame (g : Graph) (e : Nat) (o : Option Nat) (f : Nat) :
    (moveEdgeToNest g e o f).1.gid = g.gid ∧
    (moveEdgeToNest g e o f).1.rootNest = g.rootNest ∧
    (moveEdgeToNest g e o f).1.baseGraph = g.baseGraph ∧
    (moveEdgeToNest g e o f).1.nests.length = g.nests.length ∧
    (moveEdgeToNest g e o f).1.edges.length = g.edges.length ∧
    (∀ i, ((moveEdgeToNest g e o f).1.nests.get? i).map nestCore
        = (g.nests.get? i).map nestCore) ∧
    (∀ j, j ≠ e → ((moveEdgeToNest g e o f).1.edges.get? j).map edgeCore
        = (g.edges.get? j).map edgeCore) := by
  unfold moveEdgeToNest
  rcases h1 : (match o with
               | some old => Nest.removeEdge g old e
               | none => (g, GoRes.ok ())) with ⟨g1, r1⟩
  rw [h1]
  have hg1 : g1.gid = g.gid ∧ g1.rootNest = g.rootNest ∧
      g1.baseGraph = g.baseGraph ∧ g1.nests.length = g.nests.length ∧
      g1.edges.length = g.edges.length ∧
      (∀ i, (g1.nests.get? i).map nestCore = (g.nests.get? i).map nestCore) ∧
      (∀ j, (g1.edges.get? j).map edgeCore = (g.edges.get? j).map edgeCore) := by
    cases o with
    | none =>
        have h2 : (g, GoRes.ok ()) = (g1, r1) := h1
        rw [Prod.mk.injEq] at h2
        rw [← h2.1]
        exact ⟨rfl, rfl, rfl, rfl, rfl, fun i => rfl, fun j => rfl⟩
    | some old =>
        have h2 : Nest.removeEdge g old e = (g1, r1) := h1
        have h3 := removeEdge_frame g old e
        rw [h2] at h3
        exact h3
  obtain ⟨f1, f2, f3, f4, f5, f6, f7⟩ := hg1
  cases r1 with
  | ok u =>
      dsimp only
      obtain ⟨a1, a2, a3, a4, a5, a6, a7⟩ :=
        addEdge_frame (updEdge g1 e (fun x => { x with nest := some f })) f e
      refine ⟨a1.trans f1, a2.trans f2, a3.trans f3, a4.trans (by simpa using f4),
        a5.trans (by simpa using f5), ?_, ?_⟩
      · intro i
        rw [a6 i]
        rw [updEdge_nests]
        exact f6 i
      · intro j hj
        rw [a7 j]
        rw [updEdge_get?, if_neg hj]
        exact f7 j
  | errored m => exact ⟨f1, f2, f3, f4, f5, f6, fun j hj => f7 j⟩
  | panicked => exact ⟨f1, f2, f3, f4, f5, f6, fun j hj => f7 j⟩
  | diverged => exact ⟨f1, f2, f3, f4, f5, f6, fun j hj => f7 j⟩

/-! ### Frame lemmas for the adjacency insertion of `NewEdge` -/

theorem insert_nests (g : Graph) (si di : Nat) (sn dn : Node) :
    (newEdgeHeapAfterInsert g si di sn dn).nests = g.nests := by
  unfold newEdgeHeapAfterInsert
  dsimp only
  cases sn.firstOutcomingEdge <;> cases dn.firstIncomingEdge <;> rfl

theorem insert_gid (g : Graph) (si di : Nat) (sn dn : Node) :
    (newEdgeHeapAfterInsert g si di sn dn).gid = g.gid := by
  unfold newEdgeHeapAfterInsert
  dsimp only
  cases sn.firstOutcomingEdge <;> cases dn.firstIncomingEdge <;> rfl

theorem insert_rootNest (g : Graph) (si di : Nat) (sn dn : Node) :
    (newEdgeHeapAfterInsert g si di sn dn).rootNest = g.rootNest := by
  unfold newEdgeHeapAfterInsert
  dsimp only
  cases sn.firstOutcomingEdge <;> cases dn.firstIncomingEdge <;> rfl

theorem insert_baseGraph (g : Graph) (si di : Nat) (sn dn : Node) :
    (newEdgeHeapAfterInsert g si di sn dn).baseGraph = g.baseGraph := by
  unfold newEdgeHeapAfterInsert
  dsimp only
  cases sn.firstOutcomingEdge <;> cases dn.firstIncomingEdge <;> rfl

theorem insert_edges_length (g : Graph) (si di : Nat) (sn dn : Node) :
    (newEdgeHeapAfterInsert g si di sn dn).edges.length = g.edges.length + 1 := by
  unfold newEdgeHeapAfterInsert
  dsimp only
  cases sn.firstOutcomingEdge <;> cases dn.firstIncomingEdge <;>
    simp only [updNode_edges, updEdge_edges_length, List.length_append,
      List.length_cons, List.length_nil]

theorem insert_nodes_length (g : Graph) (si di : Nat) (sn dn : Node) :
    (newEdgeHeapAfterInsert g si di sn dn).nodes.length = g.nodes.length := by
  unfold newEdgeHeapAfterInsert
  dsimp only
  cases sn.firstOutcomingEdge <;> cases dn.firstIncomingEdge <;>
    simp only [updNode_nodes_length, updEdge_nodes]

theorem insert_core_ne (g : Graph) (si di : Nat) (sn dn : Node) (j : Nat)
    (hj : j ≠ g.edges.length) :
    ((newEdgeHeapAfterInsert g si di sn dn).edges.get? j).map edgeCore
      = (g.edges.get? j).map edgeCore := by
  unfold newEdgeHeapAfterInsert
  dsimp only
  cases sn.firstOutcomingEdge <;> cases dn.firstIncomingEdge <;>
    simp only [updNode_edges, updEdge_get?] <;>
    (try split_ifs) <;>
    rw [get?_append_singleton_ne g.edges _ j hj] <;>
    (cases g.edges.get? j <;> rfl)

theorem insert_node_fields (g : Graph) (si di : Nat) (sn dn : Node) (i : Nat)
    (n1 : Node)
    (h : (newEdgeHeapAfterInsert g si di sn dn).nodes.get? i = some n1) :
    ∃ n, g.nodes.get? i = some n ∧ n1.nest = n.nest ∧ n1.graph = n.graph ∧
      (n1.firstOutcomingEdge = n.firstOutcomingEdge ∨
        n1.firstOutcomingEdge = some g.edges.length) ∧
      (n1.firstIncomingEdge = n.firstIncomingEdge ∨
        n1.firstIncomingEdge = some g.edges.length) := by
  rw [insert_nodes_get? g si di sn dn i] at h
  dsimp only at h
  by_cases hdi : i = di
  · rw [if_pos hdi] at h
    by_cases hsi : i = si
    · rw [if_pos hsi] at h
      cases hg : g.nodes.get? i with
      | none => rw [hg] at h; exact absurd h (by simp)
      | some n =>
          rw [hg] at h
          simp only [Option.map_some'] at h
          injection h with h3
          refine ⟨n, rfl, ?_, ?_, Or.inr ?_, Or.inr ?_⟩ <;> rw [← h3]
    · rw [if_neg hsi] at h
      cases hg : g.nodes.get? i with
      | none => rw [hg] at h; exact absurd h (by simp)
      | some n =>
          rw [hg] at h
          simp only [Option.map_some'] at h
          injection h with h3
          refine ⟨n, rfl, ?_, ?_, Or.inl ?_, Or.inr ?_⟩ <;> rw [← h3]
  · rw [if_neg hdi] at h
    by_cases hsi : i = si
    · rw [if_pos hsi] at h
      cases hg : g.nodes.get? i with
      | none => rw [hg] at h; exact absurd h (by simp)
      | some n =>
          rw [hg] at h
          simp only [Option.map_some'] at h
          injection h with h3
          refine ⟨n, rfl, ?_, ?_, Or.inr ?_, Or.inl ?_⟩ <;> rw [← h3]
    · rw [if_neg hsi] at h
      exact ⟨n1, h, rfl, rfl, Or.inl rfl, Or.inl rfl⟩

/-! ### The climbing loops on a flat (root + level-1 children) nest tree -/

theorem climbAboveLevel_flat (g : Graph) (rns : Nest)
    (h0 : g.nests.get? 0 = some rns) (hp0 : rns.parentNest = none)
    (hl0 : rns.level = 0)
    (hc : ∀ i ns, g.nests.get? i = some ns → 0 < i →
      ns.parentNest = some 0 ∧ ns.level = 1)
    (i : Nat) (ns : Nest) (hi : g.nests.get? i = some ns)
    (target : Nat) (f : Nat) :
    climbAboveLevel g (f + 1) i target
      = .ok (if ns.level ≤ target then i else 0) := by
  unfold climbAboveLevel
  rw [hi]
  dsimp only
  by_cases hlt : target < ns.level
  · rw [if_pos hlt, if_neg (Nat.not_le_of_lt hlt)]
    have hi0 : 0 < i := by
      rcases Nat.eq_zero_or_pos i with h | h
      · subst h
        rw [h0] at hi
        injection hi with h2
        subst h2
        rw [hl0] at hlt
        exact absurd hlt (Nat.not_lt_zero target)
      · exact h
    rw [(hc i ns hi hi0).1]
    dsimp only
    unfold climbAboveLevel
    rw [h0]
    dsimp only
    rw [if_neg (by rw [hl0]; exact Nat.not_lt_zero target)]
  · rw [if_neg hlt, if_pos (Nat.le_of_not_lt hlt)]

theorem climbJoint_flat_eq (g : Graph) (a : Nat) (f : Nat) :
    climbJoint g f a a = .ok a := by
  unfold climbJoint
  rw [if_pos rfl]

theorem climbJoint_flat_ne (g : Graph) (rns : Nest)
    (h0 : g.nests.get? 0 = some rns)
    (hc : ∀ i ns, g.nests.get? i = some ns → 0 < i →
      ns.parentNest = some 0 ∧ ns.level = 1)
    (a b : Nat) (nsa nsb : Nest)
    (ha : g.nests.get? a = some nsa) (hb : g.nests.get? b = some nsb)
    (hne : b ≠ a) (ha0 : 0 < a) (hb0 : 0 < b) (f : Nat) :
    climbJoint g (f + 1) a b = .ok 0 := by
  unfold climbJoint
  rw [if_neg hne, ha, hb]
  try dsimp only
  rw [(hc a nsa ha ha0).1, (hc b nsb hb hb0).1]
  try dsimp only
  exact climbJoint_flat_eq g 0 f

/-! ### Ancestor chains and the nearest common ancestor on a flat tree -/

theorem ancChain_root (g : Graph) (rns : Nest)
    (h0 : g.nests.get? 0 = some rns) (hp0 : rns.parentNest = none) :
    ∀ f, ancChain g (f + 1) 0 = [0] := by
  intro f
  unfold ancChain
  rw [h0, Option.some_bind, hp0]

theorem ancChain_child (g : Graph) (rns : Nest)
    (h0 : g.nests.get? 0 = some rns) (hp0 : rns.parentNest = none)
    (i : Nat) (ns : Nest) (hi : g.nests.get? i = some ns)
    (hpi : ns.parentNest = some 0) :
    ∀ f, ancChain g (f + 2) i = [i, 0] := by
  intro f
  unfold ancChain
  rw [hi, Option.some_bind, hpi]
  dsimp only
  rw [ancChain_root g rns h0 hp0 f]

theorem levelOf_eq (g : Graph) (i : Nat) (ns : Nest)
    (hi : g.nests.get? i = some ns) : levelOf g i = ns.level := by
  unfold levelOf
  rw [hi]
  rfl

/-- On a flat nest tree, `if a = b then a else 0` is the nearest common
ancestor of nests `a` and `b`. -/
theorem flat_isNCA (g : Graph) (rns : Nest)
    (h0 : g.nests.get? 0 = some rns) (hp0 : rns.parentNest = none)
    (hl0 : rns.level = 0)
    (hc : ∀ i ns, g.nests.get? i = some ns → 0 < i →
      ns.parentNest = some 0 ∧ ns.level = 1)
    (a b : Nat) (nsa nsb : Nest)
    (ha : g.nests.get? a = some nsa) (hb : g.nests.get? b = some nsb) :
    IsNCA g a b (if a = b then a else 0) := by
  have hdom : ∀ i ns, g.nests.get? i = some ns → i < g.nests.length := by
    intro i ns h
    by_contra hcon
    rw [List.get?_eq_none.2 (Nat.le_of_not_lt hcon)] at h
    exact Option.noConfusion h
  have hlen0 : 0 < g.nests.length := hdom 0 rns h0
  have hanc : ∀ i ns, g.nests.get? i = some ns →
      ancestorsOf g i = if i = 0 then [0] else [i, 0] := by
    intro i ns hi
    by_cases hi0 : i = 0
    · subst hi0
      rw [if_pos rfl]
      unfold ancestorsOf
      obtain ⟨m, hm⟩ := Nat.exists_eq_add_of_lt hlen0
      rw [hm]
      exact ancChain_root g rns h0 hp0 (0 + m)
    · rw [if_neg hi0]
      unfold ancestorsOf
      have h2 : 2 ≤ g.nests.length := by
        have := hdom i ns hi
        omega
      obtain ⟨m, hm⟩ := Nat.exists_eq_add_of_le h2
      rw [hm, Nat.add_comm 2 m]
      exact ancChain_child g rns h0 hp0 i ns hi
        (hc i ns hi (Nat.pos_of_ne_zero hi0)).1 m
  have hlevroot : levelOf g 0 = 0 := by rw [levelOf_eq g 0 rns h0, hl0]
  by_cases hab : a = b
  · subst hab
    rw [if_pos rfl]
    refine ⟨?_, ?_, ?_⟩
    · rw [hanc a nsa ha]
      split <;> simp_all
    · rw [hanc a nsa ha]
      split <;> simp_all
    · intro d hd hd2
      rw [hanc a nsa ha] at hd
      by_cases ha0 : a = 0
      · rw [if_pos ha0] at hd
        subst ha0
        have : d = 0 := by simpa using hd
        subst this
        exact Nat.le_refl _
      · rw [if_neg ha0] at hd
        rcases (by simpa using hd : d = a ∨ d = 0) with h | h
        · subst h
          exact Nat.le_refl _
        · subst h
          rw [hlevroot]
          exact Nat.zero_le _
  · rw [if_neg hab]
    refine ⟨?_, ?_, ?_⟩
    · rw [hanc a nsa ha]
      split <;> simp
    · rw [hanc b nsb hb]
      split <;> simp
    · intro d hda hdb
      rw [hanc a nsa ha] at hda
      rw [hanc b nsb hb] at hdb
      have hd0 : d = 0 := by
        by_cases ha0 : a = 0
        · rw [if_pos ha0] at hda
          subst ha0
          simpa using hda
        · rw [if_neg ha0] at hda
          rcases (by simpa using hda : d = a ∨ d = 0) with h | h
          · subst h
            by_cases hb0 : b = 0
            · rw [if_pos hb0] at hdb
              simpa using hdb
            · rw [if_neg hb0] at hdb
              rcases (by simpa using hdb : d = b ∨ d = 0) with h2 | h2
              · exact absurd h2 hab
              · exact h2
          · exact h
      subst hd0
      exact Nat.le_refl _

/-! ### The structural invariant is preserved by the mutating operations -/

theorem newNode_inv_aux (g g1 g2 : Graph) (nd : Node) (u : Unit)
    (hInv : Inv g)
    (h_gid : g1.gid = g.gid) (h_root : g1.rootNest = g.rootNest)
    (h_base : g1.baseGraph = g.baseGraph) (h_nests : g1.nests = g.nests)
    (h_edges : g1.edges = g.edges) (h_nodes : g1.nodes = g.nodes ++ [nd])
    (hnd1 : nd.graph = g.gid) (hnd2 : nd.nest = some 0)
    (hnd3 : nd.firstIncomingEdge = none) (hnd4 : nd.firstOutcomingEdge = none)
    (ha : Nest.addNode g1 0 g.nodes.length = (g2, .ok u)) :
    Inv { g2 with nodeCount := g2.nodeCount + 1 } := by
  have hfr := addNode_frame g1 0 g.nodes.length
  rw [ha] at hfr
  have e1 : g2.gid = g.gid := by rw [hfr.1, h_gid]
  have e2 : g2.rootNest = g.rootNest := by rw [hfr.2.1, h_root]
  have e3 : g2.baseGraph = g.baseGraph := by rw [hfr.2.2.1, h_base]
  have e6 : ∀ j, (g2.nodes.get? j).map nodeCore
      = (g1.nodes.get? j).map nodeCore := hfr.2.2.2.2.2.1
  have e7 : ∀ j, (g2.nests.get? j).map nestCore
      = (g.nests.get? j).map nestCore := by
    intro j
    rw [hfr.2.2.2.2.2.2 j, h_nests]
  have eedges : g2.edges = g.edges := by
    have h2 := addNode_edges g1 0 g.nodes.length
    rw [ha] at h2
    rw [h2, h_edges]
  have hnode1 : ∀ j n1, g1.nodes.get? j = some n1 →
      (g.nodes.get? j = some n1 ∨ (j = g.nodes.length ∧ n1 = nd)) := by
    intro j n1 h1
    rw [h_nodes] at h1
    by_cases hj : j = g.nodes.length
    · subst hj
      have h2 : (g.nodes ++ [nd]).get? g.nodes.length = some n1 := h1
      rw [List.get?_concat_length] at h2
      injection h2 with h3
      exact Or.inr ⟨rfl, h3.symm⟩
    · have h2 : (g.nodes ++ [nd]).get? j = some n1 := h1
      rw [get?_append_singleton_ne g.nodes nd j hj] at h2
      exact Or.inl h2
  have hnodes2 : ∀ j n2, g2.nodes.get? j = some n2 →
      ∃ n1, g1.nodes.get? j = some n1 ∧ nodeCore n1 = nodeCore n2 := by
    intro j n2 h2
    exact map_frame_some (e6 j).symm h2
  have hnests2 : ∀ k ns, g.nests.get? k = some ns →
      ∃ ns2, g2.nests.get? k = some ns2 ∧ nestCore ns2 = nestCore ns := by
    intro k ns hns
    exact map_frame_some (e7 k) hns
  refine ⟨?_, ?_, ?_, ?_, ?_, ?_, ?_, ?_, ?_, ?_, ?_⟩
  · show g2.rootNest = some 0
    rw [e2]
    exact hInv.root_eq
  · show g2.baseGraph = some g2.gid
    rw [e3, e1]
    exact hInv.base_eq
  · obtain ⟨rns, hr⟩ := hInv.root_some
    obtain ⟨rns2, hr2, _⟩ := hnests2 0 rns hr
    exact ⟨rns2, hr2⟩
  · intro j ns2 h2
    obtain ⟨ns, hns⟩ : ∃ ns, g.nests.get? j = some ns := by
      cases hg : g.nests.get? j with
      | none =>
          have h3 : g2.nests.get? j = none := map_frame_none (e7 j) hg
          rw [(by exact h3 : ({ g2 with nodeCount := g2.nodeCount + 1 } :
            Graph).nests.get? j = none)] at h2
          exact Option.noConfusion h2
      | some ns => exact ⟨ns, rfl⟩
    obtain ⟨ns2b, h2b, hcb⟩ := hnests2 j ns hns
    have h2' : g2.nests.get? j = some ns2 := h2
    rw [h2'] at h2b
    injection h2b with h2c
    subst h2c
    rw [show ({ g2 with nodeCount := g2.nodeCount + 1 } : Graph).gid = g2.gid
      from rfl, (nestCore_fields hcb).1, e1]
    exact hInv.nest_tree j ns hns
  · intro ns2 h2
    obtain ⟨rns, hr⟩ := hInv.root_some
    obtain ⟨ns2b, h2b, hcb⟩ := hnests2 0 rns hr
    have h2' : g2.nests.get? 0 = some ns2 := h2
    rw [h2'] at h2b
    injection h2b with h2c
    subst h2c
    rw [(nestCore_fields hcb).2.2, (nestCore_fields hcb).2.1]
    exact hInv.nest_root rns hr
  · intro j ns2 h2 hj
    obtain ⟨ns, hns⟩ : ∃ ns, g.nests.get? j = some ns := by
      cases hg : g.nests.get? j with
      | none =>
          have h3 : g2.nests.get? j = none := map_frame_none (e7 j) hg
          rw [(by exact h3 : ({ g2 with nodeCount := g2.nodeCount + 1 } :
            Graph).nests.get? j = none)] at h2
          exact Option.noConfusion h2
      | some ns => exact ⟨ns, rfl⟩
    obtain ⟨ns2b, h2b, hcb⟩ := hnests2 j ns hns
    have h2' : g2.nests.get? j = some ns2 := h2
    rw [h2'] at h2b
    injection h2b with h2c
    subst h2c
    rw [(nestCore_fields hcb).2.2, (nestCore_fields hcb).2.1]
    exact hInv.nest_child j ns hns hj
  · intro j n2 h2
    obtain ⟨n1, h1, hc1⟩ := hnodes2 j n2 h2
    show n2.graph = g2.gid
    rw [← (nodeCore_fields hc1).1, e1]
    rcases hnode1 j n1 h1 with hold | ⟨hj, hnew⟩
    · exact hInv.node_graph j n1 hold
    · rw [hnew]
      exact hnd1
  · intro j n2 h2
    obtain ⟨n1, h1, hc1⟩ := hnodes2 j n2 h2
    rcases hnode1 j n1 h1 with hold | ⟨hj, hnew⟩
    · obtain ⟨k, ns, hk, hns⟩ := hInv.node_nest j n1 hold
      obtain ⟨ns2, hns2, _⟩ := hnests2 k ns hns
      exact ⟨k, ns2, by rw [← (nodeCore_fields hc1).2.1, hk], hns2⟩
    · obtain ⟨rns, hr⟩ := hInv.root_some
      obtain ⟨rns2, hr2, _⟩ := hnests2 0 rns hr
      refine ⟨0, rns2, ?_, hr2⟩
      rw [← (nodeCore_fields hc1).2.1, hnew]
      exact hnd2
  · intro j n2 h2 k hk
    obtain ⟨n1, h1, hc1⟩ := hnodes2 j n2 h2
    show k < g2.edges.length
    rw [eedges]
    rcases hnode1 j n1 h1 with hold | ⟨hj, hnew⟩
    · exact hInv.node_out_bound j n1 hold k
        (by rw [(nodeCore_fields hc1).2.2.2]; exact hk)
    · rw [← (nodeCore_fields hc1).2.2.2, hnew, hnd4] at hk
      exact Option.noConfusion hk
  · intro j n2 h2 k hk
    obtain ⟨n1, h1, hc1⟩ := hnodes2 j n2 h2
    show k < g2.edges.length
    rw [eedges]
    rcases hnode1 j n1 h1 with hold | ⟨hj, hnew⟩
    · exact hInv.node_in_bound j n1 hold k
        (by rw [(nodeCore_fields hc1).2.2.1]; exact hk)
    · rw [← (nodeCore_fields hc1).2.2.1, hnew, hnd3] at hk
      exact Option.noConfusion hk
  · intro j e2v he2
    have he2' : g2.edges.get? j = some e2v := he2
    rw [eedges] at he2'
    obtain ⟨heg, s, d, sn, dn, a, b, hs1, hs2, hd1, hd2, hsa, hdb, hen, hso, hdi⟩ :=
      hInv.edge_spec j e2v he2'
    have hslen : s < g.nodes.length := by
      by_contra hcon
      rw [List.get?_eq_none.2 (Nat.le_of_not_lt hcon)] at hs2
      exact Option.noConfusion hs2
    have hdlen : d < g.nodes.length := by
      by_contra hcon
      rw [List.get?_eq_none.2 (Nat.le_of_not_lt hcon)] at hd2
      exact Option.noConfusion hd2
    have hs1g : g1.nodes.get? s = some sn := by
      rw [h_nodes, get?_append_singleton_ne g.nodes nd s (Nat.ne_of_lt hslen)]
      exact hs2
    have hd1g : g1.nodes.get? d = some dn := by
      rw [h_nodes, get?_append_singleton_ne g.nodes nd d (Nat.ne_of_lt hdlen)]
      exact hd2
    obtain ⟨sn2, hsn2, hsc⟩ := map_frame_some (e6 s) hs1g
    obtain ⟨dn2, hdn2, hdc⟩ := map_frame_some (e6 d) hd1g
    refine ⟨by rw [show ({ g2 with nodeCount := g2.nodeCount + 1 } :
        Graph).gid = g2.gid from rfl, e1]; exact heg,
      s, d, sn2, dn2, a, b, hs1, hsn2, hd1, hdn2, ?_, ?_, hen, ?_, ?_⟩
    · rw [(nodeCore_fields hsc).2.1]
      exact hsa
    · rw [(nodeCore_fields hdc).2.1]
      exact hdb
    · rw [(nodeCore_fields hsc).2.2.2]
      exact hso
    · rw [(nodeCore_fields hdc).2.2.1]
      exact hdi

theorem newNode_inv (g g' : Graph) (i : Nat) (hInv : Inv g)
    (h : Graph.NewNode g = (g', .ok i)) : Inv g' := by
  unfold Graph.NewNode at h
  rw [hInv.root_eq] at h
  dsimp only at h
  split at h
  · rw [Prod.mk.injEq] at h
    rw [← h.1]
    rename_i g2 u heq
    refine newNode_inv_aux g _ g2
      { firstIncomingEdge := none, firstOutcomingEdge := none,
        id := g.nodeCount, nest := some 0, nextNodeInNest := none,
        prevNodeInNest := none, graph := g.gid,
        strAttrs := List.replicate g.attrSpec.NodeStrAttrNum StrAttrVal.zero }
      u hInv ?_ ?_ ?_ ?_ ?_ ?_ rfl rfl rfl rfl heq
    · rfl
    · exact hInv.root_eq.symm
    · rfl
    · rfl
    · rfl
    · rfl
  · exact absurd (congrArg Prod.snd h) (by simp)
  · exact absurd (congrArg Prod.snd h) (by simp)
  · exact absurd (congrArg Prod.snd h) (by simp)

theorem newNest_ok_aux (g g1 G : Graph) (newn root : Nest) (X n : Nat)
    (fX : Nest → Nest) (hInv : Inv g)
    (hfX : ∀ ns, nestCore (fX ns) = nestCore ns)
    (hroot : g.nests.get? 0 = some root)
    (h_gid : g1.gid = g.gid) (h_root : g1.rootNest = g.rootNest)
    (h_base : g1.baseGraph = g.baseGraph) (h_nodes : g1.nodes = g.nodes)
    (h_edges : g1.edges = g.edges) (h_nests : g1.nests = g.nests ++ [newn])
    (hnewn : newn.nestTree = some g.gid ∧ newn.level = 1 ∧
      newn.parentNest = some 0)
    (hG : G = { updNest (updNest g1 X fX) 0
      (fun ns => { ns with firstChildNest := some g.nests.length }) with
      nestCount := n }) :
    G.gid = g.gid ∧
    (∃ ns, G.nests.get? g.nests.length = some ns ∧
      ns.parentNest = some 0 ∧ ns.level = 1) ∧
    (∃ rns2, G.nests.get? 0 = some rns2 ∧
      rns2.firstChildNest = some g.nests.length) ∧
    Inv G := by
  subst hG
  have hlen0 : 0 < g.nests.length := by
    by_contra hcon
    rw [List.get?_eq_none.2 (Nat.le_of_not_lt hcon)] at hroot
    exact Option.noConfusion hroot
  have hne0 : ¬ (0 : Nat) = g.nests.length := Nat.ne_of_lt hlen0
  have hlne0 : ¬ g.nests.length = 0 := fun hcc => hne0 hcc.symm
  have hg1get : ∀ j, g1.nests.get? j =
      if j = g.nests.length then some newn else g.nests.get? j := by
    intro j
    rw [h_nests]
    by_cases hj : j = g.nests.length
    · rw [if_pos hj, hj, List.get?_concat_length]
    · rw [if_neg hj, get?_append_singleton_ne g.nests newn j hj]
  have hgidG : ({ updNest (updNest g1 X fX) 0
      (fun ns => { ns with firstChildNest := some g.nests.length }) with
      nestCount := n } : Graph).gid = g.gid := by
    show (updNest (updNest g1 X fX) 0 (fun ns => { ns with firstChildNest := some g.nests.length })).gid = g.gid
    rw [updNest_gid, updNest_gid, h_gid]
  have hnodesG : ({ updNest (updNest g1 X fX) 0
      (fun ns => { ns with firstChildNest := some g.nests.length }) with
      nestCount := n } : Graph).nodes = g.nodes := by
    show (updNest (updNest g1 X fX) 0 (fun ns => { ns with firstChildNest := some g.nests.length })).nodes = g.nodes
    rw [updNest_nodes, updNest_nodes, h_nodes]
  have hedgesG : ({ updNest (updNest g1 X fX) 0
      (fun ns => { ns with firstChildNest := some g.nests.length }) with
      nestCount := n } : Graph).edges = g.edges := by
    show (updNest (updNest g1 X fX) 0 (fun ns => { ns with firstChildNest := some g.nests.length })).edges = g.edges
    rw [updNest_edges, updNest_edges, h_edges]
  have hnew : (({ updNest (updNest g1 X fX) 0
      (fun ns => { ns with firstChildNest := some g.nests.length }) with
      nestCount := n } : Graph).nests.get? g.nests.length).map nestCore
      = some (nestCore newn) := by
    show (((updNest (updNest g1 X fX) 0 (fun ns => { ns with firstChildNest := some g.nests.length })).nests.get? g.nests.length)).map
      nestCore = some (nestCore newn)
    rw [updNest_get?, if_neg hlne0, updNest_get?, hg1get g.nests.length,
      if_pos rfl]
    by_cases hX : g.nests.length = X
    · rw [if_pos hX]
      show some (nestCore (fX newn)) = some (nestCore newn)
      rw [hfX newn]
    · rw [if_neg hX]
      rfl
  have hold : ∀ j, ¬ j = g.nests.length →
      (({ updNest (updNest g1 X fX) 0
        (fun ns => { ns with firstChildNest := some g.nests.length }) with
        nestCount := n } : Graph).nests.get? j).map nestCore
      = (g.nests.get? j).map nestCore := by
    intro j hj
    show (((updNest (updNest g1 X fX) 0 (fun ns => { ns with firstChildNest := some g.nests.length })).nests.get? j)).map nestCore
      = (g.nests.get? j).map nestCore
    rw [updNest_get?, updNest_get?, hg1get j, if_neg hj]
    by_cases hj0 : j = 0
    · rw [if_pos hj0]
      by_cases hjX : j = X
      · rw [if_pos hjX]
        cases g.nests.get? j with
        | none => rfl
        | some a =>
            show some (nestCore (fX a)) = some (nestCore a)
            rw [hfX a]
      · rw [if_neg hjX]
        cases g.nests.get? j <;> rfl
    · rw [if_neg hj0]
      by_cases hjX : j = X
      · rw [if_pos hjX]
        cases g.nests.get? j with
        | none => rfl
        | some a =>
            show some (nestCore (fX a)) = some (nestCore a)
            rw [hfX a]
      · rw [if_neg hjX]
  have hB : ∃ rns2, (({ updNest (updNest g1 X fX) 0
      (fun ns => { ns with firstChildNest := some g.nests.length }) with
      nestCount := n } : Graph).nests.get? 0) = some rns2 ∧
      rns2.firstChildNest = some g.nests.length := by
    show ∃ rns2, ((updNest (updNest g1 X fX) 0 (fun ns => { ns with firstChildNest := some g.nests.length })).nests.get? 0)
      = some rns2 ∧ rns2.firstChildNest = some g.nests.length
    rw [updNest_get?, if_pos rfl, updNest_get?, hg1get 0, if_neg hne0, hroot]
    by_cases hX : (0 : Nat) = X
    · rw [if_pos hX]
      exact ⟨_, rfl, rfl⟩
    · rw [if_neg hX]
      exact ⟨_, rfl, rfl⟩
  have hA : ∃ ns, (({ updNest (updNest g1 X fX) 0
      (fun ns => { ns with firstChildNest := some g.nests.length }) with
      nestCount := n } : Graph).nests.get? g.nests.length) = some ns ∧
      ns.parentNest = some 0 ∧ ns.level = 1 := by
    cases hg : ({ updNest (updNest g1 X fX) 0
        (fun ns => { ns with firstChildNest := some g.nests.length }) with
        nestCount := n } : Graph).nests.get? g.nests.length with
    | none =>
        rw [hg] at hnew
        exact absurd hnew (by simp)
    | some ns =>
        rw [hg] at hnew
        injection hnew with h2
        have h3 := nestCore_fields h2
        exact ⟨ns, rfl, by rw [h3.2.2]; exact hnewn.2.2,
          by rw [h3.2.1]; exact hnewn.2.1⟩
  refine ⟨hgidG, hA, hB, ?_, ?_, ?_, ?_, ?_, ?_, ?_, ?_, ?_, ?_, ?_⟩
  · show (updNest (updNest g1 X fX) 0 (fun ns => { ns with firstChildNest := some g.nests.length })).rootNest = some 0
    rw [updNest_rootNest, updNest_rootNest, h_root]
    exact hInv.root_eq
  · rw [hgidG]
    show (updNest (updNest g1 X fX) 0 (fun ns => { ns with firstChildNest := some g.nests.length })).baseGraph = some g.gid
    rw [updNest_baseGraph, updNest_baseGraph, h_base]
    exact hInv.base_eq
  · obtain ⟨rns2, hr2, _⟩ := hB
    exact ⟨rns2, hr2⟩
  · intro j ns2 h2
    by_cases hj : j = g.nests.length
    · subst hj
      rw [h2] at hnew
      injection hnew with h3
      rw [hgidG, (nestCore_fields h3).1]
      exact hnewn.1
    · have h4 := hold j hj
      rw [h2] at h4
      cases hgj : g.nests.get? j with
      | none =>
          rw [hgj] at h4
          exact absurd h4 (by simp)
      | some ns =>
          rw [hgj] at h4
          injection h4 with h5
          rw [hgidG, (nestCore_fields h5).1]
          exact hInv.nest_tree j ns hgj
  · intro ns2 h2
    have h4 := hold 0 hne0
    rw [h2, hroot] at h4
    injection h4 with h5
    rw [(nestCore_fields h5).2.2, (nestCore_fields h5).2.1]
    exact hInv.nest_root root hroot
  · intro j ns2 h2 hj0
    by_cases hj : j = g.nests.length
    · subst hj
      rw [h2] at hnew
      injection hnew with h3
      rw [(nestCore_fields h3).2.2, (nestCore_fields h3).2.1]
      exact ⟨hnewn.2.2, hnewn.2.1⟩
    · have h4 := hold j hj
      rw [h2] at h4
      cases hgj : g.nests.get? j with
      | none =>
          rw [hgj] at h4
          exact absurd h4 (by simp)
      | some ns =>
          rw [hgj] at h4
          injection h4 with h5
          rw [(nestCore_fields h5).2.2, (nestCore_fields h5).2.1]
          exact hInv.nest_child j ns hgj hj0
  · intro j nv h2
    rw [hnodesG] at h2
    rw [hgidG]
    exact hInv.node_graph j nv h2
  · intro j nv h2
    rw [hnodesG] at h2
    obtain ⟨k, ns, hk, hns⟩ := hInv.node_nest j nv h2
    have hkL : ¬ k = g.nests.length := by
      intro hcc
      rw [hcc, List.get?_eq_none.2 (Nat.le_refl _)] at hns
      exact Option.noConfusion hns
    have h4 := hold k hkL
    rw [hns] at h4
    obtain ⟨ns2, hns2, _⟩ := map_frame_some h4 rfl
    exact ⟨k, ns2, hk, hns2⟩
  · intro j nv h2 k hk
    rw [hnodesG] at h2
    rw [hedgesG]
    exact hInv.node_out_bound j nv h2 k hk
  · intro j nv h2 k hk
    rw [hnodesG] at h2
    rw [hedgesG]
    exact hInv.node_in_bound j nv h2 k hk
  · intro j ev he
    rw [hedgesG] at he
    obtain ⟨heg, s, d, sn, dn, a, b, hs1, hs2, hd1, hd2, hsa, hdb, hen, hso, hdi⟩ :=
      hInv.edge_spec j ev he
    exact ⟨by rw [hgidG]; exact heg, s, d, sn, dn, a, b, hs1,
      by rw [hnodesG]; exact hs2, hd1, by rw [hnodesG]; exact hd2,
      hsa, hdb, hen, hso, hdi⟩

theorem newNest_ok (g g' : Graph) (i : Nat) (hInv : Inv g)
    (h : NestTree.NewNest g = (g', .ok i)) :
    i = g.nests.length ∧ g'.gid = g.gid ∧
    (∃ ns, g'.nests.get? i = some ns ∧ ns.parentNest = some 0 ∧
      ns.level = 1) ∧
    (∃ rns2, g'.nests.get? 0 = some rns2 ∧ rns2.firstChildNest = some i) ∧
    Inv g' := by
  obtain ⟨root, hroot⟩ := hInv.root_some
  have hrl : root.level = 0 := (hInv.nest_root root hroot).2
  unfold NestTree.NewNest at h
  rw [hInv.root_eq] at h
  dsimp only at h
  rw [if_neg (by rw [hInv.base_eq]; simp)] at h
  rw [hroot] at h
  dsimp only at h
  cases hfc : root.firstChildNest with
  | some sib =>
      rw [hfc] at h
      dsimp only at h
      rw [Prod.mk.injEq] at h
      obtain ⟨hg', hi⟩ := h
      have hii : g.nests.length = i := by injection hi
      subst hii
      refine ⟨rfl, ?_⟩
      refine newNest_ok_aux g _ g'
        { id := g.nestCount, nestTree := some g.gid, level := root.level + 1,
          parentNest := some 0, firstChildNest := none, lastChildNest := none,
          nextSiblingNest := some sib, prevSiblingNest := none,
          firstNode := none, lastNode := none, firstEdge := none,
          strAttrs := List.replicate g.attrSpec.NestStrAttrNum StrAttrVal.zero }
        root sib _ _ hInv ?_ hroot
        ?_ ?_ ?_ ?_ ?_ ?_ ?_ hg'.symm
      · intro ns
        rfl
      · rfl
      · exact hInv.root_eq.symm
      · rfl
      · rfl
      · rfl
      · rfl
      · exact ⟨rfl, by show root.level + 1 = 1; rw [hrl], rfl⟩
  | none =>
      rw [hfc] at h
      dsimp only at h
      rw [Prod.mk.injEq] at h
      obtain ⟨hg', hi⟩ := h
      have hii : g.nests.length = i := by injection hi
      subst hii
      refine ⟨rfl, ?_⟩
      refine newNest_ok_aux g _ g'
        { id := g.nestCount, nestTree := some g.gid, level := root.level + 1,
          parentNest := some 0, firstChildNest := none, lastChildNest := none,
          nextSiblingNest := none, prevSiblingNest := none,
          firstNode := none, lastNode := none, firstEdge := none,
          strAttrs := List.replicate g.attrSpec.NestStrAttrNum StrAttrVal.zero }
        root 0 _ _ hInv ?_ hroot
        ?_ ?_ ?_ ?_ ?_ ?_ ?_ hg'.symm
      · intro ns
        rfl
      · rfl
      · exact hInv.root_eq.symm
      · rfl
      · rfl
      · rfl
      · rfl
      · exact ⟨rfl, by show root.level + 1 = 1; rw [hrl], rfl⟩

theorem moveFixLoops_ok (fuel : Nat) (g3 g' : Graph) (n : Nat)
    (h : moveFixLoops fuel g3 n = (g', .ok ())) :
    g' = g3 ∧ ∃ node3, g3.nodes.get? n = some node3 ∧
      node3.firstIncomingEdge = none ∧ node3.firstOutcomingEdge = none := by
  unfold moveFixLoops at h
  cases hn3 : g3.nodes.get? n with
  | none =>
      rw [hn3] at h
      exact absurd (congrArg Prod.snd h) (by simp)
  | some node3 =>
      rw [hn3] at h
      dsimp only at h
      rcases hf1 : fixEdgesLoop fuel g3 node3.firstIncomingEdge with ⟨g4, r4⟩
      rw [hf1] at h
      cases r4 with
      | errored m => exact absurd (congrArg Prod.snd h) (by simp [afterIncomingLoop])
      | panicked => exact absurd (congrArg Prod.snd h) (by simp [afterIncomingLoop])
      | diverged => exact absurd (congrArg Prod.snd h) (by simp [afterIncomingLoop])
      | ok u =>
          obtain ⟨hc1, hg4⟩ := fixEdgesLoop_ok fuel g3 g4 node3.firstIncomingEdge
            (by rw [hf1])
          subst hg4
          unfold afterIncomingLoop at h
          dsimp only at h
          rw [hn3] at h
          dsimp only at h
          rcases hf2 : fixEdgesLoop fuel g4 node3.firstOutcomingEdge with ⟨g5, r5⟩
          rw [hf2] at h
          cases r5 with
          | errored m => exact absurd (congrArg Prod.snd h) (by simp)
          | panicked => exact absurd (congrArg Prod.snd h) (by simp)
          | diverged => exact absurd (congrArg Prod.snd h) (by simp)
          | ok u2 =>
              obtain ⟨hc2, hg5⟩ := fixEdgesLoop_ok fuel g4 g5
                node3.firstOutcomingEdge (by rw [hf2])
              subst hg5
              rw [Prod.mk.injEq] at h
              exact ⟨h.1.symm, node3, rfl, hc1, hc2⟩

theorem moveToNest_inv_aux (g g1 g3 : Graph) (n ti cur : Nat)
    (node node3 : Node) (tn : Nest) (u1 u3 : Unit) (hInv : Inv g)
    (hn : g.nodes.get? n = some node)
    (hti : g.nests.get? ti = some tn)
    (hrm : Nest.removeNode g cur n = (g1, .ok u1))
    (hadd : Nest.addNode (updNode g1 n (fun m => { m with nest := some ti }))
      ti n = (g3, .ok u3))
    (hn3 : g3.nodes.get? n = some node3)
    (h3i : node3.firstIncomingEdge = none)
    (h3o : node3.firstOutcomingEdge = none) : Inv g3 := by
  have R := removeNode_frame g cur n
  rw [hrm] at R
  have E1 := removeNode_edges g cur n
  rw [hrm] at E1
  have A := addNode_frame (updNode g1 n (fun m => { m with nest := some ti })) ti n
  rw [hadd] at A
  have E2 := addNode_edges (updNode g1 n (fun m => { m with nest := some ti })) ti n
  rw [hadd] at E2
  have hedges : g3.edges = g.edges := by
    rw [E2]
    show g1.edges = g.edges
    exact E1
  have houtg : g3.gid = g.gid := by
    rw [A.1]
    show g1.gid = g.gid
    exact R.1
  have houtr : g3.rootNest = g.rootNest := by
    rw [A.2.1]
    show g1.rootNest = g.rootNest
    exact R.2.1
  have houtb : g3.baseGraph = g.baseGraph := by
    rw [A.2.2.1]
    show g1.baseGraph = g.baseGraph
    exact R.2.2.1
  have hnests3 : ∀ k, (g3.nests.get? k).map nestCore
      = (g.nests.get? k).map nestCore := by
    intro k
    rw [A.2.2.2.2.2.2 k]
    show (g1.nests.get? k).map nestCore = _
    exact R.2.2.2.2.2.2 k
  have hnodes_ne : ∀ j, ¬ j = n → (g3.nodes.get? j).map nodeCore
      = (g.nodes.get? j).map nodeCore := by
    intro j hj
    rw [A.2.2.2.2.2.1 j, updNode_get?, if_neg hj]
    exact R.2.2.2.2.2.1 j
  obtain ⟨m1, hm1, hcm⟩ : ∃ m1, g1.nodes.get? n = some m1 ∧
      nodeCore m1 = nodeCore node := by
    have h2 := R.2.2.2.2.2.1 n
    rw [hn] at h2
    exact map_frame_some h2 rfl
  have hnodes_at : (g3.nodes.get? n).map nodeCore
      = some (node.graph, some ti, node.firstIncomingEdge,
        node.firstOutcomingEdge) := by
    rw [A.2.2.2.2.2.1 n, updNode_get?, if_pos rfl, hm1]
    show some (nodeCore { m1 with nest := some ti }) = _
    show some (m1.graph, some ti, m1.firstIncomingEdge, m1.firstOutcomingEdge)
      = _
    rw [(nodeCore_fields hcm).1, (nodeCore_fields hcm).2.2.1,
      (nodeCore_fields hcm).2.2.2]
  have hfields : node3.graph = node.graph ∧ node3.nest = some ti ∧
      node3.firstIncomingEdge = node.firstIncomingEdge ∧
      node3.firstOutcomingEdge = node.firstOutcomingEdge := by
    rw [hn3] at hnodes_at
    injection hnodes_at with h2
    unfold nodeCore at h2
    simp only [Prod.mk.injEq] at h2
    exact ⟨h2.1, h2.2.1, h2.2.2.1, h2.2.2.2⟩
  have hInNone : node.firstIncomingEdge = none := by
    rw [← hfields.2.2.1]
    exact h3i
  have hOutNone : node.firstOutcomingEdge = none := by
    rw [← hfields.2.2.2]
    exact h3o
  refine ⟨?_, ?_, ?_, ?_, ?_, ?_, ?_, ?_, ?_, ?_, ?_⟩
  · rw [houtr]
    exact hInv.root_eq
  · rw [houtb, houtg]
    exact hInv.base_eq
  · obtain ⟨rns, hr⟩ := hInv.root_some
    have h2 := hnests3 0
    rw [hr] at h2
    obtain ⟨rns3, hr3, _⟩ := map_frame_some h2 rfl
    exact ⟨rns3, hr3⟩
  · intro k ns3 h3
    cases hgk : g.nests.get? k with
    | none =>
        have h4 := hnests3 k
        rw [hgk] at h4
        rw [map_frame_none h4 rfl] at h3
        exact Option.noConfusion h3
    | some ns =>
        have h4 := hnests3 k
        rw [hgk, h3] at h4
        injection h4 with h5
        rw [houtg, (nestCore_fields h5).1]
        exact hInv.nest_tree k ns hgk
  · intro ns3 h3
    obtain ⟨rns, hr⟩ := hInv.root_some
    have h4 := hnests3 0
    rw [hr, h3] at h4
    injection h4 with h5
    rw [(nestCore_fields h5).2.2, (nestCore_fields h5).2.1]
    exact hInv.nest_root rns hr
  · intro k ns3 h3 hk
    cases hgk : g.nests.get? k with
    | none =>
        have h4 := hnests3 k
        rw [hgk] at h4
        rw [map_frame_none h4 rfl] at h3
        exact Option.noConfusion h3
    | some ns =>
        have h4 := hnests3 k
        rw [hgk, h3] at h4
        injection h4 with h5
        rw [(nestCore_fields h5).2.2, (nestCore_fields h5).2.1]
        exact hInv.nest_child k ns hgk hk
  · intro j nv hj
    by_cases hjn : j = n
    · subst hjn
      rw [hn3] at hj
      injection hj with hj2
      subst hj2
      rw [houtg, hfields.1]
      exact hInv.node_graph j node hn
    · have h4 := hnodes_ne j hjn
      cases hgj : g.nodes.get? j with
      | none =>
          rw [hgj] at h4
          rw [map_frame_none h4 rfl] at hj
          exact Option.noConfusion hj
      | some m =>
          have h5 := h4
          rw [hgj, hj] at h5
          injection h5 with h6
          rw [houtg, (nodeCore_fields h6).1]
          exact hInv.node_graph j m hgj
  · intro j nv hj
    by_cases hjn : j = n
    · subst hjn
      rw [hn3] at hj
      injection hj with hj2
      subst hj2
      have h2 := hnests3 ti
      rw [hti] at h2
      obtain ⟨tn3, htn3, _⟩ := map_frame_some h2 rfl
      exact ⟨ti, tn3, hfields.2.1, htn3⟩
    · have h4 := hnodes_ne j hjn
      cases hgj : g.nodes.get? j with
      | none =>
          rw [hgj] at h4
          rw [map_frame_none h4 rfl] at hj
          exact Option.noConfusion hj
      | some m =>
          rw [hgj, hj] at h4
          injection h4 with h6
          obtain ⟨k, ns, hk, hns⟩ := hInv.node_nest j m hgj
          have h2 := hnests3 k
          rw [hns] at h2
          obtain ⟨ns3, hns3, _⟩ := map_frame_some h2 rfl
          exact ⟨k, ns3, by rw [(nodeCore_fields h6).2.1, hk], hns3⟩
  · intro j nv hj k hk
    rw [hedges]
    by_cases hjn : j = n
    · subst hjn
      rw [hn3] at hj
      injection hj with hj2
      subst hj2
      rw [h3o] at hk
      exact Option.noConfusion hk
    · have h4 := hnodes_ne j hjn
      cases hgj : g.nodes.get? j with
      | none =>
          rw [hgj] at h4
          rw [map_frame_none h4 rfl] at hj
          exact Option.noConfusion hj
      | some m =>
          rw [hgj, hj] at h4
          injection h4 with h6
          exact hInv.node_out_bound j m hgj k
            (by rw [← (nodeCore_fields h6).2.2.2]; exact hk)
  · intro j nv hj k hk
    rw [hedges]
    by_cases hjn : j = n
    · subst hjn
      rw [hn3] at hj
      injection hj with hj2
      subst hj2
      rw [h3i] at hk
      exact Option.noConfusion hk
    · have h4 := hnodes_ne j hjn
      cases hgj : g.nodes.get? j with
      | none =>
          rw [hgj] at h4
          rw [map_frame_none h4 rfl] at hj
          exact Option.noConfusion hj
      | some m =>
          rw [hgj, hj] at h4
          injection h4 with h6
          exact hInv.node_in_bound j m hgj k
            (by rw [← (nodeCore_fields h6).2.2.1]; exact hk)
  · intro j ev he
    rw [hedges] at he
    obtain ⟨heg, s, d, sn, dn, a, b, hs1, hs2, hd1, hd2, hsa, hdb, hen, hso, hdi⟩ :=
      hInv.edge_spec j ev he
    have hsn : ¬ s = n := by
      intro hcc
      subst hcc
      rw [hn] at hs2
      injection hs2 with h2
      subst h2
      exact hso hOutNone
    have hdn2 : ¬ d = n := by
      intro hcc
      subst hcc
      rw [hn] at hd2
      injection hd2 with h2
      subst h2
      exact hdi hInNone
    have h4 := hnodes_ne s hsn
    rw [hs2] at h4
    obtain ⟨sn3, hsn3, hsc⟩ := map_frame_some h4 rfl
    have h5 := hnodes_ne d hdn2
    rw [hd2] at h5
    obtain ⟨dn3, hdn3, hdc⟩ := map_frame_some h5 rfl
    exact ⟨by rw [houtg]; exact heg, s, d, sn3, dn3, a, b, hs1, hsn3, hd1, hdn3,
      by rw [(nodeCore_fields hsc).2.1]; exact hsa,
      by rw [(nodeCore_fields hdc).2.1]; exact hdb, hen,
      by rw [(nodeCore_fields hsc).2.2.2]; exact hso,
      by rw [(nodeCore_fields hdc).2.2.1]; exact hdi⟩

theorem moveToNest_inv (fuel : Nat) (g g' : Graph) (n tg ti : Nat)
    (hInv : Inv g) (h : Node.MoveToNest fuel g n tg ti = (g', .ok ())) :
    Inv g' := by
  unfold Node.MoveToNest at h
  cases hn : g.nodes.get? n with
  | none =>
      rw [hn] at h
      exact absurd (congrArg Prod.snd h) (by simp)
  | some node =>
      rw [hn] at h
      dsimp only at h
      by_cases htg : tg = g.gid
      · rw [if_pos htg] at h
        cases hti : g.nests.get? ti with
        | none =>
            rw [hti] at h
            exact absurd (congrArg Prod.snd h) (by simp)
        | some tn =>
            rw [hti] at h
            dsimp only at h
            cases htn : tn.nestTree with
            | none =>
                rw [htn] at h
                exact absurd (congrArg Prod.snd h) (by simp)
            | some bg =>
                rw [htn] at h
                dsimp only at h
                split at h
                · exact absurd (congrArg Prod.snd h) (by simp)
                · cases hcur : node.nest with
                  | none =>
                      rw [hcur] at h
                      exact absurd (congrArg Prod.snd h) (by simp)
                  | some cur =>
                      rw [hcur] at h
                      dsimp only at h
                      rcases hrm : Nest.removeNode g cur n with ⟨g1, r1⟩
                      rw [hrm] at h
                      cases r1 with
                      | errored m => exact absurd (congrArg Prod.snd h) (by simp)
                      | panicked => exact absurd (congrArg Prod.snd h) (by simp)
                      | diverged => exact absurd (congrArg Prod.snd h) (by simp)
                      | ok u1 =>
                          dsimp only at h
                          rcases hadd : Nest.addNode
                            (updNode g1 n (fun m => { m with nest := some ti }))
                            ti n with ⟨g3, r3⟩
                          rw [hadd] at h
                          cases r3 with
                          | errored m =>
                              exact absurd (congrArg Prod.snd h) (by simp)
                          | panicked =>
                              exact absurd (congrArg Prod.snd h) (by simp)
                          | diverged =>
                              exact absurd (congrArg Prod.snd h) (by simp)
                          | ok u3 =>
                              dsimp only at h
                              obtain ⟨hg', node3, hn3, h3i, h3o⟩ :=
                                moveFixLoops_ok fuel g3 g' n h
                              subst hg'
                              exact moveToNest_inv_aux g g1 g' n ti cur node
                                node3 tn u1 u3 hInv hn hti hrm hadd hn3 h3i h3o
      · rw [if_neg htg] at h
        dsimp only at h
        rw [if_pos (by
          rw [hInv.node_graph n node hn]
          exact htg)] at h
        exact absurd (congrArg Prod.snd h) (by simp)

theorem edgeAdj_graph {e1 e2 : Edge} (h : edgeAdj e1 = edgeAdj e2) :
    e1.graph = e2.graph := by
  unfold edgeAdj at h
  simp only [Prod.mk.injEq] at h
  exact h.2.1

/-- On a flat tree the two climbing phases followed by the joint climb land on
the source nest when the two nests agree and on the root otherwise. -/
theorem calcNest_final_flat (g : Graph) (rns : Nest)
    (h0 : g.nests.get? 0 = some rns) (hp0 : rns.parentNest = none)
    (hl0 : rns.level = 0)
    (hc : ∀ i ns, g.nests.get? i = some ns → 0 < i →
      ns.parentNest = some 0 ∧ ns.level = 1)
    (sni dni : Nat) (snest dnest : Nest)
    (hsne : g.nests.get? sni = some snest)
    (hdne : g.nests.get? dni = some dnest)
    (sni1 : Nat) (snest1 : Nest) (dni1 final : Nat)
    (hc1 : climbAboveLevel g (g.nests.length + 1) sni dnest.level = .ok sni1)
    (hg1e : g.nests.get? sni1 = some snest1)
    (hc2 : climbAboveLevel g (g.nests.length + 1) dni snest1.level = .ok dni1)
    (hc3 : climbJoint g (g.nests.length + 1) sni1 dni1 = .ok final) :
    final = if sni = dni then sni else 0 := by
  have h1eval := climbAboveLevel_flat g rns h0 hp0 hl0 hc sni snest hsne
    dnest.level g.nests.length
  rw [h1eval] at hc1
  injection hc1 with hsni1
  by_cases hab : sni = dni
  · subst hab
    rw [if_pos rfl]
    rw [hdne] at hsne
    injection hsne with hsd
    subst hsd
    rw [if_pos (Nat.le_refl _)] at hsni1
    subst hsni1
    rw [hdne] at hg1e
    injection hg1e with hs1
    subst hs1
    have h2eval := climbAboveLevel_flat g rns h0 hp0 hl0 hc sni dnest hdne
      dnest.level g.nests.length
    rw [h2eval, if_pos (Nat.le_refl _)] at hc2
    injection hc2 with hdni1
    subst hdni1
    rw [climbJoint_flat_eq g sni (g.nests.length + 1)] at hc3
    injection hc3 with hfin
    exact hfin.symm
  · rw [if_neg hab]
    have hlev : ∀ i ns, g.nests.get? i = some ns →
        ns.level = if i = 0 then 0 else 1 := by
      intro i ns hi
      by_cases hi0 : i = 0
      · subst hi0
        rw [h0] at hi
        injection hi with h2
        rw [if_pos rfl, ← h2, hl0]
      · rw [if_neg hi0]
        exact (hc i ns hi (Nat.pos_of_ne_zero hi0)).2
    have hsl := hlev sni snest hsne
    have hdl := hlev dni dnest hdne
    by_cases hs0 : sni = 0
    · have hd0 : ¬ dni = 0 := fun hcc => hab (hs0.trans hcc.symm)
      rw [if_pos hs0] at hsl
      rw [if_neg hd0] at hdl
      rw [if_pos (by rw [hsl, hdl]; exact Nat.zero_le 1)] at hsni1
      subst hsni1
      have hsn1 : snest1 = snest := by
        rw [hsne] at hg1e
        injection hg1e with h2
        exact h2.symm
      have h2eval := climbAboveLevel_flat g rns h0 hp0 hl0 hc dni dnest hdne
        snest1.level g.nests.length
      rw [h2eval, if_neg (by rw [hdl, hsn1, hsl]; simp)] at hc2
      injection hc2 with hdni1
      subst hdni1
      rw [hs0, climbJoint_flat_eq g 0 (g.nests.length + 1)] at hc3
      injection hc3 with hfin
      exact hfin.symm
    · by_cases hd0 : dni = 0
      · rw [if_neg hs0] at hsl
        rw [if_pos hd0] at hdl
        rw [if_neg (by rw [hsl, hdl]; simp)] at hsni1
        subst hsni1
        have hsn1 : snest1 = rns := by
          rw [h0] at hg1e
          injection hg1e with h2
          exact h2.symm
        have h2eval := climbAboveLevel_flat g rns h0 hp0 hl0 hc dni dnest hdne
          snest1.level g.nests.length
        rw [h2eval, if_pos (by rw [hdl, hsn1, hl0]; try exact Nat.le_refl _)] at hc2
        injection hc2 with hdni1
        subst hdni1
        rw [hd0, climbJoint_flat_eq g 0 (g.nests.length + 1)] at hc3
        injection hc3 with hfin
        exact hfin.symm
      · rw [if_neg hs0] at hsl
        rw [if_neg hd0] at hdl
        rw [if_pos (by rw [hsl, hdl]; try exact Nat.le_refl _)] at hsni1
        subst hsni1
        have hsn1 : snest1 = snest := by
          rw [hsne] at hg1e
          injection hg1e with h2
          exact h2.symm
        have h2eval := climbAboveLevel_flat g rns h0 hp0 hl0 hc dni dnest hdne
          snest1.level g.nests.length
        rw [h2eval, if_pos (by rw [hdl, hsn1, hsl]; try exact Nat.le_refl _)] at hc2
        injection hc2 with hdni1
        subst hdni1
        rw [climbJoint_flat_ne g rns h0 hc sni dni snest dnest hsne hdne
          (fun hcc => hab hcc.symm) (Nat.pos_of_ne_zero hs0)
          (Nat.pos_of_ne_zero hd0) g.nests.length] at hc3
        injection hc3 with hfin
        exact hfin.symm

theorem newEdge_attach_inv (g g' : Graph) (si di eIdx : Nat) (sn dn : Node)
    (hInv : Inv g)
    (hsn : g.nodes.get? si = some sn) (hdn : g.nodes.get? di = some dn)
    (ha : attachNewEdge g si di sn dn = (g', .ok eIdx)) : Inv g' := by
  obtain ⟨rns, hr⟩ := hInv.root_some
  have hrp := hInv.nest_root rns hr
  unfold attachNewEdge at ha
  dsimp only at ha
  rcases hcc : Edge.calcNestAndMoveToIt (newEdgeHeapAfterInsert g si di sn dn)
    g.edges.length with ⟨g6, rc⟩
  rw [hcc] at ha
  cases rc with
  | errored m => exact absurd (congrArg Prod.snd ha) (by simp)
  | panicked => exact absurd (congrArg Prod.snd ha) (by simp)
  | diverged => exact absurd (congrArg Prod.snd ha) (by simp)
  | ok u =>
  dsimp only at ha
  rw [Prod.mk.injEq] at ha
  obtain ⟨hg6, heIdx⟩ := ha
  rcases calcNest_cases (newEdgeHeapAfterInsert g si di sn dn) g.edges.length
    with ⟨r, heq, hok, -⟩ | ⟨ed, s, d, sn5, dn5, sni, dni, snest, dnest, sni1,
      snest1, dni1, final, he, hs, hd, hsn5, hdn5, hgg, hgg2, hsnest, hdnest,
      hsne, hdne, ht1, ht2, hcl1, hg1e, hcl2, hcl3, heq⟩
  · rw [heq] at hcc
    rw [Prod.mk.injEq] at hcc
    exact absurd hcc.2 (hok u)
  · obtain ⟨ed0, hed0, hsrc0, hdst0, hnxo0, hnxi0, hgr0, hnst0⟩ :=
      insert_edge_record g si di sn dn
    rw [hed0] at he
    injection he with hee
    subst hee
    rw [hsrc0] at hs
    injection hs with hss
    subst hss
    rw [hdst0] at hd
    injection hd with hdd
    subst hdd
    obtain ⟨snb, hsnb, hsnest5, hsgr5, hsout5, hsin5⟩ :=
      insert_node_fields g si di sn dn si sn5 hsn5
    rw [hsn] at hsnb
    injection hsnb with hsnb2
    subst hsnb2
    obtain ⟨dnb, hdnb, hdnest5, hdgr5, hdout5, hdin5⟩ :=
      insert_node_fields g si di sn dn di dn5 hdn5
    rw [hdn] at hdnb
    injection hdnb with hdnb2
    subst hdnb2
    rw [hsnest5] at hsnest
    rw [hdnest5] at hdnest
    have h5nests := insert_nests g si di sn dn
    have h05 : (newEdgeHeapAfterInsert g si di sn dn).nests.get? 0
        = some rns := by
      rw [h5nests]
      exact hr
    have hc5 : ∀ i ns,
        (newEdgeHeapAfterInsert g si di sn dn).nests.get? i = some ns →
        0 < i → ns.parentNest = some 0 ∧ ns.level = 1 := by
      intro i ns h2 h3
      rw [h5nests] at h2
      exact hInv.nest_child i ns h2 h3
    have hfin : final = if sni = dni then sni else 0 :=
      calcNest_final_flat (newEdgeHeapAfterInsert g si di sn dn) rns h05
        hrp.1 hrp.2 hc5 sni dni snest dnest hsne hdne sni1 snest1 dni1 final
        hcl1 hg1e hcl2 hcl3
    rw [heq] at hcc
    have F := moveEdgeToNest_frame (newEdgeHeapAfterInsert g si di sn dn)
      g.edges.length ed0.nest final
    rw [hcc] at F
    have hnodes6 := moveEdgeToNest_nodes (newEdgeHeapAfterInsert g si di sn dn)
      g.edges.length ed0.nest final
    rw [hcc] at hnodes6
    obtain ⟨ed', hed', hadj, hednest⟩ := moveEdgeToNest_ok_nest
      (newEdgeHeapAfterInsert g si di sn dn) g6 g.edges.length ed0.nest final u
      ed0 hed0 hcc
    have hgid6 : g6.gid = g.gid := by
      rw [F.1, insert_gid]
    have hroot6 : g6.rootNest = g.rootNest := by
      rw [F.2.1, insert_rootNest]
    have hbase6 : g6.baseGraph = g.baseGraph := by
      rw [F.2.2.1, insert_baseGraph]
    have helen6 : g6.edges.length = g.edges.length + 1 := by
      rw [F.2.2.2.2.1, insert_edges_length]
    have hnest6 : ∀ k, (g6.nests.get? k).map nestCore
        = (g.nests.get? k).map nestCore := by
      intro k
      rw [F.2.2.2.2.2.1 k, h5nests]
    have hecore6 : ∀ j, ¬ j = g.edges.length →
        (g6.edges.get? j).map edgeCore = (g.edges.get? j).map edgeCore := by
      intro j hj
      rw [F.2.2.2.2.2.2 j hj, insert_core_ne g si di sn dn j hj]
    have hnode6 : ∀ j n1, g6.nodes.get? j = some n1 →
        ∃ n, g.nodes.get? j = some n ∧ n1.nest = n.nest ∧ n1.graph = n.graph ∧
        (n1.firstOutcomingEdge = n.firstOutcomingEdge ∨
          n1.firstOutcomingEdge = some g.edges.length) ∧
        (n1.firstIncomingEdge = n.firstIncomingEdge ∨
          n1.firstIncomingEdge = some g.edges.length) := by
      intro j n1 h2
      rw [hnodes6] at h2
      exact insert_node_fields g si di sn dn j n1 h2
    have hnodeF : ∀ j n, g.nodes.get? j = some n →
        ∃ n1, g6.nodes.get? j = some n1 ∧ n1.nest = n.nest ∧
        (n1.firstOutcomingEdge = n.firstOutcomingEdge ∨
          n1.firstOutcomingEdge = some g.edges.length) ∧
        (n1.firstIncomingEdge = n.firstIncomingEdge ∨
          n1.firstIncomingEdge = some g.edges.length) := by
      intro j n h2
      rw [hnodes6, insert_nodes_get? g si di sn dn j]
      dsimp only
      by_cases hdi2 : j = di
      · rw [if_pos hdi2]
        by_cases hsi2 : j = si
        · rw [if_pos hsi2, h2]
          exact ⟨_, rfl, rfl, Or.inr rfl, Or.inr rfl⟩
        · rw [if_neg hsi2, h2]
          exact ⟨_, rfl, rfl, Or.inl rfl, Or.inr rfl⟩
      · rw [if_neg hdi2]
        by_cases hsi2 : j = si
        · rw [if_pos hsi2, h2]
          exact ⟨_, rfl, rfl, Or.inr rfl, Or.inl rfl⟩
        · rw [if_neg hsi2, h2]
          exact ⟨n, rfl, rfl, Or.inl rfl, Or.inl rfl⟩
    obtain ⟨⟨sn6, hsn6, hsn6o⟩, ⟨dn6, hdn6, hdn6i⟩⟩ :=
      insert_heads g si di sn dn hsn hdn
    have hsn6' : g6.nodes.get? si = some sn6 := by
      rw [hnodes6]
      exact hsn6
    have hdn6' : g6.nodes.get? di = some dn6 := by
      rw [hnodes6]
      exact hdn6
    rw [← hg6]
    refine ⟨?_, ?_, ?_, ?_, ?_, ?_, ?_, ?_, ?_, ?_, ?_⟩
    · show g6.rootNest = some 0
      rw [hroot6]
      exact hInv.root_eq
    · show g6.baseGraph = some g6.gid
      rw [hbase6, hgid6]
      exact hInv.base_eq
    · have h2 := hnest6 0
      rw [hr] at h2
      obtain ⟨rns6, hr6, _⟩ := map_frame_some h2 rfl
      exact ⟨rns6, hr6⟩
    · intro k ns6 h6
      have h6' : g6.nests.get? k = some ns6 := h6
      cases hgk : g.nests.get? k with
      | none =>
          have h2 := hnest6 k
          rw [hgk] at h2
          rw [map_frame_none h2 rfl] at h6'
          exact Option.noConfusion h6'
      | some ns =>
          have h2 := hnest6 k
          rw [hgk, h6'] at h2
          injection h2 with h3
          show ns6.nestTree = some g6.gid
          rw [hgid6, (nestCore_fields h3).1]
          exact hInv.nest_tree k ns hgk
    · intro ns6 h6
      have h6' : g6.nests.get? 0 = some ns6 := h6
      have h2 := hnest6 0
      rw [hr, h6'] at h2
      injection h2 with h3
      rw [(nestCore_fields h3).2.2, (nestCore_fields h3).2.1]
      exact hrp
    · intro k ns6 h6 hk
      have h6' : g6.nests.get? k = some ns6 := h6
      cases hgk : g.nests.get? k with
      | none =>
          have h2 := hnest6 k
          rw [hgk] at h2
          rw [map_frame_none h2 rfl] at h6'
          exact Option.noConfusion h6'
      | some ns =>
          have h2 := hnest6 k
          rw [hgk, h6'] at h2
          injection h2 with h3
          rw [(nestCore_fields h3).2.2, (nestCore_fields h3).2.1]
          exact hInv.nest_child k ns hgk hk
    · intro j nv h2
      have h2' : g6.nodes.get? j = some nv := h2
      obtain ⟨n, hgn, _, hgr, _, _⟩ := hnode6 j nv h2'
      show nv.graph = g6.gid
      rw [hgid6, hgr]
      exact hInv.node_graph j n hgn
    · intro j nv h2
      have h2' : g6.nodes.get? j = some nv := h2
      obtain ⟨n, hgn, hnst, _, _, _⟩ := hnode6 j nv h2'
      obtain ⟨k, ns, hk, hns⟩ := hInv.node_nest j n hgn
      have h3 := hnest6 k
      rw [hns] at h3
      obtain ⟨ns6, hns6, _⟩ := map_frame_some h3 rfl
      exact ⟨k, ns6, by rw [hnst, hk], hns6⟩
    · intro j nv h2 k hk
      have h2' : g6.nodes.get? j = some nv := h2
      obtain ⟨n, hgn, _, _, hout, _⟩ := hnode6 j nv h2'
      show k < g6.edges.length
      rw [helen6]
      rcases hout with hout | hout
      · rw [hout] at hk
        exact Nat.lt_succ_of_lt (hInv.node_out_bound j n hgn k hk)
      · rw [hout] at hk
        injection hk with hk2
        rw [← hk2]
        exact Nat.lt_succ_self _
    · intro j nv h2 k hk
      have h2' : g6.nodes.get? j = some nv := h2
      obtain ⟨n, hgn, _, _, _, hin⟩ := hnode6 j nv h2'
      show k < g6.edges.length
      rw [helen6]
      rcases hin with hin | hin
      · rw [hin] at hk
        exact Nat.lt_succ_of_lt (hInv.node_in_bound j n hgn k hk)
      · rw [hin] at hk
        injection hk with hk2
        rw [← hk2]
        exact Nat.lt_succ_self _
    · intro j ev he2
      have he2' : g6.edges.get? j = some ev := he2
      by_cases hje : j = g.edges.length
      · subst hje
        rw [hed'] at he2'
        injection he2' with he3
        rw [he3] at hadj hednest
        obtain ⟨hadjs, hadjd, _, _⟩ := edgeAdj_fields hadj
        obtain ⟨n2, hgn2, hnst2, _, _, _⟩ := hnode6 si sn6 hsn6'
        rw [hsn] at hgn2
        injection hgn2 with hgn3
        subst hgn3
        obtain ⟨m2, hgm2, hmst2, _, _, _⟩ := hnode6 di dn6 hdn6'
        rw [hdn] at hgm2
        injection hgm2 with hgm3
        subst hgm3
        refine ⟨?_, si, di, sn6, dn6, sni, dni, ?_, hsn6', ?_, hdn6',
          ?_, ?_, ?_, ?_, ?_⟩
        · show ev.graph = g6.gid
          rw [hgid6, edgeAdj_graph hadj, hgr0]
        · rw [hadjs, hsrc0]
        · rw [hadjd, hdst0]
        · rw [hnst2]
          exact hsnest
        · rw [hmst2]
          exact hdnest
        · rw [hednest, hfin]
        · rw [hsn6o]
          exact Option.noConfusion
        · rw [hdn6i]
          exact Option.noConfusion
      · have h3 := hecore6 j hje
        rw [he2'] at h3
        obtain ⟨evO, hevO, hcoreO⟩ : ∃ evO, g.edges.get? j = some evO ∧
            edgeCore ev = edgeCore evO := by
          cases hgj : g.edges.get? j with
          | none =>
              rw [hgj] at h3
              exact absurd h3 (by simp)
          | some evO =>
              rw [hgj] at h3
              injection h3 with h4
              exact ⟨evO, rfl, h4⟩
        obtain ⟨heg, s2, d2, snO, dnO, a, b, hs1, hs2, hd1, hd2, hsa, hdb2,
          hen, hso, hdi3⟩ := hInv.edge_spec j evO hevO
        obtain ⟨snN, hsnN, hsnNn, hsnNo, _⟩ := hnodeF s2 snO hs2
        obtain ⟨dnN, hdnN, hdnNn, _, hdnNi⟩ := hnodeF d2 dnO hd2
        refine ⟨?_, s2, d2, snN, dnN, a, b, ?_, hsnN, ?_, hdnN, ?_, ?_, ?_,
          ?_, ?_⟩
        · show ev.graph = g6.gid
          rw [hgid6, (edgeCore_fields hcoreO).1]
          exact heg
        · rw [(edgeCore_fields hcoreO).2.1]
          exact hs1
        · rw [(edgeCore_fields hcoreO).2.2.1]
          exact hd1
        · rw [hsnNn]
          exact hsa
        · rw [hdnNn]
          exact hdb2
        · rw [(edgeCore_fields hcoreO).2.2.2]
          exact hen
        · rcases hsnNo with h4 | h4
          · rw [h4]
            exact hso
          · rw [h4]
            exact Option.noConfusion
        · rcases hdnNi with h4 | h4
          · rw [h4]
            exact hdi3
          · rw [h4]
            exact Option.noConfusion

theorem newEdge_inv (g g' : Graph) (src dst : Option (Nat × Nat)) (eIdx : Nat)
    (hInv : Inv g) (h : Graph.NewEdge g src dst = (g', .ok eIdx)) : Inv g' := by
  unfold Graph.NewEdge at h
  cases src with
  | none => exact absurd (congrArg Prod.snd h) (by simp)
  | some p =>
      obtain ⟨sg, si⟩ := p
      dsimp only at h
      cases dst with
      | none => exact absurd (congrArg Prod.snd h) (by simp)
      | some q =>
          obtain ⟨dg, di⟩ := q
          dsimp only at h
          split at h
          · exact absurd (congrArg Prod.snd h) (by simp)
          · cases hsn : g.nodes.get? si with
            | none =>
                rw [hsn] at h
                exact absurd (congrArg Prod.snd h) (by simp)
            | some sn =>
                rw [hsn] at h
                dsimp only at h
                split at h
                · exact absurd (congrArg Prod.snd h) (by simp)
                · split at h
                  · exact absurd (congrArg Prod.snd h) (by simp)
                  · cases hdn : g.nodes.get? di with
                    | none =>
                        rw [hdn] at h
                        exact absurd (congrArg Prod.snd h) (by simp)
                    | some dn =>
                        rw [hdn] at h
                        dsimp only at h
                        split at h
                        · exact absurd (congrArg Prod.snd h) (by simp)
                        · exact newEdge_attach_inv g g' si di eIdx sn dn hInv
                            hsn hdn h

/-- Every reachable state satisfies the structural invariant. -/
theorem reach_inv : ∀ g, Reach g → Inv g := by
  intro g h
  induction h with
  | init gid spec => exact inv_newGraph gid spec
  | newNode g g' i hr heq ih => exact newNode_inv g g' i ih heq
  | newNest g g' i hr heq ih => exact (newNest_ok g g' i ih heq).2.2.2.2
  | newEdge g g' s d i hr heq ih => exact newEdge_inv g g' s d i ih heq
  | moveToNest g g' fuel n tg ti hr heq ih =>
      exact moveToNest_inv fuel g g' n tg ti ih heq
  | allocGraphAttr g g' a hr heq ih =>
      have hs := allocGraphAttr_structSim g
      rw [heq] at hs
      exact structSim_preserves_Inv hs ih
  | allocNodeAttr g g' a hr heq ih =>
      have hs := allocNodeAttr_structSim g
      rw [heq] at hs
      exact structSim_preserves_Inv hs ih
  | allocNestAttr g g' a hr heq ih =>
      have hs := allocNestAttr_structSim g
      rw [heq] at hs
      exact structSim_preserves_Inv hs ih
  | setGraphAttr g g' a v hr heq ih =>
      have hs := setGraphAttr_structSim g a v
      rw [heq] at hs
      exact structSim_preserves_Inv hs ih
  | setNodeAttr g g' n a v hr heq ih =>
      have hs := setNodeAttr_structSim g n a v
      rw [heq] at hs
      exact structSim_preserves_Inv hs ih
  | setNestAttr g g' n a v hr heq ih =>
      have hs := setNestAttr_structSim g n a v
      rw [heq] at hs
      exact structSim_preserves_Inv hs ih
  | removeGraphAttr g g' a hr heq ih =>
      have hs := removeGraphAttr_structSim g a
      rw [heq] at hs
      exact structSim_preserves_Inv hs ih
  | removeNodeAttr g g' n a hr heq ih =>
      have hs := removeNodeAttr_structSim g n a
      rw [heq] at hs
      exact structSim_preserves_Inv hs ih
  | removeNestAttr g g' n a hr heq ih =>
      have hs := removeNestAttr_structSim g n a
      rw [heq] at hs
      exact structSim_preserves_Inv hs ih
  | releaseGraphAttr g g' a a' hr heq ih =>
      have hs := releaseGraphAttr_structSim g a
      rw [heq] at hs
      exact structSim_preserves_Inv hs ih
  | releaseNodeAttr g g' a a' hr heq ih =>
      have hs := releaseNodeAttr_structSim g a
      rw [heq] at hs
      exact structSim_preserves_Inv hs ih
  | releaseNestAttr g g' a a' hr heq ih =>
      have hs := releaseNestAttr_structSim g a
      rw [heq] at hs
      exact structSim_preserves_Inv hs ih

theorem reach_exG0 : Reach exG0 := Reach.init 0 exSpec

theorem reach_exG3 : Reach exG3 :=
  Reach.newEdge exG2 exG3 (some (0, 0)) (some (0, 1)) 0
    (Reach.newNode exG1 exG2 1
      (Reach.newNode exG0 exG1 0 reach_exG0 (by decide)) (by decide))
    (by decide)

theorem reach_exG4 : Reach exG4 :=
  Reach.newNest exG3 exG4 1 reach_exG3 (by decide)

/-- C1: in every reachable state, every edge of the graph records its two
endpoints, and its nest is the nearest common ancestor, in the nest tree, of
the source node's nest and the destination node's nest.  Reachable states are
those produced by completed public mutating operations (`NewGraph`,
`NewNode`, `NewNest`, `NewEdge`, `MoveToNest` and the attribute operations),
so the invariant holds after each such operation completes. -/
theorem edge_nest_is_nca (g : Graph) (h : Reach g) (i : Nat)
    (hi : i < g.edges.length) :
    ∃ e s d sn dn a b c, g.edges.get? i = some e ∧
      e.srcNode = some s ∧ g.nodes.get? s = some sn ∧
      e.dstNode = some d ∧ g.nodes.get? d = some dn ∧
      sn.nest = some a ∧ dn.nest = some b ∧
      e.nest = some c ∧ IsNCA g a b c := by
  have hInv := reach_inv g h
  obtain ⟨e, he⟩ : ∃ e, g.edges.get? i = some e := by
    cases hg : g.edges.get? i with
    | none =>
        rw [List.get?_eq_none] at hg
        exact absurd hg (Nat.not_le_of_lt hi)
    | some e => exact ⟨e, rfl⟩
  obtain ⟨heg, s, d, sn, dn, a, b, hs1, hs2, hd1, hd2, hsa, hdb, hen, -, -⟩ :=
    hInv.edge_spec i e he
  obtain ⟨ka, nsa, hka, hnsa⟩ := hInv.node_nest s sn hs2
  rw [hsa] at hka
  injection hka with hka2
  subst hka2
  obtain ⟨kb, nsb, hkb, hnsb⟩ := hInv.node_nest d dn hd2
  rw [hdb] at hkb
  injection hkb with hkb2
  subst hkb2
  obtain ⟨rns, hr⟩ := hInv.root_some
  have hrp := hInv.nest_root rns hr
  exact ⟨e, s, d, sn, dn, a, b, if a = b then a else 0, he, hs1, hs2, hd1,
    hd2, hsa, hdb, hen,
    flat_isNCA g rns hr hrp.1 hrp.2 hInv.nest_child a b nsa nsb hnsa hnsb⟩

/-- Concrete run of C1: on the reachable state with nodes 0, 1 and the edge
0 → 1, the edge's nest is the nearest common ancestor of its endpoints'
nests. -/
theorem edge_nest_is_nca_witness :
    0 < exG3.edges.length ∧
    (∃ e s d sn dn a b c, exG3.edges.get? 0 = some e ∧
      e.srcNode = some s ∧ exG3.nodes.get? s = some sn ∧
      e.dstNode = some d ∧ exG3.nodes.get? d = some dn ∧
      sn.nest = some a ∧ dn.nest = some b ∧
      e.nest = some c ∧ IsNCA exG3 a b c) :=
  ⟨by decide, edge_nest_is_nca exG3 reach_exG3 0 (by decide)⟩

/-- C10: every nest created by `NewNest` on a reachable state is made a
direct child of the root nest at level 1 and is head-inserted into the root's
child list; and since no public operation re-parents a nest, in every
reachable state every non-root nest is a direct child of the root — the nest
tree has depth at most 1. -/
theorem newNest_flat_tree :
    (∀ g g' i, Reach g → NestTree.NewNest g = (g', .ok i) →
      (∃ ns, g'.nests.get? i = some ns ∧ ns.parentNest = some 0 ∧
        ns.level = 1) ∧
      (∃ rns, g'.nests.get? 0 = some rns ∧ rns.firstChildNest = some i)) ∧
    (∀ g, Reach g → ∀ i ns, g.nests.get? i = some ns → 0 < i →
      ns.parentNest = some 0 ∧ ns.level = 1) := by
  constructor
  · intro g g' i hr heq
    have hInv := reach_inv g hr
    obtain ⟨-, -, hA, hB, -⟩ := newNest_ok g g' i hInv heq
    exact ⟨hA, hB⟩
  · intro g hr i ns hns hi
    exact (reach_inv g hr).nest_child i ns hns hi

/-- Concrete run of C10: the nest created on `exG3` is the level-1 head child
of the root, and in the resulting reachable state every non-root nest is a
direct child of the root. -/
theorem newNest_flat_tree_witness :
    ((∃ ns, exG4.nests.get? 1 = some ns ∧ ns.parentNest = some 0 ∧
        ns.level = 1) ∧
      (∃ rns, exG4.nests.get? 0 = some rns ∧ rns.firstChildNest = some 1)) ∧
    (∀ i ns, exG4.nests.get? i = some ns → 0 < i →
      ns.parentNest = some 0 ∧ ns.level = 1) :=
  ⟨newNest_flat_tree.1 exG3 exG4 1 reach_exG3 (by decide),
   newNest_flat_tree.2 exG4 reach_exG4⟩

end GraphPkg
